import Mathlib

/-! Control Service client: lock operations.

A shallow embedding of the lock-related part of the `controlclient` package
(`client.go`, `packer_client.go`, `piper_client.go`, `types.go`).

* A Go `error` is an `Option String`: `none` is `nil`, `some msg` carries the message.
* A Go pointer result `*T` is an `Option T`: `none` is `nil`.
* The network is explicit state: the list of requests handed to `httpClient.Do` so far,
  oldest first. Every operation takes that list and returns it extended.
* The `context.Context` argument is not modelled: cancellation and timeouts surface as an
  error of `httpClient.Do`.
* Packages outside the repository whose results the code only passes on (`sonic`, the URL
  parser behind `http.NewRequestWithContext`) are taken as a parameter `Packages`.
* Whether the URL parser accepts a URL is that parameter; what it makes of the path of an
  accepted URL, and so what the transport puts on the request line, is embedded from
  `net/url` (`Parse`, `setPath`, `EscapedPath`, `RequestURI`).
-/

set_option maxRecDepth 100000

namespace controlclient

/-! ## Data model (`types.go`) -/

/-- An instant (`time.Time`), as a number of seconds; `0` stands for the zero `time.Time`. -/
abbrev Time := Int

/-- The struct `PackerTenantLock`. -/
structure PackerTenantLock where
  TenantID : String
  LockedBy : String
  LockTimestamp : Time
  LastHeartbeat : Time
  TTL : Time
deriving DecidableEq, Repr

/-- The struct `PiperFileLock`. -/
structure PiperFileLock where
  LockID : Int
  TenantID : String
  DatasetID : String
  FileKey : String
  LockedBy : String
  LockTimestamp : Time
  LastHeartbeat : Time
  TTL : Time
deriving DecidableEq, Repr

/-- The struct `CountResponse`. -/
structure CountResponse where
  Count : Int
deriving DecidableEq, Repr

/-- The zero value of `PackerTenantLock`, as declared by `var lock PackerTenantLock`. -/
def PackerTenantLock.zero : PackerTenantLock := ⟨"", "", 0, 0, 0⟩

/-- The zero value of `PiperFileLock`, as declared by `var lock PiperFileLock`. -/
def PiperFileLock.zero : PiperFileLock := ⟨0, "", "", "", "", 0, 0, 0⟩

/-- The zero value of `CountResponse`, as declared by `var result CountResponse`. -/
def CountResponse.zero : CountResponse := ⟨0⟩

/-! ## Values and packages outside the repository -/

/-- A value stored in a `map[string]interface{}` payload of the lock operations. -/
inductive Scalar where
  | str (s : String)
  | int (n : Int)
deriving DecidableEq, Repr

/-- A non-nil value passed as `body interface{}` to `doRequest`: a `map[string]interface{}`
literal (its entries in the order written) or a `[]byte`. -/
inductive GoValue where
  | map (entries : List (String × Scalar))
  | bytes (b : String)
deriving DecidableEq, Repr

/-- An `*http.Request`: method, URL, body and header entries. -/
structure Request where
  method : String
  url : String
  body : Option String
  header : List (String × String)
deriving DecidableEq, Repr

/-- An `*http.Response`: the status code and what `io.ReadAll(resp.Body)` yields. -/
structure Response where
  StatusCode : Int
  Body : Except String String

/-- The functions of other packages that the client calls and whose result it passes on.
`Marshal` and the `Unmarshal` family are `sonic.Marshal` and `sonic.Unmarshal` at the three
target types (the target goes in and comes out filled); `ParseURL` is the error with which
the URL parser used by `http.NewRequestWithContext` rejects a URL, `none` when it accepts. -/
structure Packages where
  Marshal : GoValue → Except String String
  UnmarshalPackerTenantLock : String → PackerTenantLock → Except String PackerTenantLock
  UnmarshalPiperFileLock : String → PiperFileLock → Except String PiperFileLock
  UnmarshalCountResponse : String → CountResponse → Except String CountResponse
  ParseURL : String → Option String

/-- The `*http.Client`: `Do` answers a request, possibly depending on the requests sent
before it, with a response or a transport error. -/
structure HTTPClient where
  Do : List Request → Request → Except String Response

/-- The struct `Client`. -/
structure Client where
  baseURL : String
  httpClient : HTTPClient
  apiKey : String

/-! ## Library functions with a fixed meaning -/

/-- The UTF-8 bytes of a character. -/
def utf8Bytes (c : Char) : List Nat :=
  let n := c.toNat
  if n < 0x80 then [n]
  else if n < 0x800 then [0xC0 + n / 64, 0x80 + n % 64]
  else if n < 0x10000 then [0xE0 + n / 4096, 0x80 + n / 64 % 64, 0x80 + n % 64]
  else [0xF0 + n / 262144, 0x80 + n / 4096 % 64, 0x80 + n / 64 % 64, 0x80 + n % 64]

/-- The bytes of a Go string holding the given text. -/
def bytesOf (s : String) : List Nat := s.toList.flatMap utf8Bytes

/-- The escaping modes of `net/url` used by the client and, for `encodePath`, by the URL
parser on the path of a request. -/
inductive encoding where
  | encodePath
  | encodePathSegment
  | encodeQueryComponent
deriving DecidableEq, Repr

/-- Whether a byte is an ASCII letter or digit. -/
def isAlnum (c : Nat) : Bool :=
  (97 ≤ c && c ≤ 122) || (65 ≤ c && c ≤ 90) || (48 ≤ c && c ≤ 57)

/-- The function `shouldEscape` of `net/url`, for the three modes used here. -/
def shouldEscape (c : Nat) (mode : encoding) : Bool :=
  if isAlnum c then false
  -- '-', '_', '.', '~'
  else if c = 45 || c = 95 || c = 46 || c = 126 then false
  -- '$', '&', '+', ',', '/', ':', ';', '=', '?', '@'
  else if c = 36 || c = 38 || c = 43 || c = 44 || c = 47 || c = 58 || c = 59 || c = 61
      || c = 63 || c = 64 then
    match mode with
    | .encodePath => c = 63
    | .encodePathSegment => c = 47 || c = 59 || c = 44 || c = 63
    | .encodeQueryComponent => true
  else true

/-- The digit of `upperhex` at an index below 16. -/
def upperhex (n : Nat) : Char :=
  if n < 10 then Char.ofNat (48 + n) else Char.ofNat (55 + n)

/-- The escaping of one byte by `escape` of `net/url`. -/
def escapeByte (mode : encoding) (c : Nat) : List Char :=
  if c = 32 ∧ mode = .encodeQueryComponent then ['+']
  else if shouldEscape c mode then ['%', upperhex (c / 16), upperhex (c % 16)]
  else [Char.ofNat c]

/-- The function `escape` of `net/url`. -/
def escape (s : String) (mode : encoding) : String :=
  String.mk ((bytesOf s).flatMap (escapeByte mode))

/-- The function `url.QueryEscape`. -/
def QueryEscape (s : String) : String := escape s .encodeQueryComponent

/-- The function `url.PathEscape`. -/
def PathEscape (s : String) : String := escape s .encodePathSegment

/-- The verb `%d` of `fmt.Sprintf` on an `int`. -/
def fmtInt (n : Int) : String := toString n

/-- The function `http.NewRequestWithContext`: the request with the given method, URL and
body and no header, or the error of the URL parser when the URL does not parse. -/
def NewRequestWithContext (pk : Packages) (method url : String) (body : Option String) :
    Except String Request :=
  match pk.ParseURL url with
  | some err => .error err
  | none => .ok ⟨method, url, body, []⟩

/-- The method `Header.Set`: the entry for the key replaces any earlier one. -/
def Request.Set (req : Request) (key value : String) : Request :=
  { req with header := req.header.filter (fun kv => kv.1 != key) ++ [(key, value)] }

/-! ## `client.go` -/

/-- The method `doRequest`: performs an HTTP request with proper headers. -/
def doRequest (pk : Packages) (c : Client) (method path : String) (body : Option GoValue)
    (net : List Request) : Except String Response × List Request :=
  let marshalled : Except String (Option String) :=
    match body with
    | some b =>
      match pk.Marshal b with
      | .error e => .error e
      | .ok jsonData => .ok (some jsonData)
    | none => .ok none
  match marshalled with
  | .error e => (.error ("failed to marshal request body: " ++ e), net)
  | .ok reqBody =>
    let url := c.baseURL ++ path
    match NewRequestWithContext pk method url reqBody with
    | .error e => (.error ("failed to create request: " ++ e), net)
    | .ok req =>
      let req := req.Set "Content-Type" "application/json"
      let req := req.Set "Accept" "application/json"
      let req := if c.apiKey != "" then req.Set "Authorization" ("Bearer " ++ c.apiKey) else req
      match c.httpClient.Do net req with
      | .error e => (.error ("request failed: " ++ e), net ++ [req])
      | .ok resp => (.ok resp, net ++ [req])

/-- The method `parseResponse`: parses an HTTP response into the target. The target is
`none` for a nil target; `unmarshal` is `sonic.Unmarshal` at the target's type. Returns the
target as left by the call and the error. -/
def parseResponse {α : Type} (unmarshal : String → α → Except String α) (resp : Response)
    (target : Option α) : Option α × Option String :=
  match resp.Body with
  | .error e => (target, some ("failed to read response body: " ++ e))
  | .ok body =>
    if resp.StatusCode ≥ 400 then
      (target, some ("API error (status " ++ fmtInt resp.StatusCode ++ "): " ++ body))
    else
      match target with
      | some t =>
        match unmarshal body t with
        | .error e => (target, some ("failed to decode response: " ++ e))
        | .ok filled => (some filled, none)
      | none => (none, none)

/-- The decoder standing at the place of `sonic.Unmarshal` when the target is nil. -/
def noTarget : String → Unit → Except String Unit := fun _ _ => .ok ()

/-- The method `HealthCheck`: checks if the Control Service is healthy. -/
def HealthCheck (pk : Packages) (c : Client) (net : List Request) :
    Option String × List Request :=
  match doRequest pk c "GET" "/api/v1/health" none net with
  | (.error err, net1) => (some err, net1)
  | (.ok resp, net1) =>
    if resp.StatusCode ≠ 200 then
      (some ("health check failed with status " ++ fmtInt resp.StatusCode), net1)
    else (none, net1)

/-! ## `packer_client.go`: tenant lock operations -/

/-- The method `AcquireTenantLock`: attempts to acquire a lock on a tenant. -/
def AcquireTenantLock (pk : Packages) (c : Client) (tenantID lockedBy : String)
    (lockDurationSeconds : Int) (net : List Request) :
    (Option PackerTenantLock × Option String) × List Request :=
  let payload := GoValue.map [("tenant_id", .str tenantID), ("locked_by", .str lockedBy),
    ("lock_duration_seconds", .int lockDurationSeconds)]
  match doRequest pk c "POST" "/api/v1/packer/locks/tenants" (some payload) net with
  | (.error err, net1) => ((none, some err), net1)
  | (.ok resp, net1) =>
    match parseResponse pk.UnmarshalPackerTenantLock resp (some PackerTenantLock.zero) with
    | (_, some err) => ((none, some err), net1)
    | (lock, none) => ((lock, none), net1)

/-- The method `ReleaseTenantLock`: releases a tenant lock. -/
def ReleaseTenantLock (pk : Packages) (c : Client) (tenantID lockedBy : String)
    (net : List Request) : Option String × List Request :=
  let path := "/api/v1/packer/locks/tenants/" ++ tenantID ++ "?locked_by=" ++ QueryEscape lockedBy
  match doRequest pk c "DELETE" path none net with
  | (.error err, net1) => (some err, net1)
  | (.ok resp, net1) => ((parseResponse noTarget resp none).2, net1)

/-- The method `UpdateTenantLockHeartbeat`: updates the heartbeat for a tenant lock. -/
def UpdateTenantLockHeartbeat (pk : Packages) (c : Client) (tenantID lockedBy : String)
    (net : List Request) : Option String × List Request :=
  let payload := GoValue.map [("locked_by", .str lockedBy)]
  let path := "/api/v1/packer/locks/tenants/" ++ tenantID ++ "/heartbeat"
  match doRequest pk c "PUT" path (some payload) net with
  | (.error err, net1) => (some err, net1)
  | (.ok resp, net1) => ((parseResponse noTarget resp none).2, net1)

/-- The method `CheckTenantLock`: checks if a tenant is currently locked. -/
def CheckTenantLock (pk : Packages) (c : Client) (tenantID : String) (net : List Request) :
    (Option PackerTenantLock × Option String) × List Request :=
  let path := "/api/v1/packer/locks/tenants/" ++ tenantID
  match doRequest pk c "GET" path none net with
  | (.error err, net1) => ((none, some err), net1)
  | (.ok resp, net1) =>
    if resp.StatusCode = 404 then ((none, none), net1) -- No lock exists
    else
      match parseResponse pk.UnmarshalPackerTenantLock resp (some PackerTenantLock.zero) with
      | (_, some err) => ((none, some err), net1)
      | (lock, none) => ((lock, none), net1)

/-- The method `CleanupExpiredTenantLocks`: removes all expired tenant locks. -/
def CleanupExpiredTenantLocks (pk : Packages) (c : Client) (net : List Request) :
    (Int × Option String) × List Request :=
  match doRequest pk c "DELETE" "/api/v1/packer/locks/tenants/cleanup/expired" none net with
  | (.error err, net1) => ((0, some err), net1)
  | (.ok resp, net1) =>
    match parseResponse pk.UnmarshalCountResponse resp (some CountResponse.zero) with
    | (_, some err) => ((0, some err), net1)
    | (result, none) => (((result.getD CountResponse.zero).Count, none), net1)

/-- The method `ClearAllTenantLocks`: removes all tenant locks. -/
def ClearAllTenantLocks (pk : Packages) (c : Client) (net : List Request) :
    (Int × Option String) × List Request :=
  match doRequest pk c "DELETE" "/api/v1/packer/locks/tenants/cleanup/all" none net with
  | (.error err, net1) => ((0, some err), net1)
  | (.ok resp, net1) =>
    match parseResponse pk.UnmarshalCountResponse resp (some CountResponse.zero) with
    | (_, some err) => ((0, some err), net1)
    | (result, none) => (((result.getD CountResponse.zero).Count, none), net1)

/-- The method `CleanupStaleTenantLocks`: removes tenant locks with stale heartbeats. -/
def CleanupStaleTenantLocks (pk : Packages) (c : Client) (staleThresholdSeconds : Int)
    (net : List Request) : (Int × Option String) × List Request :=
  let path := "/api/v1/packer/locks/tenants/cleanup/stale?stale_threshold_seconds="
    ++ fmtInt staleThresholdSeconds
  match doRequest pk c "DELETE" path none net with
  | (.error err, net1) => ((0, some err), net1)
  | (.ok resp, net1) =>
    match parseResponse pk.UnmarshalCountResponse resp (some CountResponse.zero) with
    | (_, some err) => ((0, some err), net1)
    | (result, none) => (((result.getD CountResponse.zero).Count, none), net1)

/-! ## `piper_client.go`: file lock operations -/

/-- The method `AcquireFileLock`: attempts to acquire a lock on a file for processing. -/
def AcquireFileLock (pk : Packages) (c : Client) (tenantID datasetID fileKey lockedBy : String)
    (lockDurationSeconds : Int) (net : List Request) :
    (Option PiperFileLock × Option String) × List Request :=
  let payload := GoValue.map [("tenant_id", .str tenantID), ("dataset_id", .str datasetID),
    ("file_key", .str fileKey), ("locked_by", .str lockedBy),
    ("lock_duration_seconds", .int lockDurationSeconds)]
  match doRequest pk c "POST" "/api/v1/piper/locks/files" (some payload) net with
  | (.error err, net1) => ((none, some err), net1)
  | (.ok resp, net1) =>
    match parseResponse pk.UnmarshalPiperFileLock resp (some PiperFileLock.zero) with
    | (_, some err) => ((none, some err), net1)
    | (lock, none) => ((lock, none), net1)

/-- The method `ReleaseFileLock`: releases a lock on a file. The payload is marshalled
here and the resulting `[]byte` is what `doRequest` receives as its body. -/
def ReleaseFileLock (pk : Packages) (c : Client) (tenantID datasetID fileKey lockedBy : String)
    (net : List Request) : Option String × List Request :=
  let payload := GoValue.map [("tenant_id", .str tenantID), ("dataset_id", .str datasetID),
    ("file_key", .str fileKey), ("locked_by", .str lockedBy)]
  match pk.Marshal payload with
  | .error err => (some ("failed to marshal request: " ++ err), net)
  | .ok body =>
    match doRequest pk c "DELETE" "/api/v1/piper/locks/files" (some (.bytes body)) net with
    | (.error err, net1) => (some err, net1)
    | (.ok resp, net1) => ((parseResponse noTarget resp none).2, net1)

/-- The method `CheckFileLock`: checks if a file is currently locked. -/
def CheckFileLock (pk : Packages) (c : Client) (tenantID datasetID fileKey : String)
    (net : List Request) : (Option PiperFileLock × Option String) × List Request :=
  let path := "/api/v1/piper/locks/files/" ++ tenantID ++ "/" ++ datasetID ++ "/"
    ++ PathEscape fileKey
  match doRequest pk c "GET" path none net with
  | (.error err, net1) => ((none, some err), net1)
  | (.ok resp, net1) =>
    if resp.StatusCode = 404 then ((none, none), net1) -- No lock exists
    else
      match parseResponse pk.UnmarshalPiperFileLock resp (some PiperFileLock.zero) with
      | (_, some err) => ((none, some err), net1)
      | (lock, none) => ((lock, none), net1)

/-- The method `CleanupExpiredFileLocks`: removes all expired file locks. -/
def CleanupExpiredFileLocks (pk : Packages) (c : Client) (net : List Request) :
    (Int × Option String) × List Request :=
  match doRequest pk c "DELETE" "/api/v1/piper/locks/files/cleanup/expired" none net with
  | (.error err, net1) => ((0, some err), net1)
  | (.ok resp, net1) =>
    match parseResponse pk.UnmarshalCountResponse resp (some CountResponse.zero) with
    | (_, some err) => ((0, some err), net1)
    | (result, none) => (((result.getD CountResponse.zero).Count, none), net1)

/-- The method `CleanupStaleFileLocks`: removes file locks with stale heartbeats. -/
def CleanupStaleFileLocks (pk : Packages) (c : Client) (staleThresholdSeconds : Int)
    (net : List Request) : (Int × Option String) × List Request :=
  let path := "/api/v1/piper/locks/files/cleanup/stale?stale_threshold_seconds="
    ++ fmtInt staleThresholdSeconds
  match doRequest pk c "DELETE" path none net with
  | (.error err, net1) => ((0, some err), net1)
  | (.ok resp, net1) =>
    match parseResponse pk.UnmarshalCountResponse resp (some CountResponse.zero) with
    | (_, some err) => ((0, some err), net1)
    | (result, none) => (((result.getD CountResponse.zero).Count, none), net1)
/-! ## The lock operations as a family -/

/-- The two lock families: tenant locks (`packer_client.go`) and file locks
(`piper_client.go`). -/
inductive LockFamily where
  | tenant
  | file
deriving DecidableEq, Repr

/-- The kinds of operation of the lock contract. -/
inductive LockOpKind where
  | acquire
  | release
  | heartbeat
  | check
  | cleanupExpired
  | cleanupStale
  | cleanupAll
deriving DecidableEq, Repr

/-- A call of one of the lock methods of `Client`, with its arguments: one constructor for
each method under the two lock-operation headings of the source. -/
inductive LockCall where
  | AcquireTenantLock (tenantID lockedBy : String) (lockDurationSeconds : Int)
  | ReleaseTenantLock (tenantID lockedBy : String)
  | UpdateTenantLockHeartbeat (tenantID lockedBy : String)
  | CheckTenantLock (tenantID : String)
  | CleanupExpiredTenantLocks
  | ClearAllTenantLocks
  | CleanupStaleTenantLocks (staleThresholdSeconds : Int)
  | AcquireFileLock (tenantID datasetID fileKey lockedBy : String) (lockDurationSeconds : Int)
  | ReleaseFileLock (tenantID datasetID fileKey lockedBy : String)
  | CheckFileLock (tenantID datasetID fileKey : String)
  | CleanupExpiredFileLocks
  | CleanupStaleFileLocks (staleThresholdSeconds : Int)
deriving DecidableEq, Repr

/-- The family a lock method belongs to. -/
def LockCall.family : LockCall → LockFamily
  | .AcquireTenantLock .. => .tenant
  | .ReleaseTenantLock .. => .tenant
  | .UpdateTenantLockHeartbeat .. => .tenant
  | .CheckTenantLock .. => .tenant
  | .CleanupExpiredTenantLocks => .tenant
  | .ClearAllTenantLocks => .tenant
  | .CleanupStaleTenantLocks .. => .tenant
  | .AcquireFileLock .. => .file
  | .ReleaseFileLock .. => .file
  | .CheckFileLock .. => .file
  | .CleanupExpiredFileLocks => .file
  | .CleanupStaleFileLocks .. => .file

/-- The kind of operation a lock method performs. -/
def LockCall.kind : LockCall → LockOpKind
  | .AcquireTenantLock .. => .acquire
  | .ReleaseTenantLock .. => .release
  | .UpdateTenantLockHeartbeat .. => .heartbeat
  | .CheckTenantLock .. => .check
  | .CleanupExpiredTenantLocks => .cleanupExpired
  | .ClearAllTenantLocks => .cleanupAll
  | .CleanupStaleTenantLocks .. => .cleanupStale
  | .AcquireFileLock .. => .acquire
  | .ReleaseFileLock .. => .release
  | .CheckFileLock .. => .check
  | .CleanupExpiredFileLocks => .cleanupExpired
  | .CleanupStaleFileLocks .. => .cleanupStale

/-- The requests on the network after a lock method has run. -/
def LockCall.sent (pk : Packages) (c : Client) (net : List Request) : LockCall → List Request
  | .AcquireTenantLock t w d => (controlclient.AcquireTenantLock pk c t w d net).2
  | .ReleaseTenantLock t w => (controlclient.ReleaseTenantLock pk c t w net).2
  | .UpdateTenantLockHeartbeat t w => (controlclient.UpdateTenantLockHeartbeat pk c t w net).2
  | .CheckTenantLock t => (controlclient.CheckTenantLock pk c t net).2
  | .CleanupExpiredTenantLocks => (controlclient.CleanupExpiredTenantLocks pk c net).2
  | .ClearAllTenantLocks => (controlclient.ClearAllTenantLocks pk c net).2
  | .CleanupStaleTenantLocks n => (controlclient.CleanupStaleTenantLocks pk c n net).2
  | .AcquireFileLock t d f w n => (controlclient.AcquireFileLock pk c t d f w n net).2
  | .ReleaseFileLock t d f w => (controlclient.ReleaseFileLock pk c t d f w net).2
  | .CheckFileLock t d f => (controlclient.CheckFileLock pk c t d f net).2
  | .CleanupExpiredFileLocks => (controlclient.CleanupExpiredFileLocks pk c net).2
  | .CleanupStaleFileLocks n => (controlclient.CleanupStaleFileLocks pk c n net).2

/-- The endpoint root of a lock family. -/
def LockFamily.root : LockFamily → String
  | .tenant => "/api/v1/packer/locks/tenants"
  | .file => "/api/v1/piper/locks/files"

/-! ## A reference instance of the outside packages, for evaluation -/

/-- The alphabet of the standard base64 encoding. -/
def base64Table : List Char :=
  "ABCDEFGHIJKLMNOPQRSTUVWXYZabcdefghijklmnopqrstuvwxyz0123456789+/".toList

/-- The base64 digit with a given value below 64. -/
def base64Digit (n : Nat) : Char := base64Table.getD n '='

/-- The standard padded base64 encoding of a list of bytes. -/
def base64Encode : List Nat → List Char
  | [] => []
  | [a] => [base64Digit (a / 4), base64Digit (a % 4 * 16), '=', '=']
  | [a, b] => [base64Digit (a / 4), base64Digit (a % 4 * 16 + b / 16),
      base64Digit (b % 16 * 4), '=']
  | a :: b :: c :: rest =>
    base64Digit (a / 4) :: base64Digit (a % 4 * 16 + b / 16)
      :: base64Digit (b % 16 * 4 + c / 64) :: base64Digit (c % 64) :: base64Encode rest

/-- The lower-case hexadecimal digit with a given value below 16. -/
def lowerhex (n : Nat) : Char :=
  if n < 10 then Char.ofNat (48 + n) else Char.ofNat (87 + n)

/-- The JSON escaping of one character inside a string literal: the double quote, the
backslash and the control characters are escaped. -/
def jsonEscapeChar (ch : Char) : List Char :=
  let n := ch.toNat
  if n = 34 then [Char.ofNat 92, Char.ofNat 34]
  else if n = 92 then [Char.ofNat 92, Char.ofNat 92]
  else if n = 10 then [Char.ofNat 92, 'n']
  else if n = 13 then [Char.ofNat 92, 'r']
  else if n = 9 then [Char.ofNat 92, 't']
  else if n < 32 then [Char.ofNat 92, 'u', '0', '0', lowerhex (n / 16), lowerhex (n % 16)]
  else [ch]

/-- A JSON string literal. -/
def jsonQuote (s : String) : String :=
  String.mk (Char.ofNat 34 :: s.toList.flatMap jsonEscapeChar ++ [Char.ofNat 34])

/-- The JSON text of a payload value. -/
def jsonScalar : Scalar → String
  | .str s => jsonQuote s
  | .int n => toString n

/-- The JSON text of a value: an object for a map, with its entries in the order written,
and a string holding the base64 encoding for a `[]byte`. -/
def jsonMarshal : GoValue → String
  | .map entries =>
    "\x7b" ++ ",".intercalate (entries.map fun kv => jsonQuote kv.1 ++ ":" ++ jsonScalar kv.2)
      ++ "\x7d"
  | .bytes b => String.mk (Char.ofNat 34 :: base64Encode (bytesOf b) ++ [Char.ofNat 34])

/-- Whether a URL is free of ASCII control bytes, which the URL parser rejects first. -/
def noControlByte (url : String) : Bool :=
  (bytesOf url).all fun b => 32 ≤ b && b != 127

/-- A tenant lock taken by worker `w1` on tenant `t1` at instant 100 for 60 seconds. -/
def sampleTenantLock : PackerTenantLock := ⟨"t1", "w1", 100, 100, 160⟩

/-- The JSON text of `sampleTenantLock`, instants counted from the zero `time.Time`. -/
def sampleTenantLockJSON : String :=
  "\x7b\"tenant_id\":\"t1\",\"locked_by\":\"w1\",\"lock_timestamp\":\"0001-01-01T00:01:40Z\"," ++
  "\"last_heartbeat\":\"0001-01-01T00:01:40Z\",\"ttl\":\"0001-01-01T00:02:40Z\"\x7d"

/-- A file lock taken by worker `p1` on file `f1` at instant 100 for 30 seconds. -/
def sampleFileLock : PiperFileLock := ⟨7, "t1", "d1", "f1", "p1", 100, 100, 130⟩

/-- The JSON text of `sampleFileLock`, instants counted from the zero `time.Time`. -/
def sampleFileLockJSON : String :=
  "\x7b\"lock_id\":7,\"tenant_id\":\"t1\",\"dataset_id\":\"d1\",\"file_key\":\"f1\"," ++
  "\"locked_by\":\"p1\",\"lock_timestamp\":\"0001-01-01T00:01:40Z\"," ++
  "\"last_heartbeat\":\"0001-01-01T00:01:40Z\",\"ttl\":\"0001-01-01T00:02:10Z\"\x7d"

/-- A reference instance of the outside packages, defined on the sample texts only:
`Marshal` produces JSON text, the URL parser rejects control bytes, and each decoder accepts
the JSON text of the sample value of its type (for a count: the empty object, which leaves the
target as it is, and the object with count 3) and rejects every other body. -/
def refPackages : Packages where
  Marshal := fun v => .ok (jsonMarshal v)
  UnmarshalPackerTenantLock := fun body _ =>
    if body = sampleTenantLockJSON then .ok sampleTenantLock else .error "invalid JSON"
  UnmarshalPiperFileLock := fun body _ =>
    if body = sampleFileLockJSON then .ok sampleFileLock else .error "invalid JSON"
  UnmarshalCountResponse := fun body target =>
    if body = "\x7b\x7d" then .ok target
    else if body = "\x7b\"count\":3\x7d" then .ok ⟨3⟩
    else .error "invalid JSON"
  ParseURL := fun url =>
    if noControlByte url then none else some "net/url: invalid control character in URL"

/-- A transport that answers every request with the given status and body. -/
def answering (status : Int) (body : String) : HTTPClient :=
  ⟨fun _ _ => .ok ⟨status, .ok body⟩⟩

/-- A transport that fails on every request. -/
def failing : HTTPClient := ⟨fun _ _ => .error "connection refused"⟩

/-- A client of a service that cannot be reached. -/
def unreachableClient : Client := ⟨"http://control:8080", failing, "secret"⟩

/-- A client of a service that answers every request with the given status and body. -/
def clientOf (status : Int) (body : String) : Client :=
  ⟨"http://control:8080", answering status body, "secret"⟩

/-- A transport that answers every request with the given status and a body whose
reading fails with the given error, as when the connection breaks before the end. -/
def answeringUnread (status : Int) (err : String) : HTTPClient :=
  ⟨fun _ _ => .ok ⟨status, .error err⟩⟩

/-- A client of a service whose answers have the given status and cannot be read to the
end. -/
def clientUnread (status : Int) (err : String) : Client :=
  ⟨"http://control:8080", answeringUnread status err, "secret"⟩

/-- A client whose configured base URL ends in a line feed, as left by an untrimmed
configuration value; the URL parser rejects every URL built from it. -/
def untrimmedClient : Client :=
  ⟨"http://control:8080\n", answering 200 sampleTenantLockJSON, "secret"⟩

/-! ## Vocabulary of the statements -/

/-- The call sent one request on top of `net` and the transport answered it with `resp`:
`log` is the network after the call. -/
def answered (c : Client) (net log : List Request) (resp : Response) : Prop :=
  ∃ req, log = net ++ [req] ∧ c.httpClient.Do net req = .ok resp

/-- What a method returning a lock makes of the pair left by `parseResponse`: a nil lock
with the error, or the filled target with a nil error. -/
def lockResult {L : Type} (p : Option L × Option String) : Option L × Option String :=
  match p with
  | (_, some err) => (none, some err)
  | (lock, none) => (lock, none)

/-- What a cleanup method makes of the pair left by `parseResponse`: count 0 with the error,
or the count of the filled target with a nil error. -/
def countResult (p : Option CountResponse × Option String) : Int × Option String :=
  match p with
  | (_, some err) => (0, some err)
  | (result, none) => ((result.getD CountResponse.zero).Count, none)

/-- The error message `parseResponse` builds for a rejected response. -/
def apiError (status : Int) (body : String) : String :=
  "API error (status " ++ fmtInt status ++ "): " ++ body

/-- The value of a decimal digit character. -/
def digitValue (ch : Char) : Nat := ch.toNat - 48

/-- The number a list of decimal digits denotes, most significant digit first. -/
def decimalValue (cs : List Char) : Nat :=
  cs.foldl (fun acc ch => 10 * acc + digitValue ch) 0

/-- The contract of a cleanup method on its result `out`: on an answer with a status below
400 whose body decodes into the zero `CountResponse`, the count of the decoded value comes
back with a nil error; a nil error comes back only in that case; and every non-nil error
comes with count 0. -/
def CleanupContract (pk : Packages) (c : Client) (net : List Request)
    (out : (Int × Option String) × List Request) : Prop :=
  (∀ resp body r, answered c net out.2 resp → resp.StatusCode < 400 → resp.Body = .ok body →
    pk.UnmarshalCountResponse body CountResponse.zero = .ok r → out.1 = (r.Count, none)) ∧
  (out.1.2 = none → ∃ resp body r, answered c net out.2 resp ∧ resp.StatusCode < 400 ∧
    resp.Body = .ok body ∧ pk.UnmarshalCountResponse body CountResponse.zero = .ok r) ∧
  (out.1.2 ≠ none → out.1.1 = 0)

/-! ## `accounts.go` and `tenants.go`: the delete methods -/

/-- The struct the delete methods decode into: `success` and `message`. -/
structure DeleteResult where
  Success : Bool
  Message : String
deriving DecidableEq, Repr

/-- The zero value of the result struct, as declared by `var result struct{...}`. -/
def DeleteResult.zero : DeleteResult := ⟨false, ""⟩

/-- The method `DeleteAccount`: deletes an account. `unmarshal` is `sonic.Unmarshal` at
the type of the result struct. -/
def DeleteAccount (pk : Packages)
    (unmarshal : String → DeleteResult → Except String DeleteResult) (c : Client)
    (accountID : String) (net : List Request) : Option String × List Request :=
  let path := "/api/v1/accounts/" ++ accountID
  match doRequest pk c "DELETE" path none net with
  | (.error err, net1) => (some err, net1)
  | (.ok resp, net1) =>
    match parseResponse unmarshal resp (some DeleteResult.zero) with
    | (_, some err) => (some err, net1)
    | (result, none) =>
      if !(result.getD DeleteResult.zero).Success then
        (some ("delete failed: " ++ (result.getD DeleteResult.zero).Message), net1)
      else (none, net1)

/-- The method `DeleteTenant`: deletes a tenant. `unmarshal` is `sonic.Unmarshal` at the
type of the result struct. -/
def DeleteTenant (pk : Packages)
    (unmarshal : String → DeleteResult → Except String DeleteResult) (c : Client)
    (accountID tenantID : String) (net : List Request) : Option String × List Request :=
  let path := "/api/v1/accounts/" ++ accountID ++ "/tenants/" ++ tenantID
  match doRequest pk c "DELETE" path none net with
  | (.error err, net1) => (some err, net1)
  | (.ok resp, net1) =>
    match parseResponse unmarshal resp (some DeleteResult.zero) with
    | (_, some err) => (some err, net1)
    | (result, none) =>
      if !(result.getD DeleteResult.zero).Success then
        (some ("delete failed: " ++ (result.getD DeleteResult.zero).Message), net1)
      else (none, net1)

/-- What a delete method makes of the pair left by `parseResponse`: the error, or
`delete failed` with the message when the decoded result is not a success, or nil. -/
def deleteResult (p : Option DeleteResult × Option String) : Option String :=
  match p with
  | (_, some err) => some err
  | (result, none) =>
    if !(result.getD DeleteResult.zero).Success then
      some ("delete failed: " ++ (result.getD DeleteResult.zero).Message)
    else none

/-- A reference decoder of the result struct, defined on three sample bodies: the empty
object leaves the target as it is, and the two others set both fields. -/
def refUnmarshalDelete (body : String) (target : DeleteResult) : Except String DeleteResult :=
  if body = "\x7b\x7d" then .ok target
  else if body = "\x7b\"success\":true,\"message\":\"deleted\"\x7d" then .ok ⟨true, "deleted"⟩
  else if body = "\x7b\"success\":false,\"message\":\"in use\"\x7d" then .ok ⟨false, "in use"⟩
  else .error "invalid JSON"

/-! ## `url.PathUnescape` -/

/-- The function `ishex` of `net/url`. -/
def ishex (c : Nat) : Bool :=
  (48 ≤ c && c ≤ 57) || (97 ≤ c && c ≤ 102) || (65 ≤ c && c ≤ 70)

/-- The function `unhex` of `net/url`. -/
def unhex (c : Nat) : Nat :=
  if 48 ≤ c ∧ c ≤ 57 then c - 48
  else if 97 ≤ c ∧ c ≤ 102 then c - 97 + 10
  else if 65 ≤ c ∧ c ≤ 70 then c - 65 + 10
  else 0

/-- The function `unescape` of `net/url` on the bytes of a string, for the three modes
used here: `none` for a percent sign not followed by two hexadecimal digits. -/
def unescape : List Nat → encoding → Option (List Nat)
  | [], _ => some []
  | 37 :: h1 :: h2 :: rest, mode =>
    if ishex h1 && ishex h2 then
      match unescape rest mode with
      | some bs => some ((unhex h1 * 16 + unhex h2) :: bs)
      | none => none
    else none
  | [37, _], _ => none
  | [37], _ => none
  | b :: rest, mode =>
    match unescape rest mode with
    | some bs => some ((if b = 43 ∧ mode = .encodeQueryComponent then 32 else b) :: bs)
    | none => none

/-- The function `url.PathUnescape`: the bytes of the unescaped string. -/
def PathUnescape (s : String) : Option (List Nat) := unescape (bytesOf s) .encodePathSegment

/-- A string that holds none of the characters `/`, `?` and `#`. -/
def separatorFree (s : String) : Prop :=
  '/' ∉ s.toList ∧ '?' ∉ s.toList ∧ '#' ∉ s.toList

/-! ## `url.Parse` and the request target (`net/url`, `net/http`)

`http.NewRequestWithContext` parses the URL it is given, and `Request.write` puts
`URL.RequestURI()` of the parsed URL on the request line. The functions below work on the
bytes of Go strings. The checks of `url.Parse` that only decide whether the URL is accepted
(control bytes, the form of the authority, the fragment) are not repeated here: whether a
URL is accepted is `Packages.ParseURL`. -/

/-- The fields of `url.URL` that the request target is made of. -/
structure URL where
  Scheme : List Nat
  Opaque : List Nat
  Path : List Nat
  RawPath : List Nat
  ForceQuery : Bool
  RawQuery : List Nat
deriving DecidableEq, Repr

/-- The function `validEncoded` of `net/url`. -/
def validEncoded (s : List Nat) (mode : encoding) : Bool :=
  s.all fun c =>
    -- '!', '$', '&', '\'', '(', ')', '*', '+', ',', ';', '=', ':', '@'
    if c = 33 || c = 36 || c = 38 || c = 39 || c = 40 || c = 41 || c = 42 || c = 43
        || c = 44 || c = 59 || c = 61 || c = 58 || c = 64 then true
    -- '[', ']'
    else if c = 91 || c = 93 then true
    -- '%'
    else if c = 37 then true
    else !shouldEscape c mode

/-- The function `escape` of `net/url` on the bytes of a string, giving bytes. -/
def escapeBytes (bs : List Nat) (mode : encoding) : List Nat :=
  (bs.flatMap (escapeByte mode)).map Char.toNat

/-- The method `setPath` of `url.URL`: `none` when the path does not unescape. `RawPath`
is kept only when the path differs from the default escaping of its unescaped form. -/
def URL.setPath (u : URL) (p : List Nat) : Option URL :=
  match unescape p .encodePath with
  | none => none
  | some path =>
    if p = escapeBytes path .encodePath then some { u with Path := path, RawPath := [] }
    else some { u with Path := path, RawPath := p }

/-- The method `EscapedPath` of `url.URL`: `RawPath` when it is a valid encoding of
`Path`, otherwise the default escaping of `Path`. -/
def URL.EscapedPath (u : URL) : List Nat :=
  if u.RawPath ≠ [] ∧ validEncoded u.RawPath .encodePath = true
      ∧ unescape u.RawPath .encodePath = some u.Path then u.RawPath
  else if u.Path = [42] then [42]
  else escapeBytes u.Path .encodePath

/-- The method `RequestURI` of `url.URL`. -/
def URL.RequestURI (u : URL) : List Nat :=
  let result :=
    if u.Opaque = [] then
      if u.EscapedPath = [] then [47] else u.EscapedPath
    else if u.Opaque.take 2 = [47, 47] then u.Scheme ++ [58] ++ u.Opaque
    else u.Opaque
  if u.ForceQuery = true ∨ u.RawQuery ≠ [] then result ++ [63] ++ u.RawQuery else result

/-- Whether a byte is an ASCII letter. -/
def isLetter (c : Nat) : Bool := (97 ≤ c && c ≤ 122) || (65 ≤ c && c ≤ 90)

/-- The loop of `getScheme` of `net/url` at the bytes left to scan, `seen` being the
bytes scanned so far: the scheme and what follows its colon, an empty scheme and the whole
URL when there is no scheme, `none` for the error `missing protocol scheme`. -/
def getSchemeFrom (rawURL : List Nat) : List Nat → List Nat → Option (List Nat × List Nat)
  | _, [] => some ([], rawURL)
  | seen, c :: rest =>
    if isLetter c then getSchemeFrom rawURL (seen ++ [c]) rest
    -- '0'..'9', '+', '-', '.'
    else if (48 ≤ c && c ≤ 57) || c = 43 || c = 45 || c = 46 then
      if seen = [] then some ([], rawURL) else getSchemeFrom rawURL (seen ++ [c]) rest
    -- ':'
    else if c = 58 then
      if seen = [] then none else some (seen, rest)
    else some ([], rawURL)

/-- The function `getScheme` of `net/url`. -/
def getScheme (rawURL : List Nat) : Option (List Nat × List Nat) :=
  getSchemeFrom rawURL [] rawURL

/-- The function `strings.ToLower` on one ASCII byte. -/
def toLowerByte (c : Nat) : Nat := if 65 ≤ c ∧ c ≤ 90 then c + 32 else c

/-- The function `parse` of `net/url`, called with `viaRequest` false: the fields of the
URL, `none` when `getScheme` or `setPath` fail or the first segment of a relative path
holds a colon. The authority is skipped, not checked. -/
def parse (rawURL : List Nat) : Option URL :=
  if rawURL = [42] then some ⟨[], [], [42], [], false, []⟩
  else
    match getScheme rawURL with
    | none => none
    | some (scheme, rest) =>
      let scheme := scheme.map toLowerByte
      let forceQuery : Bool := rest.getLast? = some 63 && rest.count 63 = 1
      let rawQuery := if forceQuery then [] else (rest.dropWhile (· != 63)).drop 1
      let rest := if forceQuery then rest.dropLast else rest.takeWhile (· != 63)
      let url : URL := ⟨scheme, [], [], [], forceQuery, rawQuery⟩
      if rest.head? ≠ some 47 ∧ scheme ≠ [] then
        -- rootless paths are opaque
        some { url with Opaque := rest }
      else if rest.head? ≠ some 47 ∧ 58 ∈ rest.takeWhile (· != 47) then none
      else if (scheme ≠ [] ∨ rest.take 3 ≠ [47, 47, 47]) ∧ rest.take 2 = [47, 47] then
        url.setPath ((rest.drop 2).dropWhile (· != 47))
      else url.setPath rest

/-- The function `url.Parse`: the fragment is cut off and the rest is parsed. -/
def Parse (rawURL : List Nat) : Option URL :=
  parse (rawURL.takeWhile (· != 35))

/-- The request target `Request.write` puts on the request line of a request made by
`http.NewRequestWithContext` for the URL `url`: `RequestURI()` of the parsed URL. -/
def Request.RequestURI (req : Request) : Option (List Nat) :=
  (Parse (bytesOf req.url)).map URL.RequestURI

/-- A base URL made of a scheme and an authority only, as in `http://control:8080`: a
letter followed by letters, digits, `+`, `-` and `.`, then `://`, then bytes other than
`/`, `?` and `#`. -/
def originOnly (base : String) : Prop :=
  ∃ first scheme authority : List Nat,
    bytesOf base = first ++ scheme ++ [58, 47, 47] ++ authority ∧
    first.length = 1 ∧ (∀ c ∈ first, isLetter c = true) ∧
    (∀ c ∈ scheme, isLetter c = true ∨ (48 ≤ c ∧ c ≤ 57) ∨ c = 43 ∨ c = 45 ∨ c = 46) ∧
    (∀ c ∈ authority, c ≠ 47 ∧ c ≠ 63 ∧ c ≠ 35)

/-- A string made only of bytes that are valid in an encoded path and are neither `%` nor
`/`: letters, digits and `-_.~!$&'()*+,;=:@[]`. -/
def pathSafe (s : String) : Prop :=
  ∀ c ∈ bytesOf s, validEncoded [c] .encodePath = true ∧ c ≠ 37 ∧ c ≠ 47

end controlclient

/-! ## The `log/slog` package, as far as the `log` package uses it

Output is explicit state: for each writer the list of writes it has received, oldest first.
The JSON handler writes one line per record; that write is kept as the list of the members
of the JSON object, in order. Groups (`WithGroup`, group-valued attributes), `LogValuer`
values and `LevelVar` are not used by the `log` package and are not modelled. A panic is an
`Except` error. -/

namespace slog

/-- The identity of an `io.Writer`. -/
abbrev Writer := Nat

/-- The type `slog.Level`. -/
abbrev Level := Int

/-- The constant `slog.LevelDebug`. -/
def LevelDebug : Level := -4

/-- The constant `slog.LevelInfo`. -/
def LevelInfo : Level := 0

/-- The constant `slog.LevelWarn`. -/
def LevelWarn : Level := 4

/-- The constant `slog.LevelError`. -/
def LevelError : Level := 8

/-- A value of the interface `slog.Leveler`, given by what its method `Level` returns. -/
structure Leveler where
  Level : Int
deriving DecidableEq, Repr

/-- The struct `slog.Source`: the location of a call. -/
structure Source where
  Function : String
  File : String
  Line : Int
deriving DecidableEq, Repr

/-- A Go value of type `any`, as far as logging tells values apart. -/
inductive GoAny where
  | nil
  | string (s : String)
  | int (n : Int)
  | bool (b : Bool)
  | time (t : Int)
  | level (l : Level)
  | source (src : Source)
  | other (text : String)
deriving DecidableEq, Repr

/-- The type `slog.Value`, by kind: string, int64, bool, time, or any other Go value. -/
inductive Value where
  | str (s : String)
  | int64 (n : Int)
  | bool (b : Bool)
  | time (t : Int)
  | any (v : GoAny)
deriving DecidableEq, Repr

/-- The function `slog.AnyValue`. -/
def AnyValue : GoAny → Value
  | .string s => .str s
  | .int n => .int64 n
  | .bool b => .bool b
  | .time t => .time t
  | v => .any v

/-- The method `Value.Any`: the Go value a `slog.Value` holds. -/
def Value.Any : Value → GoAny
  | .str s => .string s
  | .int64 n => .int n
  | .bool b => .bool b
  | .time t => .time t
  | .any v => v

/-- The type assertion `x.(slog.Level)`: the level when `x` holds one, `none` when it
panics. -/
def GoAny.assertLevel : GoAny → Option Level
  | .level l => some l
  | _ => none

/-- The struct `slog.Attr`. -/
structure Attr where
  Key : String
  Value : Value
deriving DecidableEq, Repr

/-- The method `Attr.isEmpty`: an empty key with the zero value. -/
def Attr.isEmpty (a : Attr) : Bool := a.Key == "" && a.Value == .any .nil

/-- An argument of a variadic `args ...any` of the logging calls: a Go value, or a
`slog.Attr` passed as a value. -/
inductive Arg where
  | any (v : GoAny)
  | attr (a : Attr)
deriving DecidableEq, Repr

/-- The Go value an argument is when it is used as the value of a key. -/
def Arg.toAny : Arg → GoAny
  | .any v => v
  | .attr _ => .other "slog.Attr"

/-- The key the handler gives to a value without a key. -/
def badKey : String := "!BADKEY"

/-- The function `argsToAttrSlice`: a string followed by a value is a key-value pair, an
`Attr` is itself, anything else gets the key `!BADKEY`. -/
def argsToAttrSlice : List Arg → List Attr
  | [] => []
  | [.any (.string x)] => [⟨badKey, .str x⟩]
  | .any (.string x) :: v :: rest => ⟨x, AnyValue v.toAny⟩ :: argsToAttrSlice rest
  | .attr a :: rest => a :: argsToAttrSlice rest
  | .any x :: rest => ⟨badKey, AnyValue x⟩ :: argsToAttrSlice rest

/-- The keys of the built-in attributes. -/
def TimeKey : String := "time"

/-- The key of the built-in level attribute. -/
def LevelKey : String := "level"

/-- The key of the built-in message attribute. -/
def MessageKey : String := "msg"

/-- The key of the built-in source attribute. -/
def SourceKey : String := "source"

/-- The struct `slog.HandlerOptions`. -/
structure HandlerOptions where
  AddSource : Bool
  Level : Option Leveler
  ReplaceAttr : Option (List String → Attr → Except String Attr)

/-- One call of `Write` on a writer: plain bytes, or the line of one JSON record, given by
the members of its object. -/
inductive Write where
  | text (s : String)
  | record (members : List Attr)
deriving DecidableEq, Repr

/-- The writes each writer has received, oldest first. -/
abbrev Output := Writer → List Write

/-- The method `Write` of a writer: one more write on it. -/
def Output.write (out : Output) (w : Writer) (x : Write) : Output :=
  fun v => if v = w then out v ++ [x] else out v

/-- The JSON handler: its writer, its options and the attributes attached so far, as they
came out of `ReplaceAttr`. -/
structure JSONHandler where
  w : Writer
  opts : HandlerOptions
  preformattedAttrs : List Attr

/-- The function `slog.NewJSONHandler`. -/
def NewJSONHandler (w : Writer) (opts : HandlerOptions) : JSONHandler := ⟨w, opts, []⟩

/-- The method `appendAttr` of the handler on an attribute outside any group: the
attribute goes through `ReplaceAttr` when there is one, and an empty result is dropped. -/
def JSONHandler.appendAttr (h : JSONHandler) (a : Attr) : Except String (List Attr) :=
  match h.opts.ReplaceAttr with
  | some rep =>
    match rep [] a with
    | .error e => .error e
    | .ok a2 => .ok (if a2.isEmpty then [] else [a2])
  | none => .ok (if a.isEmpty then [] else [a])

/-- The method `appendAttrs` of the handler. -/
def JSONHandler.appendAttrs (h : JSONHandler) : List Attr → Except String (List Attr)
  | [] => .ok []
  | a :: rest =>
    match h.appendAttr a with
    | .error e => .error e
    | .ok xs =>
      match h.appendAttrs rest with
      | .error e => .error e
      | .ok ys => .ok (xs ++ ys)

/-- The method `WithAttrs` of the handler: the attributes are formatted at once and kept. -/
def JSONHandler.WithAttrs (h : JSONHandler) (attrs : List Attr) : Except String JSONHandler :=
  if attrs.isEmpty then .ok h
  else
    match h.appendAttrs attrs with
    | .error e => .error e
    | .ok xs => .ok { h with preformattedAttrs := h.preformattedAttrs ++ xs }

/-- The method `Enabled` of the handler: the minimum level is `Info` unless the options
give one. -/
def JSONHandler.Enabled (h : JSONHandler) (level : Level) : Bool :=
  let minLevel := match h.opts.Level with
    | some lev => lev.Level
    | none => LevelInfo
  decide (level ≥ minLevel)

/-- The struct `slog.Record`; `Source` is the location its program counter resolves to. -/
structure Record where
  Time : Int
  Level : Level
  Message : String
  Source : Source
  Attrs : List Attr

/-- The function `slog.NewRecord`. -/
def NewRecord (t : Int) (level : Level) (msg : String) (pc : Source) : Record :=
  ⟨t, level, msg, pc, []⟩

/-- The method `Record.Add`. -/
def Record.Add (r : Record) (args : List Arg) : Record :=
  { r with Attrs := r.Attrs ++ argsToAttrSlice args }

/-- The method `Handle` of the handler: the built-in attributes time (unless zero), level,
source (when asked for) and message, then the attached attributes, then those of the
record, written as one line to the handler's writer. -/
def JSONHandler.Handle (h : JSONHandler) (r : Record) (out : Output) : Except String Output :=
  let builtin : List Attr :=
    (if r.Time ≠ 0 then [⟨TimeKey, .time r.Time⟩] else [])
    ++ [⟨LevelKey, .any (.level r.Level)⟩]
    ++ (if h.opts.AddSource then [⟨SourceKey, .any (.source r.Source)⟩] else [])
    ++ [⟨MessageKey, .str r.Message⟩]
  match h.appendAttrs builtin with
  | .error e => .error e
  | .ok head =>
    match h.appendAttrs r.Attrs with
    | .error e => .error e
    | .ok tail => .ok (out.write h.w (.record (head ++ h.preformattedAttrs ++ tail)))

/-- The struct `slog.Logger`, over the JSON handler. -/
structure Logger where
  handler : JSONHandler

/-- The function `slog.New`. -/
def New (h : JSONHandler) : Logger := ⟨h⟩

/-- The method `Logger.With` of `slog`. -/
def Logger.With (l : Logger) (args : List Arg) : Except String Logger :=
  if args.isEmpty then .ok l
  else
    match l.handler.WithAttrs (argsToAttrSlice args) with
    | .error e => .error e
    | .ok h => .ok ⟨h⟩

/-- The method `Logger.Enabled` of `slog`. -/
def Logger.Enabled (l : Logger) (level : Level) : Bool := l.handler.Enabled level

end slog

/-! ## The `log` package (`log.go`, `levels.go`, `default.go`) -/

namespace log

/-- What a logging call takes from its surroundings: `fmt.Sprintf`, the instant
`time.Now()` returns and the location `runtime.Callers` finds. -/
structure Env where
  Sprintf : String → List slog.GoAny → String
  Now : Int
  Caller : slog.Source

/-- The constant `TraceKey`. -/
def TraceKey : String := "traceId"

/-- The constant `CustomerKey`. -/
def CustomerKey : String := "customerId"

/-- The struct `Logger`; the mutex is not modelled. -/
structure Logger where
  logger : slog.Logger
  w : slog.Writer

/-- The struct `MinLevel`. -/
structure MinLevel where
  level : slog.Level
deriving DecidableEq, Repr

/-- The method `MinLevel.Level`. -/
def MinLevel.Level (ml : MinLevel) : slog.Level := ml.level

/-- A `MinLevel` as a value of the interface `slog.Leveler`. -/
def MinLevel.toLeveler (ml : MinLevel) : slog.Leveler := ⟨ml.Level⟩

/-- The constant `LevelFatal`. -/
def LevelFatal : slog.Level := 12

/-- The variable `MinLevelDebug`. -/
def MinLevelDebug : MinLevel := ⟨slog.LevelDebug⟩

/-- The variable `MinLevelInfo`. -/
def MinLevelInfo : MinLevel := ⟨slog.LevelInfo⟩

/-- The variable `MinLevelWarn`. -/
def MinLevelWarn : MinLevel := ⟨slog.LevelWarn⟩

/-- The variable `MinLevelError`. -/
def MinLevelError : MinLevel := ⟨slog.LevelError⟩

/-- The variable `MinLevelFatal`. -/
def MinLevelFatal : MinLevel := ⟨LevelFatal⟩

/-- The function `resolveLogLevel`. The unchecked type assertion panics when the value
of a `level` attribute is not a `slog.Level`. -/
def resolveLogLevel (_groups : List String) (a : slog.Attr) : Except String slog.Attr :=
  if a.Key = slog.LevelKey then
    match a.Value.Any.assertLevel with
    | none => .error "interface conversion: interface \x7b\x7d is not slog.Level"
    | some level =>
      if level = LevelFatal then .ok { a with Value := .str "FATAL" }
      else .ok a
  else .ok a

/-- The variable `defaultHandlerOptions`. -/
def defaultHandlerOptions : slog.HandlerOptions :=
  { AddSource := true, Level := none, ReplaceAttr := some resolveLogLevel }

/-- The function `New`. -/
def New (w : slog.Writer) : Logger :=
  { logger := slog.New (slog.NewJSONHandler w defaultHandlerOptions), w := w }

/-- The method `Logger.With`. -/
def Logger.With (l : Logger) (args : List slog.Arg) : Except String Logger :=
  match l.logger.With args with
  | .error e => .error e
  | .ok lg => .ok { w := l.w, logger := lg }

/-- The method `Logger.WithTrace`. -/
def Logger.WithTrace (l : Logger) (traceID : String) : Except String Logger :=
  l.With [.any (.string TraceKey), .any (.string traceID)]

/-- The method `Logger.WithCustomer`. -/
def Logger.WithCustomer (l : Logger) (customerID : String) : Except String Logger :=
  l.With [.any (.string CustomerKey), .any (.string customerID)]

/-- The method `Logger.log`. The error `Handle` returns is dropped; a panic is not. -/
def Logger.log (l : Logger) (env : Env) (level : slog.Level) (msg : String)
    (args : List slog.Arg) (out : slog.Output) : Except String slog.Output :=
  if !l.logger.Enabled level then .ok out
  else
    let r := slog.NewRecord env.Now level msg env.Caller
    let r := r.Add args
    l.logger.handler.Handle r out

/-- The method `Logger.Debug`. -/
def Logger.Debug (l : Logger) (env : Env) (msg : String) (out : slog.Output) :
    Except String slog.Output :=
  l.log env slog.LevelDebug msg [] out

/-- The method `Logger.Debugf`. -/
def Logger.Debugf (l : Logger) (env : Env) (msg : String) (args : List slog.GoAny)
    (out : slog.Output) : Except String slog.Output :=
  let msg := env.Sprintf msg args
  l.log env slog.LevelDebug msg [] out

/-- The method `Logger.Info`. -/
def Logger.Info (l : Logger) (env : Env) (msg : String) (out : slog.Output) :
    Except String slog.Output :=
  l.log env slog.LevelInfo msg [] out

/-- The method `Logger.Infof`. -/
def Logger.Infof (l : Logger) (env : Env) (msg : String) (args : List slog.GoAny)
    (out : slog.Output) : Except String slog.Output :=
  let msg := env.Sprintf msg args
  l.log env slog.LevelInfo msg [] out

/-- The method `Logger.Warn`. -/
def Logger.Warn (l : Logger) (env : Env) (msg : String) (out : slog.Output) :
    Except String slog.Output :=
  l.log env slog.LevelWarn msg [] out

/-- The method `Logger.Warnf`. -/
def Logger.Warnf (l : Logger) (env : Env) (msg : String) (args : List slog.GoAny)
    (out : slog.Output) : Except String slog.Output :=
  let msg := env.Sprintf msg args
  l.log env slog.LevelWarn msg [] out

/-- The method `Logger.Error`. -/
def Logger.Error (l : Logger) (env : Env) (msg : String) (out : slog.Output) :
    Except String slog.Output :=
  l.log env slog.LevelError msg [] out

/-- The method `Logger.Errorf`. -/
def Logger.Errorf (l : Logger) (env : Env) (msg : String) (args : List slog.GoAny)
    (out : slog.Output) : Except String slog.Output :=
  let msg := env.Sprintf msg args
  l.log env slog.LevelError msg [] out

/-- The method `Logger.Fatal`: the output after the call, with the status of `os.Exit`. -/
def Logger.Fatal (l : Logger) (env : Env) (msg : String) (out : slog.Output) :
    Except String (slog.Output × Int) :=
  match l.log env LevelFatal msg [] out with
  | .error e => .error e
  | .ok out2 => .ok (out2, 1)

/-- The method `Logger.Fatalf`: the output after the call, with the status of `os.Exit`. -/
def Logger.Fatalf (l : Logger) (env : Env) (msg : String) (args : List slog.GoAny)
    (out : slog.Output) : Except String (slog.Output × Int) :=
  let msg := env.Sprintf msg args
  match l.log env LevelFatal msg [] out with
  | .error e => .error e
  | .ok out2 => .ok (out2, 1)

/-- The method `Logger.Print`. -/
def Logger.Print (l : Logger) (msg : String) (out : slog.Output) : slog.Output :=
  out.write l.w (.text (msg ++ "\n"))

/-- The method `Logger.Printf`. -/
def Logger.Printf (l : Logger) (env : Env) (msg : String) (args : List slog.GoAny)
    (out : slog.Output) : slog.Output :=
  let msg := env.Sprintf msg args
  out.write l.w (.text (msg ++ "\n"))

/-- The method `Logger.SetMinLogLevel`: the logger after the call; `lev` is `none` for a
nil `slog.Leveler`. -/
def Logger.SetMinLogLevel (l : Logger) (lev : Option slog.Leveler) : Logger :=
  let cpo := { defaultHandlerOptions with Level := lev }
  let newSlog := slog.New (slog.NewJSONHandler l.w cpo)
  { l with logger := newSlog }

end log

/-! ## The matching of member keys by `encoding/json` -/

namespace json

/-- The folding of one rune of a member key, as far as it decides whether the key matches
a field name made of ASCII characters: a lower-case ASCII letter becomes upper-case, the
long s (U+017F) becomes `S` and the Kelvin sign (U+212A) becomes `K`, the two runes outside
ASCII whose fold set holds an ASCII letter. Every other rune outside ASCII folds to a rune
outside ASCII and is left as it is here. -/
def foldRune (c : Char) : Char :=
  if 97 ≤ c.toNat ∧ c.toNat ≤ 122 then Char.ofNat (c.toNat - 32)
  else if c.toNat = 0x17F then 'S'
  else if c.toNat = 0x212A then 'K'
  else c

/-- The function `foldName` of `encoding/json`: a member key is decoded into the field
with the same name or, failing that, into the field with the same folded name. -/
def foldName (s : String) : String := String.mk (s.toList.map foldRune)

end json

/-! ## Vocabulary and sample inputs for the `log` package -/

namespace log

/-- The value a JSON decoder finds under a key of a record: that of the last member with
the key, `none` when the record has no such member (a string field then decodes as the
empty string). -/
def member (key : String) (members : List slog.Attr) : Option slog.Value :=
  ((members.filter fun a => a.Key = key).getLast?).map fun a => a.Value

/-- The value `json.Unmarshal` leaves in the field of `Record` tagged `key` when it
decodes a record, as the test does: that of the last member whose key matches the tag, the
same name or the same folded name; `none` when no member matches, and the field keeps its
zero value. -/
def fieldMember (key : String) (members : List slog.Attr) : Option slog.Value :=
  ((members.filter fun a => json.foldName a.Key = json.foldName key).getLast?).map
    fun a => a.Value

/-- The built-in members of a record written through a logger of this package: the time
unless zero, the level (`FATAL` for `LevelFatal`), the source and the message. -/
def builtinMembers (env : Env) (level : slog.Level) (msg : String) : List slog.Attr :=
  (if env.Now ≠ 0 then [⟨slog.TimeKey, .time env.Now⟩] else [])
  ++ [⟨slog.LevelKey, if level = LevelFatal then .str "FATAL" else .any (.level level)⟩,
      ⟨slog.SourceKey, .any (.source env.Caller)⟩,
      ⟨slog.MessageKey, .str msg⟩]

/-- The loggers created by `New w` and derived from it by `With`, `WithTrace` and
`WithCustomer`, without any call of `SetMinLogLevel`. -/
inductive Derived (w : slog.Writer) : Logger → Prop where
  | new : Derived w (New w)
  | withArgs (l l2 : Logger) (args : List slog.Arg) :
      Derived w l → l.With args = .ok l2 → Derived w l2
  | withTrace (l l2 : Logger) (traceID : String) :
      Derived w l → l.WithTrace traceID = .ok l2 → Derived w l2
  | withCustomer (l l2 : Logger) (customerID : String) :
      Derived w l → l.WithCustomer customerID = .ok l2 → Derived w l2

/-- The loggers created by `New w` and obtained from it by `With`, `WithTrace`,
`WithCustomer` and `SetMinLogLevel`. -/
inductive Built (w : slog.Writer) : Logger → Prop where
  | new : Built w (New w)
  | withArgs (l l2 : Logger) (args : List slog.Arg) :
      Built w l → l.With args = .ok l2 → Built w l2
  | setMinLogLevel (l : Logger) (lev : Option slog.Leveler) :
      Built w l → Built w (l.SetMinLogLevel lev)

/-- The printed form of a Go value under the verbs of the reference `Sprintf`. -/
def printed : slog.GoAny → String
  | .nil => "<nil>"
  | .string s => s
  | .int n => toString n
  | .bool b => if b then "true" else "false"
  | .time t => toString t
  | .level l => toString l
  | .source src => src.File
  | .other text => text

/-- A reference `Sprintf`, defined on the verbs `%s`, `%d` and `%v` only: each is replaced
by the printed form of the next argument. -/
def refSprintfChars : List Char → List slog.GoAny → List Char
  | [], _ => []
  | '%' :: 's' :: rest, a :: args => (printed a).toList ++ refSprintfChars rest args
  | '%' :: 'd' :: rest, a :: args => (printed a).toList ++ refSprintfChars rest args
  | '%' :: 'v' :: rest, a :: args => (printed a).toList ++ refSprintfChars rest args
  | ch :: rest, args => ch :: refSprintfChars rest args

/-- A reference environment: the reference `Sprintf`, the instant 1700000000 and a call
from line 27 of `log_test.go`. -/
def refEnv : Env :=
  { Sprintf := fun format args => String.mk (refSprintfChars format.toList args)
    Now := 1700000000
    Caller := ⟨"log.TestLoggerTrace", "log_test.go", 27⟩ }

/-- An output on which nothing has been written. -/
def emptyOutput : slog.Output := fun _ => []

/-- The writer `os.Stdout`. -/
def Stdout : slog.Writer := 1

/-- The variable `defaultLogger`, as initialised. -/
def defaultLogger : Logger :=
  { logger := slog.New (slog.NewJSONHandler Stdout defaultHandlerOptions), w := Stdout }

/-- The function `SetMinLogLevel` of the package: the default logger after the call, given
the default logger before it. -/
def SetMinLogLevel (current : Logger) (lev : Option slog.Leveler) : Logger :=
  let cpo := { defaultHandlerOptions with Level := lev }
  let newSlog := slog.New (slog.NewJSONHandler Stdout cpo)
  { current with logger := newSlog }

end log

namespace controlclient

/-! ## Shared lemmas on `doRequest` and `parseResponse` -/

/-- What `doRequest` returns once the body is marshalled: it either stops before sending,
leaving the network as it was, or hands exactly one request to the transport. -/
theorem doRequest_shape (pk : Packages) (c : Client) (method path : String)
    (body : Option GoValue) (net : List Request) :
    (∃ e, doRequest pk c method path body net = (.error e, net)) ∨
    (∃ req, (doRequest pk c method path body net).2 = net ++ [req] ∧
      ((∃ e, c.httpClient.Do net req = .error e ∧
          (doRequest pk c method path body net).1 = .error ("request failed: " ++ e)) ∨
       (∃ resp, c.httpClient.Do net req = .ok resp ∧
          (doRequest pk c method path body net).1 = .ok resp))) := by
  unfold doRequest
  cases body with
  | none =>
    simp only
    cases hreq : NewRequestWithContext pk method (c.baseURL ++ path) none with
    | error e => left; exact ⟨_, rfl⟩
    | ok req =>
      right
      simp only
      split
      · next e he => exact ⟨_, rfl, Or.inl ⟨e, he, rfl⟩⟩
      · next resp he => exact ⟨_, rfl, Or.inr ⟨resp, he, rfl⟩⟩
  | some b =>
    simp only
    cases hm : pk.Marshal b with
    | error e => left; exact ⟨_, rfl⟩
    | ok jsonData =>
      simp only
      cases hreq : NewRequestWithContext pk method (c.baseURL ++ path) (some jsonData) with
      | error e => left; exact ⟨_, rfl⟩
      | ok req =>
        right
        simp only
        split
        · next e he => exact ⟨_, rfl, Or.inl ⟨e, he, rfl⟩⟩
        · next resp he => exact ⟨_, rfl, Or.inr ⟨resp, he, rfl⟩⟩

/-- The method `doRequest` returns a response exactly when it sent a request and the
transport answered it with that response. -/
theorem doRequest_ok_iff (pk : Packages) (c : Client) (method path : String)
    (body : Option GoValue) (net : List Request) (resp : Response) :
    (doRequest pk c method path body net).1 = .ok resp ↔
      ∃ req, (doRequest pk c method path body net).2 = net ++ [req] ∧
        c.httpClient.Do net req = .ok resp := by
  rcases doRequest_shape pk c method path body net with ⟨e, h⟩ | ⟨req, hlog, h⟩
  · rw [h]
    constructor
    · intro h1; cases h1
    · rintro ⟨req, h1, -⟩
      have := congrArg List.length h1
      simp at this
  · constructor
    · intro h1
      rcases h with ⟨e, -, h2⟩ | ⟨r, h2, h3⟩
      · rw [h2] at h1; cases h1
      · rw [h3] at h1; cases h1; exact ⟨req, hlog, h2⟩
    · rintro ⟨req2, h1, h2⟩
      rw [hlog] at h1
      have hreq : req = req2 := by simpa using h1
      subst hreq
      rcases h with ⟨e, h3, -⟩ | ⟨r, h3, h4⟩
      · rw [h3] at h2; cases h2
      · rw [h3] at h2; cases h2; exact h4

/-- The header settings of `doRequest` leave method, URL and body of the request alone. -/
theorem Request.Set_fields (req : Request) (key value : String) :
    (req.Set key value).method = req.method ∧ (req.Set key value).url = req.url ∧
    (req.Set key value).body = req.body := ⟨rfl, rfl, rfl⟩

/-- When the body marshals and the URL parses, `doRequest` hands the transport one request
with the given method, the URL `baseURL + path` and the marshalled body. -/
theorem doRequest_sent (pk : Packages) (c : Client) (method path : String)
    (body : Option GoValue) (net : List Request) (reqBody : Option String)
    (hbody : (∀ b, body = some b → ∃ j, pk.Marshal b = .ok j ∧ reqBody = some j) ∧
      (body = none → reqBody = none))
    (hurl : pk.ParseURL (c.baseURL ++ path) = none) :
    ∃ req, (doRequest pk c method path body net).2 = net ++ [req] ∧
      req.method = method ∧ req.url = c.baseURL ++ path ∧ req.body = reqBody := by
  have key : ∀ rb : Option String, ∃ req,
      (match NewRequestWithContext pk method (c.baseURL ++ path) rb with
        | .error e => ((.error ("failed to create request: " ++ e) : Except String Response), net)
        | .ok req =>
          match c.httpClient.Do net
            (if c.apiKey != "" then
              ((req.Set "Content-Type" "application/json").Set "Accept" "application/json").Set
                "Authorization" ("Bearer " ++ c.apiKey)
            else (req.Set "Content-Type" "application/json").Set "Accept" "application/json") with
          | .error e => (.error ("request failed: " ++ e),
              net ++ [if c.apiKey != "" then
                ((req.Set "Content-Type" "application/json").Set "Accept" "application/json").Set
                  "Authorization" ("Bearer " ++ c.apiKey)
              else (req.Set "Content-Type" "application/json").Set "Accept" "application/json"])
          | .ok resp => (.ok resp,
              net ++ [if c.apiKey != "" then
                ((req.Set "Content-Type" "application/json").Set "Accept" "application/json").Set
                  "Authorization" ("Bearer " ++ c.apiKey)
              else (req.Set "Content-Type" "application/json").Set "Accept" "application/json"])).2
        = net ++ [req] ∧
      req.method = method ∧ req.url = c.baseURL ++ path ∧ req.body = rb := by
    intro rb
    simp only [NewRequestWithContext, hurl]
    refine ⟨if c.apiKey != "" then
        (((Request.mk method (c.baseURL ++ path) rb []).Set "Content-Type" "application/json").Set
          "Accept" "application/json").Set "Authorization" ("Bearer " ++ c.apiKey)
      else ((Request.mk method (c.baseURL ++ path) rb []).Set "Content-Type"
        "application/json").Set "Accept" "application/json", ?_, ?_⟩
    · split <;> rfl
    · split <;> exact ⟨rfl, rfl, rfl⟩
  unfold doRequest
  cases body with
  | none =>
    have hrb : reqBody = none := hbody.2 rfl
    subst hrb
    exact key none
  | some b =>
    obtain ⟨j, hj, hrb⟩ := hbody.1 b rfl
    subst hrb
    simp only [hj]
    exact key (some j)

/-- Every run of `doRequest` either fails before sending, leaving the network as it was, or
hands the transport exactly one request, with the given method, the URL `baseURL + path`
and the marshalled body (no body for a nil one). -/
theorem doRequest_log (pk : Packages) (c : Client) (method path : String)
    (body : Option GoValue) (net : List Request) :
    (∃ e, doRequest pk c method path body net = (.error e, net)) ∨
    (∃ req, (doRequest pk c method path body net).2 = net ++ [req] ∧
      req.method = method ∧ req.url = c.baseURL ++ path ∧
      (body = none → req.body = none) ∧
      (∀ b, body = some b → ∃ j, pk.Marshal b = .ok j ∧ req.body = some j)) := by
  cases hurl : pk.ParseURL (c.baseURL ++ path) with
  | none =>
    cases body with
    | none =>
      right
      obtain ⟨req, h1, h2, h3, h4⟩ := doRequest_sent pk c method path none net none
        ⟨fun b hb => (by cases hb), fun _ => rfl⟩ hurl
      exact ⟨req, h1, h2, h3, fun _ => h4, fun b hb => (by cases hb)⟩
    | some b =>
      cases hm : pk.Marshal b with
      | error e =>
        left
        unfold doRequest
        simp only [hm]
        exact ⟨_, rfl⟩
      | ok j =>
        right
        obtain ⟨req, h1, h2, h3, h4⟩ := doRequest_sent pk c method path (some b) net (some j)
          ⟨fun b2 hb => (by cases hb; exact ⟨j, hm, rfl⟩), fun hb => (by cases hb)⟩ hurl
        refine ⟨req, h1, h2, h3, fun hb => (by cases hb), fun b2 hb => ?_⟩
        cases hb
        exact ⟨j, hm, h4⟩
  | some err =>
    left
    unfold doRequest
    cases body with
    | none =>
      simp only [NewRequestWithContext, hurl]
      exact ⟨_, rfl⟩
    | some b =>
      cases hm : pk.Marshal b with
      | error e =>
        simp only [hm]
        exact ⟨_, rfl⟩
      | ok j =>
        simp only [hm, NewRequestWithContext, hurl]
        exact ⟨_, rfl⟩

/-- With a target and no error, `parseResponse` has decoded the body into the target. -/
theorem parseResponse_some {α : Type} (um : String → α → Except String α) (resp : Response)
    (t : α) :
    (∃ e, (parseResponse um resp (some t)).2 = some e) ∨
    (∃ body filled, resp.Body = .ok body ∧ resp.StatusCode < 400 ∧ um body t = .ok filled ∧
      parseResponse um resp (some t) = (some filled, none)) := by
  unfold parseResponse
  cases hb : resp.Body with
  | error e => left; exact ⟨_, rfl⟩
  | ok body =>
    simp only
    by_cases hs : resp.StatusCode ≥ 400
    · left; rw [if_pos hs]; exact ⟨_, rfl⟩
    · rw [if_neg hs]
      cases hu : um body t with
      | error e => left; exact ⟨_, rfl⟩
      | ok filled => right; exact ⟨body, filled, rfl, by omega, hu, rfl⟩

/-- A response with a status of 400 or more makes `parseResponse` return an error. -/
theorem parseResponse_rejected {α : Type} (um : String → α → Except String α)
    (resp : Response) (target : Option α) (hs : resp.StatusCode ≥ 400) :
    (parseResponse um resp target).2 ≠ none := by
  unfold parseResponse
  cases resp.Body with
  | error e => simp
  | ok body => simp [hs]

/-- An error left by `parseResponse` becomes a nil lock with that error. -/
theorem lockResult_error {L : Type} (p : Option L × Option String) (e : String)
    (h : p.2 = some e) : lockResult p = (none, some e) := by
  obtain ⟨l, err⟩ := p
  cases h
  rfl

/-- Without an error the filled target is returned. -/
theorem lockResult_ok {L : Type} (l : Option L) : lockResult (l, none) = (l, none) := rfl

/-- The outcome of `CheckTenantLock` in terms of the answer to its request. -/
theorem CheckTenantLock_outcome (pk : Packages) (c : Client) (tenantID : String)
    (net : List Request) :
    ((∀ resp, ¬ answered c net (CheckTenantLock pk c tenantID net).2 resp) ∧
      (CheckTenantLock pk c tenantID net).1.1 = none ∧
      (CheckTenantLock pk c tenantID net).1.2 ≠ none) ∨
    (∃ resp, answered c net (CheckTenantLock pk c tenantID net).2 resp ∧
      (CheckTenantLock pk c tenantID net).1 =
        if resp.StatusCode = 404 then (none, none)
        else lockResult (parseResponse pk.UnmarshalPackerTenantLock resp (some PackerTenantLock.zero))) := by
  have hiff := doRequest_ok_iff pk c "GET" ("/api/v1/packer/locks/tenants/" ++ tenantID) none net
  unfold CheckTenantLock
  simp only
  rcases h : doRequest pk c "GET" ("/api/v1/packer/locks/tenants/" ++ tenantID) none net
    with ⟨r, net1⟩
  rw [h] at hiff
  cases r with
  | error e =>
    left
    refine ⟨?_, rfl, by simp⟩
    intro resp hr
    have := (hiff resp).2 hr
    cases this
  | ok resp =>
    right
    have hans : answered c net net1 resp := (hiff resp).1 rfl
    simp only
    by_cases h404 : resp.StatusCode = 404
    · simp only [h404, if_true]
      exact ⟨resp, hans, by simp [h404]⟩
    · simp only [h404, if_false]
      refine ⟨resp, ?_, ?_⟩
      · split <;> exact hans
      · unfold lockResult
        split <;> simp_all

/-- The outcome of `CheckFileLock` in terms of the answer to its request. -/
theorem CheckFileLock_outcome (pk : Packages) (c : Client) (tenantID datasetID fileKey : String)
    (net : List Request) :
    ((∀ resp, ¬ answered c net (CheckFileLock pk c tenantID datasetID fileKey net).2 resp) ∧
      (CheckFileLock pk c tenantID datasetID fileKey net).1.1 = none ∧
      (CheckFileLock pk c tenantID datasetID fileKey net).1.2 ≠ none) ∨
    (∃ resp, answered c net (CheckFileLock pk c tenantID datasetID fileKey net).2 resp ∧
      (CheckFileLock pk c tenantID datasetID fileKey net).1 =
        if resp.StatusCode = 404 then (none, none)
        else lockResult (parseResponse pk.UnmarshalPiperFileLock resp (some PiperFileLock.zero))) := by
  have hiff := doRequest_ok_iff pk c "GET" ("/api/v1/piper/locks/files/" ++ tenantID ++ "/"
    ++ datasetID ++ "/" ++ PathEscape fileKey) none net
  unfold CheckFileLock
  simp only
  rcases h : doRequest pk c "GET" ("/api/v1/piper/locks/files/" ++ tenantID ++ "/"
    ++ datasetID ++ "/" ++ PathEscape fileKey) none net with ⟨r, net1⟩
  rw [h] at hiff
  cases r with
  | error e =>
    left
    refine ⟨?_, rfl, by simp⟩
    intro resp hr
    have := (hiff resp).2 hr
    cases this
  | ok resp =>
    right
    have hans : answered c net net1 resp := (hiff resp).1 rfl
    simp only
    by_cases h404 : resp.StatusCode = 404
    · simp only [h404, if_true]
      exact ⟨resp, hans, by simp [h404]⟩
    · simp only [h404, if_false]
      refine ⟨resp, ?_, ?_⟩
      · split <;> exact hans
      · unfold lockResult
        split <;> simp_all

/-- The answer to the one request of a call is determined by the network after the call. -/
theorem answered_unique (c : Client) (net log : List Request) (r1 r2 : Response)
    (h1 : answered c net log r1) (h2 : answered c net log r2) : r1 = r2 := by
  obtain ⟨q1, hl1, hd1⟩ := h1
  obtain ⟨q2, hl2, hd2⟩ := h2
  rw [hl1] at hl2
  have hq : q1 = q2 := by simpa using hl2
  subst hq
  rw [hd1] at hd2
  cases hd2
  rfl

/-- The four facts about a check method that follow from its outcome: absent exactly on
status 404, an error when unanswered, an error on another rejection, the decoded lock on
success. -/
theorem check_facts {L : Type} (um : String → L → Except String L) (zero : L) (c : Client)
    (net : List Request) (out : (Option L × Option String) × List Request)
    (h : ((∀ resp, ¬ answered c net out.2 resp) ∧ out.1.1 = none ∧ out.1.2 ≠ none) ∨
      (∃ resp, answered c net out.2 resp ∧
        out.1 = if resp.StatusCode = 404 then (none, none)
          else lockResult (parseResponse um resp (some zero)))) :
    (out.1 = (none, none) ↔ ∃ resp, answered c net out.2 resp ∧ resp.StatusCode = 404) ∧
    ((∀ resp, ¬ answered c net out.2 resp) → out.1.1 = none ∧ out.1.2 ≠ none) ∧
    (∀ resp, answered c net out.2 resp → resp.StatusCode ≥ 400 → resp.StatusCode ≠ 404 →
      out.1.1 = none ∧ out.1.2 ≠ none) ∧
    (∀ resp body lock, answered c net out.2 resp → resp.StatusCode < 400 →
      resp.Body = .ok body → um body zero = .ok lock → out.1 = (some lock, none)) := by
  rcases h with ⟨hno, h1, h2⟩ | ⟨resp, hans, hout⟩
  · refine ⟨⟨?_, ?_⟩, fun _ => ⟨h1, h2⟩, ?_, ?_⟩
    · intro h; rw [h] at h2; exact absurd rfl h2
    · rintro ⟨resp, hr, -⟩; exact absurd hr (hno resp)
    · intro resp hr; exact absurd hr (hno resp)
    · intro resp _ _ hr; exact absurd hr (hno resp)
  · have hpr := parseResponse_some um resp zero
    have hrej := parseResponse_rejected um resp (some zero)
    refine ⟨⟨?_, ?_⟩, fun hno => absurd hans (hno resp), ?_, ?_⟩
    · intro h
      refine ⟨resp, hans, ?_⟩
      by_contra h404
      rw [if_neg h404] at hout
      rw [h] at hout
      rcases hpr with ⟨e, he⟩ | ⟨body, filled, -, -, -, hp⟩
      · rw [lockResult_error _ e he] at hout; cases hout
      · rw [hp, lockResult_ok] at hout; cases hout
    · rintro ⟨r2, hr2, h404⟩
      have := answered_unique c net out.2 r2 resp hr2 hans
      subst this
      rw [hout, if_pos h404]
    · intro r2 hr2 h400 h404
      have := answered_unique c net out.2 r2 resp hr2 hans
      subst this
      rw [hout, if_neg h404]
      obtain ⟨e, he⟩ := Option.ne_none_iff_exists'.1 (hrej h400)
      rw [lockResult_error _ e he]
      exact ⟨rfl, by simp⟩
    · intro r2 body lock hr2 hlt hb hu
      have := answered_unique c net out.2 r2 resp hr2 hans
      subst this
      have h404 : r2.StatusCode ≠ 404 := by omega
      rw [hout, if_neg h404]
      rcases hpr with ⟨e, he⟩ | ⟨body2, filled, hb2, -, hu2, hp⟩
      · exfalso
        unfold parseResponse at he
        rw [hb] at he
        simp only at he
        rw [if_neg (by omega)] at he
        rw [hu] at he
        simp at he
      · rw [hb] at hb2; cases hb2
        rw [hu] at hu2; cases hu2
        rw [hp, lockResult_ok]

/-- C1: `CheckTenantLock` and `CheckFileLock` return (nil lock, nil error) if and only if
their request was answered with status exactly 404. When no answer arrives (the request could
not be built or the transport failed) and when the answer has any other status of 400 or more,
they return a nil lock with a non-nil error; when the answer has a status below 400 and a body
that decodes, they return the decoded lock with a nil error. -/
theorem check_absent_iff_status_404 (pk : Packages) (c : Client)
    (tenantID datasetID fileKey : String) (net : List Request) :
    (((CheckTenantLock pk c tenantID net).1 = (none, none) ↔
        ∃ resp, answered c net (CheckTenantLock pk c tenantID net).2 resp ∧
          resp.StatusCode = 404) ∧
      ((∀ resp, ¬ answered c net (CheckTenantLock pk c tenantID net).2 resp) →
        (CheckTenantLock pk c tenantID net).1.1 = none ∧
        (CheckTenantLock pk c tenantID net).1.2 ≠ none) ∧
      (∀ resp, answered c net (CheckTenantLock pk c tenantID net).2 resp →
        resp.StatusCode ≥ 400 → resp.StatusCode ≠ 404 →
        (CheckTenantLock pk c tenantID net).1.1 = none ∧
        (CheckTenantLock pk c tenantID net).1.2 ≠ none) ∧
      (∀ resp body lock, answered c net (CheckTenantLock pk c tenantID net).2 resp →
        resp.StatusCode < 400 → resp.Body = .ok body →
        pk.UnmarshalPackerTenantLock body PackerTenantLock.zero = .ok lock →
        (CheckTenantLock pk c tenantID net).1 = (some lock, none))) ∧
    (((CheckFileLock pk c tenantID datasetID fileKey net).1 = (none, none) ↔
        ∃ resp, answered c net (CheckFileLock pk c tenantID datasetID fileKey net).2 resp ∧
          resp.StatusCode = 404) ∧
      ((∀ resp, ¬ answered c net (CheckFileLock pk c tenantID datasetID fileKey net).2 resp) →
        (CheckFileLock pk c tenantID datasetID fileKey net).1.1 = none ∧
        (CheckFileLock pk c tenantID datasetID fileKey net).1.2 ≠ none) ∧
      (∀ resp, answered c net (CheckFileLock pk c tenantID datasetID fileKey net).2 resp →
        resp.StatusCode ≥ 400 → resp.StatusCode ≠ 404 →
        (CheckFileLock pk c tenantID datasetID fileKey net).1.1 = none ∧
        (CheckFileLock pk c tenantID datasetID fileKey net).1.2 ≠ none) ∧
      (∀ resp body lock, answered c net (CheckFileLock pk c tenantID datasetID fileKey net).2 resp →
        resp.StatusCode < 400 → resp.Body = .ok body →
        pk.UnmarshalPiperFileLock body PiperFileLock.zero = .ok lock →
        (CheckFileLock pk c tenantID datasetID fileKey net).1 = (some lock, none))) :=
  ⟨check_facts _ _ c net _ (CheckTenantLock_outcome pk c tenantID net),
   check_facts _ _ c net _ (CheckFileLock_outcome pk c tenantID datasetID fileKey net)⟩

/-! ## The network after each method: it is the one `doRequest` leaves -/

/-- The network after `AcquireTenantLock` is the network after its `doRequest`. -/
theorem AcquireTenantLock_log (pk : Packages) (c : Client) (tenantID lockedBy : String) (lockDurationSeconds : Int) (net : List Request) :
    (AcquireTenantLock pk c tenantID lockedBy lockDurationSeconds net).2 =
      (doRequest pk c "POST" "/api/v1/packer/locks/tenants"
        (some (.map [("tenant_id", .str tenantID), ("locked_by", .str lockedBy),
      ("lock_duration_seconds", .int lockDurationSeconds)])) net).2 := by
  unfold AcquireTenantLock
  simp only
  generalize doRequest pk c "POST" "/api/v1/packer/locks/tenants"
    (some (.map [("tenant_id", .str tenantID), ("locked_by", .str lockedBy),
      ("lock_duration_seconds", .int lockDurationSeconds)])) net = r
  obtain ⟨r1, net1⟩ := r
  cases r1 with
  | error e => rfl
  | ok resp =>
    simp only
    split <;> rfl

/-- The network after `ReleaseTenantLock` is the network after its `doRequest`. -/
theorem ReleaseTenantLock_log (pk : Packages) (c : Client) (tenantID lockedBy : String) (net : List Request) :
    (ReleaseTenantLock pk c tenantID lockedBy net).2 =
      (doRequest pk c "DELETE" ("/api/v1/packer/locks/tenants/" ++ tenantID ++ "?locked_by=" ++ QueryEscape lockedBy)
        none net).2 := by
  unfold ReleaseTenantLock
  simp only
  generalize doRequest pk c "DELETE" ("/api/v1/packer/locks/tenants/" ++ tenantID ++ "?locked_by=" ++ QueryEscape lockedBy)
    none net = r
  obtain ⟨r1, net1⟩ := r
  cases r1 with
  | error e => rfl
  | ok resp =>
    rfl

/-- The network after `UpdateTenantLockHeartbeat` is the network after its `doRequest`. -/
theorem UpdateTenantLockHeartbeat_log (pk : Packages) (c : Client) (tenantID lockedBy : String) (net : List Request) :
    (UpdateTenantLockHeartbeat pk c tenantID lockedBy net).2 =
      (doRequest pk c "PUT" ("/api/v1/packer/locks/tenants/" ++ tenantID ++ "/heartbeat")
        (some (.map [("locked_by", .str lockedBy)])) net).2 := by
  unfold UpdateTenantLockHeartbeat
  simp only
  generalize doRequest pk c "PUT" ("/api/v1/packer/locks/tenants/" ++ tenantID ++ "/heartbeat")
    (some (.map [("locked_by", .str lockedBy)])) net = r
  obtain ⟨r1, net1⟩ := r
  cases r1 with
  | error e => rfl
  | ok resp =>
    rfl

/-- The network after `CheckTenantLock` is the network after its `doRequest`. -/
theorem CheckTenantLock_log (pk : Packages) (c : Client) (tenantID : String) (net : List Request) :
    (CheckTenantLock pk c tenantID net).2 =
      (doRequest pk c "GET" ("/api/v1/packer/locks/tenants/" ++ tenantID)
        none net).2 := by
  unfold CheckTenantLock
  simp only
  generalize doRequest pk c "GET" ("/api/v1/packer/locks/tenants/" ++ tenantID)
    none net = r
  obtain ⟨r1, net1⟩ := r
  cases r1 with
  | error e => rfl
  | ok resp =>
    simp only
    split
    · rfl
    · split <;> rfl

/-- The network after `CleanupExpiredTenantLocks` is the network after its `doRequest`. -/
theorem CleanupExpiredTenantLocks_log (pk : Packages) (c : Client) (net : List Request) :
    (CleanupExpiredTenantLocks pk c net).2 =
      (doRequest pk c "DELETE" "/api/v1/packer/locks/tenants/cleanup/expired"
        none net).2 := by
  unfold CleanupExpiredTenantLocks
  generalize doRequest pk c "DELETE" "/api/v1/packer/locks/tenants/cleanup/expired"
    none net = r
  obtain ⟨r1, net1⟩ := r
  cases r1 with
  | error e => rfl
  | ok resp =>
    simp only
    split <;> rfl

/-- The network after `ClearAllTenantLocks` is the network after its `doRequest`. -/
theorem ClearAllTenantLocks_log (pk : Packages) (c : Client) (net : List Request) :
    (ClearAllTenantLocks pk c net).2 =
      (doRequest pk c "DELETE" "/api/v1/packer/locks/tenants/cleanup/all"
        none net).2 := by
  unfold ClearAllTenantLocks
  generalize doRequest pk c "DELETE" "/api/v1/packer/locks/tenants/cleanup/all"
    none net = r
  obtain ⟨r1, net1⟩ := r
  cases r1 with
  | error e => rfl
  | ok resp =>
    simp only
    split <;> rfl

/-- The network after `CleanupStaleTenantLocks` is the network after its `doRequest`. -/
theorem CleanupStaleTenantLocks_log (pk : Packages) (c : Client) (staleThresholdSeconds : Int) (net : List Request) :
    (CleanupStaleTenantLocks pk c staleThresholdSeconds net).2 =
      (doRequest pk c "DELETE" ("/api/v1/packer/locks/tenants/cleanup/stale?stale_threshold_seconds="
      ++ fmtInt staleThresholdSeconds)
        none net).2 := by
  unfold CleanupStaleTenantLocks
  simp only
  generalize doRequest pk c "DELETE" ("/api/v1/packer/locks/tenants/cleanup/stale?stale_threshold_seconds="
      ++ fmtInt staleThresholdSeconds)
    none net = r
  obtain ⟨r1, net1⟩ := r
  cases r1 with
  | error e => rfl
  | ok resp =>
    simp only
    split <;> rfl

/-- The network after `AcquireFileLock` is the network after its `doRequest`. -/
theorem AcquireFileLock_log (pk : Packages) (c : Client) (tenantID datasetID fileKey lockedBy : String) (lockDurationSeconds : Int) (net : List Request) :
    (AcquireFileLock pk c tenantID datasetID fileKey lockedBy lockDurationSeconds net).2 =
      (doRequest pk c "POST" "/api/v1/piper/locks/files"
        (some (.map [("tenant_id", .str tenantID), ("dataset_id", .str datasetID),
      ("file_key", .str fileKey), ("locked_by", .str lockedBy),
      ("lock_duration_seconds", .int lockDurationSeconds)])) net).2 := by
  unfold AcquireFileLock
  simp only
  generalize doRequest pk c "POST" "/api/v1/piper/locks/files"
    (some (.map [("tenant_id", .str tenantID), ("dataset_id", .str datasetID),
      ("file_key", .str fileKey), ("locked_by", .str lockedBy),
      ("lock_duration_seconds", .int lockDurationSeconds)])) net = r
  obtain ⟨r1, net1⟩ := r
  cases r1 with
  | error e => rfl
  | ok resp =>
    simp only
    split <;> rfl

/-- The network after `CheckFileLock` is the network after its `doRequest`. -/
theorem CheckFileLock_log (pk : Packages) (c : Client) (tenantID datasetID fileKey : String) (net : List Request) :
    (CheckFileLock pk c tenantID datasetID fileKey net).2 =
      (doRequest pk c "GET" ("/api/v1/piper/locks/files/" ++ tenantID ++ "/" ++ datasetID ++ "/"
      ++ PathEscape fileKey)
        none net).2 := by
  unfold CheckFileLock
  simp only
  generalize doRequest pk c "GET" ("/api/v1/piper/locks/files/" ++ tenantID ++ "/" ++ datasetID ++ "/"
      ++ PathEscape fileKey)
    none net = r
  obtain ⟨r1, net1⟩ := r
  cases r1 with
  | error e => rfl
  | ok resp =>
    simp only
    split
    · rfl
    · split <;> rfl

/-- The network after `CleanupExpiredFileLocks` is the network after its `doRequest`. -/
theorem CleanupExpiredFileLocks_log (pk : Packages) (c : Client) (net : List Request) :
    (CleanupExpiredFileLocks pk c net).2 =
      (doRequest pk c "DELETE" "/api/v1/piper/locks/files/cleanup/expired"
        none net).2 := by
  unfold CleanupExpiredFileLocks
  generalize doRequest pk c "DELETE" "/api/v1/piper/locks/files/cleanup/expired"
    none net = r
  obtain ⟨r1, net1⟩ := r
  cases r1 with
  | error e => rfl
  | ok resp =>
    simp only
    split <;> rfl

/-- The network after `CleanupStaleFileLocks` is the network after its `doRequest`. -/
theorem CleanupStaleFileLocks_log (pk : Packages) (c : Client) (staleThresholdSeconds : Int) (net : List Request) :
    (CleanupStaleFileLocks pk c staleThresholdSeconds net).2 =
      (doRequest pk c "DELETE" ("/api/v1/piper/locks/files/cleanup/stale?stale_threshold_seconds="
      ++ fmtInt staleThresholdSeconds)
        none net).2 := by
  unfold CleanupStaleFileLocks
  simp only
  generalize doRequest pk c "DELETE" ("/api/v1/piper/locks/files/cleanup/stale?stale_threshold_seconds="
      ++ fmtInt staleThresholdSeconds)
    none net = r
  obtain ⟨r1, net1⟩ := r
  cases r1 with
  | error e => rfl
  | ok resp =>
    simp only
    split <;> rfl

/-! ## The outcome of each method in terms of the answer to its request -/

/-- The outcome of `AcquireTenantLock` in terms of the answer to its request. -/
theorem AcquireTenantLock_outcome (pk : Packages) (c : Client) (tenantID lockedBy : String) (lockDurationSeconds : Int) (net : List Request) :
    ((∀ resp, ¬ answered c net (AcquireTenantLock pk c tenantID lockedBy lockDurationSeconds net).2 resp) ∧
      (AcquireTenantLock pk c tenantID lockedBy lockDurationSeconds net).1.1 = none ∧ (AcquireTenantLock pk c tenantID lockedBy lockDurationSeconds net).1.2 ≠ none) ∨
    (∃ resp, answered c net (AcquireTenantLock pk c tenantID lockedBy lockDurationSeconds net).2 resp ∧
      (AcquireTenantLock pk c tenantID lockedBy lockDurationSeconds net).1 =
        lockResult (parseResponse pk.UnmarshalPackerTenantLock resp (some PackerTenantLock.zero))) := by
  have hiff := doRequest_ok_iff pk c "POST" "/api/v1/packer/locks/tenants"
    (some (.map [("tenant_id", .str tenantID), ("locked_by", .str lockedBy),
      ("lock_duration_seconds", .int lockDurationSeconds)])) net
  unfold AcquireTenantLock
  simp only
  rcases h : doRequest pk c "POST" "/api/v1/packer/locks/tenants"
    (some (.map [("tenant_id", .str tenantID), ("locked_by", .str lockedBy),
      ("lock_duration_seconds", .int lockDurationSeconds)])) net with ⟨r, net1⟩
  rw [h] at hiff
  cases r with
  | error e =>
    left
    refine ⟨?_, rfl, by simp⟩
    intro resp hr
    have := (hiff resp).2 hr
    cases this
  | ok resp =>
    right
    have hans : answered c net net1 resp := (hiff resp).1 rfl
    simp only
    refine ⟨resp, ?_, ?_⟩
    · split <;> exact hans
    · unfold lockResult
      split <;> simp_all

/-- The outcome of `ReleaseTenantLock` in terms of the answer to its request. -/
theorem ReleaseTenantLock_outcome (pk : Packages) (c : Client) (tenantID lockedBy : String) (net : List Request) :
    ((∀ resp, ¬ answered c net (ReleaseTenantLock pk c tenantID lockedBy net).2 resp) ∧
      (ReleaseTenantLock pk c tenantID lockedBy net).1 ≠ none) ∨
    (∃ resp, answered c net (ReleaseTenantLock pk c tenantID lockedBy net).2 resp ∧
      (ReleaseTenantLock pk c tenantID lockedBy net).1 = (parseResponse noTarget resp none).2) := by
  have hiff := doRequest_ok_iff pk c "DELETE" ("/api/v1/packer/locks/tenants/" ++ tenantID ++ "?locked_by=" ++ QueryEscape lockedBy)
    none net
  unfold ReleaseTenantLock
  simp only
  rcases h : doRequest pk c "DELETE" ("/api/v1/packer/locks/tenants/" ++ tenantID ++ "?locked_by=" ++ QueryEscape lockedBy)
    none net with ⟨r, net1⟩
  rw [h] at hiff
  cases r with
  | error e =>
    left
    refine ⟨?_, by simp⟩
    intro resp hr
    have := (hiff resp).2 hr
    cases this
  | ok resp =>
    right
    exact ⟨resp, (hiff resp).1 rfl, rfl⟩

/-- The outcome of `UpdateTenantLockHeartbeat` in terms of the answer to its request. -/
theorem UpdateTenantLockHeartbeat_outcome (pk : Packages) (c : Client) (tenantID lockedBy : String) (net : List Request) :
    ((∀ resp, ¬ answered c net (UpdateTenantLockHeartbeat pk c tenantID lockedBy net).2 resp) ∧
      (UpdateTenantLockHeartbeat pk c tenantID lockedBy net).1 ≠ none) ∨
    (∃ resp, answered c net (UpdateTenantLockHeartbeat pk c tenantID lockedBy net).2 resp ∧
      (UpdateTenantLockHeartbeat pk c tenantID lockedBy net).1 = (parseResponse noTarget resp none).2) := by
  have hiff := doRequest_ok_iff pk c "PUT" ("/api/v1/packer/locks/tenants/" ++ tenantID ++ "/heartbeat")
    (some (.map [("locked_by", .str lockedBy)])) net
  unfold UpdateTenantLockHeartbeat
  simp only
  rcases h : doRequest pk c "PUT" ("/api/v1/packer/locks/tenants/" ++ tenantID ++ "/heartbeat")
    (some (.map [("locked_by", .str lockedBy)])) net with ⟨r, net1⟩
  rw [h] at hiff
  cases r with
  | error e =>
    left
    refine ⟨?_, by simp⟩
    intro resp hr
    have := (hiff resp).2 hr
    cases this
  | ok resp =>
    right
    exact ⟨resp, (hiff resp).1 rfl, rfl⟩

/-- The outcome of `CleanupExpiredTenantLocks` in terms of the answer to its request. -/
theorem CleanupExpiredTenantLocks_outcome (pk : Packages) (c : Client) (net : List Request) :
    ((∀ resp, ¬ answered c net (CleanupExpiredTenantLocks pk c net).2 resp) ∧
      (CleanupExpiredTenantLocks pk c net).1.1 = 0 ∧ (CleanupExpiredTenantLocks pk c net).1.2 ≠ none) ∨
    (∃ resp, answered c net (CleanupExpiredTenantLocks pk c net).2 resp ∧
      (CleanupExpiredTenantLocks pk c net).1 =
        countResult (parseResponse pk.UnmarshalCountResponse resp (some CountResponse.zero))) := by
  have hiff := doRequest_ok_iff pk c "DELETE" "/api/v1/packer/locks/tenants/cleanup/expired"
    none net
  unfold CleanupExpiredTenantLocks
  rcases h : doRequest pk c "DELETE" "/api/v1/packer/locks/tenants/cleanup/expired"
    none net with ⟨r, net1⟩
  rw [h] at hiff
  cases r with
  | error e =>
    left
    refine ⟨?_, rfl, by simp⟩
    intro resp hr
    have := (hiff resp).2 hr
    cases this
  | ok resp =>
    right
    have hans : answered c net net1 resp := (hiff resp).1 rfl
    simp only
    refine ⟨resp, ?_, ?_⟩
    · split <;> exact hans
    · unfold countResult
      split <;> simp_all

/-- The outcome of `ClearAllTenantLocks` in terms of the answer to its request. -/
theorem ClearAllTenantLocks_outcome (pk : Packages) (c : Client) (net : List Request) :
    ((∀ resp, ¬ answered c net (ClearAllTenantLocks pk c net).2 resp) ∧
      (ClearAllTenantLocks pk c net).1.1 = 0 ∧ (ClearAllTenantLocks pk c net).1.2 ≠ none) ∨
    (∃ resp, answered c net (ClearAllTenantLocks pk c net).2 resp ∧
      (ClearAllTenantLocks pk c net).1 =
        countResult (parseResponse pk.UnmarshalCountResponse resp (some CountResponse.zero))) := by
  have hiff := doRequest_ok_iff pk c "DELETE" "/api/v1/packer/locks/tenants/cleanup/all"
    none net
  unfold ClearAllTenantLocks
  rcases h : doRequest pk c "DELETE" "/api/v1/packer/locks/tenants/cleanup/all"
    none net with ⟨r, net1⟩
  rw [h] at hiff
  cases r with
  | error e =>
    left
    refine ⟨?_, rfl, by simp⟩
    intro resp hr
    have := (hiff resp).2 hr
    cases this
  | ok resp =>
    right
    have hans : answered c net net1 resp := (hiff resp).1 rfl
    simp only
    refine ⟨resp, ?_, ?_⟩
    · split <;> exact hans
    · unfold countResult
      split <;> simp_all

/-- The outcome of `CleanupStaleTenantLocks` in terms of the answer to its request. -/
theorem CleanupStaleTenantLocks_outcome (pk : Packages) (c : Client) (staleThresholdSeconds : Int) (net : List Request) :
    ((∀ resp, ¬ answered c net (CleanupStaleTenantLocks pk c staleThresholdSeconds net).2 resp) ∧
      (CleanupStaleTenantLocks pk c staleThresholdSeconds net).1.1 = 0 ∧ (CleanupStaleTenantLocks pk c staleThresholdSeconds net).1.2 ≠ none) ∨
    (∃ resp, answered c net (CleanupStaleTenantLocks pk c staleThresholdSeconds net).2 resp ∧
      (CleanupStaleTenantLocks pk c staleThresholdSeconds net).1 =
        countResult (parseResponse pk.UnmarshalCountResponse resp (some CountResponse.zero))) := by
  have hiff := doRequest_ok_iff pk c "DELETE" ("/api/v1/packer/locks/tenants/cleanup/stale?stale_threshold_seconds="
      ++ fmtInt staleThresholdSeconds)
    none net
  unfold CleanupStaleTenantLocks
  simp only
  rcases h : doRequest pk c "DELETE" ("/api/v1/packer/locks/tenants/cleanup/stale?stale_threshold_seconds="
      ++ fmtInt staleThresholdSeconds)
    none net with ⟨r, net1⟩
  rw [h] at hiff
  cases r with
  | error e =>
    left
    refine ⟨?_, rfl, by simp⟩
    intro resp hr
    have := (hiff resp).2 hr
    cases this
  | ok resp =>
    right
    have hans : answered c net net1 resp := (hiff resp).1 rfl
    simp only
    refine ⟨resp, ?_, ?_⟩
    · split <;> exact hans
    · unfold countResult
      split <;> simp_all

/-- The outcome of `AcquireFileLock` in terms of the answer to its request. -/
theorem AcquireFileLock_outcome (pk : Packages) (c : Client) (tenantID datasetID fileKey lockedBy : String) (lockDurationSeconds : Int) (net : List Request) :
    ((∀ resp, ¬ answered c net (AcquireFileLock pk c tenantID datasetID fileKey lockedBy lockDurationSeconds net).2 resp) ∧
      (AcquireFileLock pk c tenantID datasetID fileKey lockedBy lockDurationSeconds net).1.1 = none ∧ (AcquireFileLock pk c tenantID datasetID fileKey lockedBy lockDurationSeconds net).1.2 ≠ none) ∨
    (∃ resp, answered c net (AcquireFileLock pk c tenantID datasetID fileKey lockedBy lockDurationSeconds net).2 resp ∧
      (AcquireFileLock pk c tenantID datasetID fileKey lockedBy lockDurationSeconds net).1 =
        lockResult (parseResponse pk.UnmarshalPiperFileLock resp (some PiperFileLock.zero))) := by
  have hiff := doRequest_ok_iff pk c "POST" "/api/v1/piper/locks/files"
    (some (.map [("tenant_id", .str tenantID), ("dataset_id", .str datasetID),
      ("file_key", .str fileKey), ("locked_by", .str lockedBy),
      ("lock_duration_seconds", .int lockDurationSeconds)])) net
  unfold AcquireFileLock
  simp only
  rcases h : doRequest pk c "POST" "/api/v1/piper/locks/files"
    (some (.map [("tenant_id", .str tenantID), ("dataset_id", .str datasetID),
      ("file_key", .str fileKey), ("locked_by", .str lockedBy),
      ("lock_duration_seconds", .int lockDurationSeconds)])) net with ⟨r, net1⟩
  rw [h] at hiff
  cases r with
  | error e =>
    left
    refine ⟨?_, rfl, by simp⟩
    intro resp hr
    have := (hiff resp).2 hr
    cases this
  | ok resp =>
    right
    have hans : answered c net net1 resp := (hiff resp).1 rfl
    simp only
    refine ⟨resp, ?_, ?_⟩
    · split <;> exact hans
    · unfold lockResult
      split <;> simp_all

/-- The outcome of `CleanupExpiredFileLocks` in terms of the answer to its request. -/
theorem CleanupExpiredFileLocks_outcome (pk : Packages) (c : Client) (net : List Request) :
    ((∀ resp, ¬ answered c net (CleanupExpiredFileLocks pk c net).2 resp) ∧
      (CleanupExpiredFileLocks pk c net).1.1 = 0 ∧ (CleanupExpiredFileLocks pk c net).1.2 ≠ none) ∨
    (∃ resp, answered c net (CleanupExpiredFileLocks pk c net).2 resp ∧
      (CleanupExpiredFileLocks pk c net).1 =
        countResult (parseResponse pk.UnmarshalCountResponse resp (some CountResponse.zero))) := by
  have hiff := doRequest_ok_iff pk c "DELETE" "/api/v1/piper/locks/files/cleanup/expired"
    none net
  unfold CleanupExpiredFileLocks
  rcases h : doRequest pk c "DELETE" "/api/v1/piper/locks/files/cleanup/expired"
    none net with ⟨r, net1⟩
  rw [h] at hiff
  cases r with
  | error e =>
    left
    refine ⟨?_, rfl, by simp⟩
    intro resp hr
    have := (hiff resp).2 hr
    cases this
  | ok resp =>
    right
    have hans : answered c net net1 resp := (hiff resp).1 rfl
    simp only
    refine ⟨resp, ?_, ?_⟩
    · split <;> exact hans
    · unfold countResult
      split <;> simp_all

/-- The outcome of `CleanupStaleFileLocks` in terms of the answer to its request. -/
theorem CleanupStaleFileLocks_outcome (pk : Packages) (c : Client) (staleThresholdSeconds : Int) (net : List Request) :
    ((∀ resp, ¬ answered c net (CleanupStaleFileLocks pk c staleThresholdSeconds net).2 resp) ∧
      (CleanupStaleFileLocks pk c staleThresholdSeconds net).1.1 = 0 ∧ (CleanupStaleFileLocks pk c staleThresholdSeconds net).1.2 ≠ none) ∨
    (∃ resp, answered c net (CleanupStaleFileLocks pk c staleThresholdSeconds net).2 resp ∧
      (CleanupStaleFileLocks pk c staleThresholdSeconds net).1 =
        countResult (parseResponse pk.UnmarshalCountResponse resp (some CountResponse.zero))) := by
  have hiff := doRequest_ok_iff pk c "DELETE" ("/api/v1/piper/locks/files/cleanup/stale?stale_threshold_seconds="
      ++ fmtInt staleThresholdSeconds)
    none net
  unfold CleanupStaleFileLocks
  simp only
  rcases h : doRequest pk c "DELETE" ("/api/v1/piper/locks/files/cleanup/stale?stale_threshold_seconds="
      ++ fmtInt staleThresholdSeconds)
    none net with ⟨r, net1⟩
  rw [h] at hiff
  cases r with
  | error e =>
    left
    refine ⟨?_, rfl, by simp⟩
    intro resp hr
    have := (hiff resp).2 hr
    cases this
  | ok resp =>
    right
    have hans : answered c net net1 resp := (hiff resp).1 rfl
    simp only
    refine ⟨resp, ?_, ?_⟩
    · split <;> exact hans
    · unfold countResult
      split <;> simp_all

/-- No call that leaves the network as it was has been answered. -/
theorem not_answered_unchanged (c : Client) (net : List Request) (resp : Response) :
    ¬ answered c net net resp := by
  rintro ⟨req, h, -⟩
  have := congrArg List.length h
  simp at this

/-- The network after `ReleaseFileLock`: untouched when the payload does not marshal,
otherwise the network after its `doRequest`, whose body is the marshalled bytes. -/
theorem ReleaseFileLock_log (pk : Packages) (c : Client)
    (tenantID datasetID fileKey lockedBy : String) (net : List Request) :
    (ReleaseFileLock pk c tenantID datasetID fileKey lockedBy net).2 = net ∨
    ∃ inner, pk.Marshal (.map [("tenant_id", .str tenantID), ("dataset_id", .str datasetID),
        ("file_key", .str fileKey), ("locked_by", .str lockedBy)]) = .ok inner ∧
      (ReleaseFileLock pk c tenantID datasetID fileKey lockedBy net).2 =
        (doRequest pk c "DELETE" "/api/v1/piper/locks/files" (some (.bytes inner)) net).2 := by
  unfold ReleaseFileLock
  simp only
  cases hm : pk.Marshal (.map [("tenant_id", .str tenantID), ("dataset_id", .str datasetID),
      ("file_key", .str fileKey), ("locked_by", .str lockedBy)]) with
  | error e => left; rfl
  | ok inner =>
    right
    refine ⟨inner, rfl, ?_⟩
    simp only
    generalize doRequest pk c "DELETE" "/api/v1/piper/locks/files" (some (.bytes inner)) net = r
    obtain ⟨r1, net1⟩ := r
    cases r1 <;> rfl

/-- The outcome of `ReleaseFileLock` in terms of the answer to its request. -/
theorem ReleaseFileLock_outcome (pk : Packages) (c : Client)
    (tenantID datasetID fileKey lockedBy : String) (net : List Request) :
    ((∀ resp, ¬ answered c net
        (ReleaseFileLock pk c tenantID datasetID fileKey lockedBy net).2 resp) ∧
      (ReleaseFileLock pk c tenantID datasetID fileKey lockedBy net).1 ≠ none) ∨
    (∃ resp, answered c net (ReleaseFileLock pk c tenantID datasetID fileKey lockedBy net).2 resp ∧
      (ReleaseFileLock pk c tenantID datasetID fileKey lockedBy net).1 =
        (parseResponse noTarget resp none).2) := by
  unfold ReleaseFileLock
  simp only
  cases hm : pk.Marshal (.map [("tenant_id", .str tenantID), ("dataset_id", .str datasetID),
      ("file_key", .str fileKey), ("locked_by", .str lockedBy)]) with
  | error e =>
    left
    exact ⟨fun resp => not_answered_unchanged c net resp, by simp⟩
  | ok inner =>
    have hiff := doRequest_ok_iff pk c "DELETE" "/api/v1/piper/locks/files"
      (some (.bytes inner)) net
    simp only
    rcases h : doRequest pk c "DELETE" "/api/v1/piper/locks/files" (some (.bytes inner)) net
      with ⟨r, net1⟩
    rw [h] at hiff
    cases r with
    | error e =>
      left
      refine ⟨?_, by simp⟩
      intro resp hr
      have := (hiff resp).2 hr
      cases this
    | ok resp =>
      right
      exact ⟨resp, (hiff resp).1 rfl, rfl⟩

/-- Without a target, `parseResponse` returns nil exactly when the body could be read and
the status is below 400. -/
theorem parseResponse_nil_target {α : Type} (um : String → α → Except String α)
    (resp : Response) :
    (parseResponse um resp none).2 = none ↔
      ∃ body, resp.Body = .ok body ∧ resp.StatusCode < 400 := by
  unfold parseResponse
  cases hb : resp.Body with
  | error e => simp
  | ok body =>
    simp only
    by_cases hs : resp.StatusCode ≥ 400
    · rw [if_pos hs]
      simp
      omega
    · rw [if_neg hs]
      simp
      omega

/-- The two facts about a release or heartbeat method that follow from its outcome. -/
theorem release_facts (c : Client) (net : List Request) (out : Option String × List Request)
    (h : ((∀ resp, ¬ answered c net out.2 resp) ∧ out.1 ≠ none) ∨
      (∃ resp, answered c net out.2 resp ∧ out.1 = (parseResponse noTarget resp none).2)) :
    (∀ resp, answered c net out.2 resp → resp.StatusCode ≥ 400 → out.1 ≠ none) ∧
    (out.1 = none ↔
      ∃ resp body, answered c net out.2 resp ∧ resp.StatusCode < 400 ∧ resp.Body = .ok body) := by
  rcases h with ⟨hno, herr⟩ | ⟨resp, hans, hout⟩
  · refine ⟨fun resp hr => absurd hr (hno resp), ⟨fun h => absurd h herr, ?_⟩⟩
    rintro ⟨resp, body, hr, -⟩
    exact absurd hr (hno resp)
  · refine ⟨?_, ?_, ?_⟩
    · intro r2 hr2 h400
      have := answered_unique c net out.2 r2 resp hr2 hans
      subst this
      rw [hout]
      exact parseResponse_rejected noTarget r2 none h400
    · intro h
      rw [hout] at h
      obtain ⟨body, hb, hs⟩ := (parseResponse_nil_target noTarget resp).1 h
      exact ⟨resp, body, hans, hs, hb⟩
    · rintro ⟨r2, body, hr2, hs, hb⟩
      have := answered_unique c net out.2 r2 resp hr2 hans
      subst this
      rw [hout]
      exact (parseResponse_nil_target noTarget r2).2 ⟨body, hb, hs⟩

/-- C1 (witness): an answer `404` gives (nil, nil); an answer `200` with the text of a file
lock gives that lock; an answer `503` gives a nil lock and a non-nil error, and so does a
service that cannot be reached. -/
theorem check_absent_iff_status_404_witness :
    (CheckTenantLock refPackages (clientOf 404 "") "t1" []).1 = (none, none) ∧
    (CheckFileLock refPackages (clientOf 200 sampleFileLockJSON) "t1" "d1" "f1" []).1 =
      (some sampleFileLock, none) ∧
    ((CheckTenantLock refPackages (clientOf 503 "store unavailable") "t1" []).1.1 = none ∧
      (CheckTenantLock refPackages (clientOf 503 "store unavailable") "t1" []).1.2 ≠ none) ∧
    ((CheckTenantLock refPackages unreachableClient "t1" []).1.1 = none ∧
      (CheckTenantLock refPackages unreachableClient "t1" []).1.2 ≠ none) :=
  ⟨(check_absent_iff_status_404 refPackages (clientOf 404 "") "t1" "d1" "f1" []).1.1.2
      ⟨⟨404, .ok ""⟩, ⟨_, rfl, rfl⟩, rfl⟩,
   (check_absent_iff_status_404 refPackages (clientOf 200 sampleFileLockJSON)
      "t1" "d1" "f1" []).2.2.2.2 ⟨200, .ok sampleFileLockJSON⟩ sampleFileLockJSON sampleFileLock
      ⟨_, rfl, rfl⟩ (by decide) rfl rfl,
   (check_absent_iff_status_404 refPackages (clientOf 503 "store unavailable")
      "t1" "d1" "f1" []).1.2.2.1 ⟨503, .ok "store unavailable"⟩ ⟨_, rfl, rfl⟩
      (by decide) (by decide),
   (check_absent_iff_status_404 refPackages unreachableClient "t1" "d1" "f1" []).1.2.1
      (fun _ h => h.elim fun _ hreq => nomatch hreq.2)⟩

/-! ## C2: the body sent by `ReleaseFileLock` -/

/-- Whatever the marshaller is, the body `ReleaseFileLock` sends is the marshalling of a
`[]byte` (itself the marshalled payload), whereas `AcquireFileLock` sends the marshalling
of its payload map. -/
theorem ReleaseFileLock_marshals_twice (pk : Packages) (c : Client)
    (tenantID datasetID fileKey lockedBy inner outer : String) (net : List Request)
    (hin : pk.Marshal (.map [("tenant_id", .str tenantID), ("dataset_id", .str datasetID),
      ("file_key", .str fileKey), ("locked_by", .str lockedBy)]) = .ok inner)
    (hout : pk.Marshal (.bytes inner) = .ok outer)
    (hurl : pk.ParseURL (c.baseURL ++ "/api/v1/piper/locks/files") = none) :
    ∃ req, (ReleaseFileLock pk c tenantID datasetID fileKey lockedBy net).2 = net ++ [req] ∧
      req.method = "DELETE" ∧ req.url = c.baseURL ++ "/api/v1/piper/locks/files" ∧
      req.body = some outer := by
  obtain ⟨req, hlog, hm, hu, hb⟩ := doRequest_sent pk c "DELETE" "/api/v1/piper/locks/files"
    (some (.bytes inner)) net (some outer) (by simp [hout]) hurl
  refine ⟨req, ?_, hm, hu, hb⟩
  unfold ReleaseFileLock
  simp only [hin]
  rw [← hlog]
  split <;> next h => rw [h]

/-- C2 (divergence): for tenant `t1`, dataset `d1`, file `f1` and holder `w1`, with the
reference JSON marshaller, the body `ReleaseFileLock` sends is a JSON string literal holding
the base64 text of the payload object, not the payload object itself. -/
theorem ReleaseFileLock_body_is_base64_string :
    ((ReleaseFileLock refPackages (clientOf 200 "") "t1" "d1" "f1" "w1" []).2.map
        fun req => req.body) =
      [some ("\"eyJ0ZW5hbnRfaWQiOiJ0MSIsImRhdGFzZXRfaWQiOiJkMSIsImZpbGVfa2V5IjoiZjEiLCJs" ++
        "b2NrZWRfYnkiOiJ3MSJ9\"")] ∧
    jsonMarshal (.map [("tenant_id", .str "t1"), ("dataset_id", .str "d1"),
        ("file_key", .str "f1"), ("locked_by", .str "w1")]) =
      "\x7b\"tenant_id\":\"t1\",\"dataset_id\":\"d1\",\"file_key\":\"f1\",\"locked_by\":\"w1\"\x7d" ∧
    ((ReleaseFileLock refPackages (clientOf 200 "") "t1" "d1" "f1" "w1" []).2.map
        fun req => req.body) ≠
      [some (jsonMarshal (.map [("tenant_id", .str "t1"), ("dataset_id", .str "d1"),
        ("file_key", .str "f1"), ("locked_by", .str "w1")]))] := by
  refine ⟨by rfl, by rfl, by decide⟩

/-! ## C3: release and heartbeat fail on every rejection -/

/-- C3: for `ReleaseTenantLock`, `UpdateTenantLockHeartbeat` and `ReleaseFileLock`, an answer
with status 400 or more always gives a non-nil error, and the method returns nil exactly when
its request was answered with a status below 400 and the answer was received in full (its
body could be read), whatever that body is. -/
theorem release_and_heartbeat_fail_on_rejection (pk : Packages) (c : Client)
    (tenantID datasetID fileKey lockedBy : String) (net : List Request) :
    ((∀ resp, answered c net (ReleaseTenantLock pk c tenantID lockedBy net).2 resp →
        resp.StatusCode ≥ 400 → (ReleaseTenantLock pk c tenantID lockedBy net).1 ≠ none) ∧
      ((ReleaseTenantLock pk c tenantID lockedBy net).1 = none ↔
        ∃ resp body, answered c net (ReleaseTenantLock pk c tenantID lockedBy net).2 resp ∧
          resp.StatusCode < 400 ∧ resp.Body = .ok body)) ∧
    ((∀ resp, answered c net (UpdateTenantLockHeartbeat pk c tenantID lockedBy net).2 resp →
        resp.StatusCode ≥ 400 → (UpdateTenantLockHeartbeat pk c tenantID lockedBy net).1 ≠ none) ∧
      ((UpdateTenantLockHeartbeat pk c tenantID lockedBy net).1 = none ↔
        ∃ resp body, answered c net (UpdateTenantLockHeartbeat pk c tenantID lockedBy net).2 resp ∧
          resp.StatusCode < 400 ∧ resp.Body = .ok body)) ∧
    ((∀ resp, answered c net
          (ReleaseFileLock pk c tenantID datasetID fileKey lockedBy net).2 resp →
        resp.StatusCode ≥ 400 →
        (ReleaseFileLock pk c tenantID datasetID fileKey lockedBy net).1 ≠ none) ∧
      ((ReleaseFileLock pk c tenantID datasetID fileKey lockedBy net).1 = none ↔
        ∃ resp body, answered c net
            (ReleaseFileLock pk c tenantID datasetID fileKey lockedBy net).2 resp ∧
          resp.StatusCode < 400 ∧ resp.Body = .ok body)) :=
  ⟨release_facts c net _ (ReleaseTenantLock_outcome pk c tenantID lockedBy net),
   release_facts c net _ (UpdateTenantLockHeartbeat_outcome pk c tenantID lockedBy net),
   release_facts c net _ (ReleaseFileLock_outcome pk c tenantID datasetID fileKey lockedBy net)⟩

/-- C3 (witness): a release answered `403 not owner` returns a non-nil error, and a
heartbeat answered `200` returns nil. -/
theorem release_and_heartbeat_fail_on_rejection_witness :
    (ReleaseTenantLock refPackages (clientOf 403 "not owner") "t1" "w2" []).1 ≠ none ∧
    (UpdateTenantLockHeartbeat refPackages (clientOf 200 "ok") "t1" "w1" []).1 = none :=
  ⟨(release_and_heartbeat_fail_on_rejection refPackages (clientOf 403 "not owner")
      "t1" "d1" "f1" "w2" []).1.1 ⟨403, .ok "not owner"⟩ ⟨_, rfl, rfl⟩ (by decide),
   (release_and_heartbeat_fail_on_rejection refPackages (clientOf 200 "ok")
      "t1" "d1" "f1" "w1" []).2.1.2.2 ⟨⟨200, .ok "ok"⟩, "ok", ⟨_, rfl, rfl⟩, by decide, rfl⟩⟩

/-! ## C4: acquire is a single attempt -/

/-- The facts about an acquire method that follow from its outcome: rejected answers give a
nil lock with an error, accepted answers with a decodable body give the decoded lock. -/
theorem acquire_facts {L : Type} (um : String → L → Except String L) (zero : L) (c : Client)
    (net : List Request) (out : (Option L × Option String) × List Request)
    (h : ((∀ resp, ¬ answered c net out.2 resp) ∧ out.1.1 = none ∧ out.1.2 ≠ none) ∨
      (∃ resp, answered c net out.2 resp ∧
        out.1 = lockResult (parseResponse um resp (some zero)))) :
    (∀ resp, answered c net out.2 resp → resp.StatusCode ≥ 400 →
      out.1.1 = none ∧ out.1.2 ≠ none) ∧
    (∀ resp body lock, answered c net out.2 resp → resp.StatusCode < 400 →
      resp.Body = .ok body → um body zero = .ok lock → out.1 = (some lock, none)) := by
  rcases h with ⟨hno, -, -⟩ | ⟨resp, hans, hout⟩
  · exact ⟨fun resp hr => absurd hr (hno resp), fun resp _ _ hr => absurd hr (hno resp)⟩
  · refine ⟨?_, ?_⟩
    · intro r2 hr2 h400
      have := answered_unique c net out.2 r2 resp hr2 hans
      subst this
      obtain ⟨e, he⟩ := Option.ne_none_iff_exists'.1
        (parseResponse_rejected um r2 (some zero) h400)
      rw [hout, lockResult_error _ e he]
      exact ⟨rfl, by simp⟩
    · intro r2 body lock hr2 hlt hb hu
      have := answered_unique c net out.2 r2 resp hr2 hans
      subst this
      rw [hout]
      rcases parseResponse_some um r2 zero with ⟨e, he⟩ | ⟨body2, filled, hb2, -, hu2, hp⟩
      · exfalso
        unfold parseResponse at he
        rw [hb] at he
        simp only at he
        rw [if_neg (by omega)] at he
        rw [hu] at he
        simp at he
      · rw [hb] at hb2; cases hb2
        rw [hu] at hu2; cases hu2
        rw [hp, lockResult_ok]

/-- A method that returns a lock and sent nothing returns a nil lock and an error. -/
theorem unsent_fails {L : Type} (c : Client) (net : List Request)
    (out : (Option L × Option String) × List Request)
    (h : ((∀ resp, ¬ answered c net out.2 resp) ∧ out.1.1 = none ∧ out.1.2 ≠ none) ∨
      (∃ resp, answered c net out.2 resp ∧ True))
    (hnet : out.2 = net) : out.1.1 = none ∧ out.1.2 ≠ none := by
  rcases h with ⟨-, h1, h2⟩ | ⟨resp, hans, -⟩
  · exact ⟨h1, h2⟩
  · rw [hnet] at hans
    exact absurd hans (not_answered_unchanged c net resp)

/-- C4 (counterexample): with a base URL the URL parser rejects, `AcquireTenantLock` returns
a nil lock and an error without issuing any request, so it does not issue exactly one. -/
theorem AcquireTenantLock_unbuilt_sends_nothing :
    (AcquireTenantLock refPackages untrimmedClient "t1" "w1" 60 []).2 = [] ∧
    (AcquireTenantLock refPackages untrimmedClient "t1" "w1" 60 []).1.1 = none ∧
    (AcquireTenantLock refPackages untrimmedClient "t1" "w1" 60 []).1.2 ≠ none ∧
    ¬ ∃ req, (AcquireTenantLock refPackages untrimmedClient "t1" "w1" 60 []).2 = [] ++ [req] := by
  have h : (AcquireTenantLock refPackages untrimmedClient "t1" "w1" 60 []).2 = [] := by rfl
  refine ⟨h, by rfl, by decide, ?_⟩
  rw [h]
  simp

/-- C4 (amended): `AcquireTenantLock` and `AcquireFileLock` make a single attempt and never
retry. Each call either issues no request (the request could not be built) and returns a nil
lock with a non-nil error, or issues exactly one POST request to its endpoint; it issues
exactly one whenever the payload marshals and the URL parses. An answer with status 400 or
more gives a nil lock and a non-nil error; an answer with a status below 400 and a decodable
body gives the decoded lock and a nil error. -/
theorem acquire_single_attempt (pk : Packages) (c : Client)
    (tenantID datasetID fileKey lockedBy : String) (lockDurationSeconds : Int)
    (net : List Request) :
    ((((AcquireTenantLock pk c tenantID lockedBy lockDurationSeconds net).2 = net ∧
          (AcquireTenantLock pk c tenantID lockedBy lockDurationSeconds net).1.1 = none ∧
          (AcquireTenantLock pk c tenantID lockedBy lockDurationSeconds net).1.2 ≠ none) ∨
        (∃ req, (AcquireTenantLock pk c tenantID lockedBy lockDurationSeconds net).2
            = net ++ [req] ∧
          req.method = "POST" ∧ req.url = c.baseURL ++ "/api/v1/packer/locks/tenants")) ∧
      ((∃ j, pk.Marshal (.map [("tenant_id", .str tenantID), ("locked_by", .str lockedBy),
            ("lock_duration_seconds", .int lockDurationSeconds)]) = .ok j) →
        pk.ParseURL (c.baseURL ++ "/api/v1/packer/locks/tenants") = none →
        ∃ req, (AcquireTenantLock pk c tenantID lockedBy lockDurationSeconds net).2
          = net ++ [req]) ∧
      (∀ resp, answered c net
          (AcquireTenantLock pk c tenantID lockedBy lockDurationSeconds net).2 resp →
        resp.StatusCode ≥ 400 →
        (AcquireTenantLock pk c tenantID lockedBy lockDurationSeconds net).1.1 = none ∧
        (AcquireTenantLock pk c tenantID lockedBy lockDurationSeconds net).1.2 ≠ none) ∧
      (∀ resp body lock, answered c net
          (AcquireTenantLock pk c tenantID lockedBy lockDurationSeconds net).2 resp →
        resp.StatusCode < 400 → resp.Body = .ok body →
        pk.UnmarshalPackerTenantLock body PackerTenantLock.zero = .ok lock →
        (AcquireTenantLock pk c tenantID lockedBy lockDurationSeconds net).1
          = (some lock, none))) ∧
    ((((AcquireFileLock pk c tenantID datasetID fileKey lockedBy lockDurationSeconds net).2
            = net ∧
          (AcquireFileLock pk c tenantID datasetID fileKey lockedBy lockDurationSeconds net).1.1
            = none ∧
          (AcquireFileLock pk c tenantID datasetID fileKey lockedBy lockDurationSeconds net).1.2
            ≠ none) ∨
        (∃ req, (AcquireFileLock pk c tenantID datasetID fileKey lockedBy lockDurationSeconds
            net).2 = net ++ [req] ∧
          req.method = "POST" ∧ req.url = c.baseURL ++ "/api/v1/piper/locks/files")) ∧
      ((∃ j, pk.Marshal (.map [("tenant_id", .str tenantID), ("dataset_id", .str datasetID),
            ("file_key", .str fileKey), ("locked_by", .str lockedBy),
            ("lock_duration_seconds", .int lockDurationSeconds)]) = .ok j) →
        pk.ParseURL (c.baseURL ++ "/api/v1/piper/locks/files") = none →
        ∃ req, (AcquireFileLock pk c tenantID datasetID fileKey lockedBy lockDurationSeconds
          net).2 = net ++ [req]) ∧
      (∀ resp, answered c net
          (AcquireFileLock pk c tenantID datasetID fileKey lockedBy lockDurationSeconds net).2
          resp →
        resp.StatusCode ≥ 400 →
        (AcquireFileLock pk c tenantID datasetID fileKey lockedBy lockDurationSeconds net).1.1
          = none ∧
        (AcquireFileLock pk c tenantID datasetID fileKey lockedBy lockDurationSeconds net).1.2
          ≠ none) ∧
      (∀ resp body lock, answered c net
          (AcquireFileLock pk c tenantID datasetID fileKey lockedBy lockDurationSeconds net).2
          resp →
        resp.StatusCode < 400 → resp.Body = .ok body →
        pk.UnmarshalPiperFileLock body PiperFileLock.zero = .ok lock →
        (AcquireFileLock pk c tenantID datasetID fileKey lockedBy lockDurationSeconds net).1
          = (some lock, none))) := by
  have hT := AcquireTenantLock_outcome pk c tenantID lockedBy lockDurationSeconds net
  have hF := AcquireFileLock_outcome pk c tenantID datasetID fileKey lockedBy
    lockDurationSeconds net
  have hTl := AcquireTenantLock_log pk c tenantID lockedBy lockDurationSeconds net
  have hFl := AcquireFileLock_log pk c tenantID datasetID fileKey lockedBy
    lockDurationSeconds net
  refine ⟨⟨?_, ?_, acquire_facts _ _ c net _ hT⟩, ⟨?_, ?_, acquire_facts _ _ c net _ hF⟩⟩
  · rcases doRequest_log pk c "POST" "/api/v1/packer/locks/tenants"
      (some (.map [("tenant_id", .str tenantID), ("locked_by", .str lockedBy),
        ("lock_duration_seconds", .int lockDurationSeconds)])) net
      with ⟨e, he⟩ | ⟨req, h1, h2, h3, -⟩
    · left
      rw [he] at hTl
      refine ⟨hTl, unsent_fails c net _ ?_ hTl⟩
      rcases hT with h | ⟨resp, hans, -⟩
      · exact Or.inl h
      · exact Or.inr ⟨resp, hans, trivial⟩
    · right
      exact ⟨req, hTl.trans h1, h2, h3⟩
  · rintro ⟨j, hj⟩ hurl
    obtain ⟨req, h1, -⟩ := doRequest_sent pk c "POST" "/api/v1/packer/locks/tenants"
      (some (.map [("tenant_id", .str tenantID), ("locked_by", .str lockedBy),
        ("lock_duration_seconds", .int lockDurationSeconds)])) net (some j)
      ⟨fun b hb => (by cases hb; exact ⟨j, hj, rfl⟩), fun hb => (by cases hb)⟩ hurl
    exact ⟨req, hTl.trans h1⟩
  · rcases doRequest_log pk c "POST" "/api/v1/piper/locks/files"
      (some (.map [("tenant_id", .str tenantID), ("dataset_id", .str datasetID),
        ("file_key", .str fileKey), ("locked_by", .str lockedBy),
        ("lock_duration_seconds", .int lockDurationSeconds)])) net
      with ⟨e, he⟩ | ⟨req, h1, h2, h3, -⟩
    · left
      rw [he] at hFl
      refine ⟨hFl, unsent_fails c net _ ?_ hFl⟩
      rcases hF with h | ⟨resp, hans, -⟩
      · exact Or.inl h
      · exact Or.inr ⟨resp, hans, trivial⟩
    · right
      exact ⟨req, hFl.trans h1, h2, h3⟩
  · rintro ⟨j, hj⟩ hurl
    obtain ⟨req, h1, -⟩ := doRequest_sent pk c "POST" "/api/v1/piper/locks/files"
      (some (.map [("tenant_id", .str tenantID), ("dataset_id", .str datasetID),
        ("file_key", .str fileKey), ("locked_by", .str lockedBy),
        ("lock_duration_seconds", .int lockDurationSeconds)])) net (some j)
      ⟨fun b hb => (by cases hb; exact ⟨j, hj, rfl⟩), fun hb => (by cases hb)⟩ hurl
    exact ⟨req, hFl.trans h1⟩

/-- C4 (witness): an acquire answered `409 already locked` returns a nil lock and a
non-nil error; an acquire answered `200` with the text of a lock returns that lock; and with
the reference packages and a well-formed base URL exactly one request is issued. -/
theorem acquire_single_attempt_witness :
    ((AcquireTenantLock refPackages (clientOf 409 "already locked") "t1" "w2" 60 []).1.1 = none ∧
      (AcquireTenantLock refPackages (clientOf 409 "already locked") "t1" "w2" 60 []).1.2
        ≠ none) ∧
    (AcquireTenantLock refPackages (clientOf 200 sampleTenantLockJSON) "t1" "w1" 60 []).1 =
      (some sampleTenantLock, none) ∧
    (∃ req, (AcquireFileLock refPackages (clientOf 200 sampleFileLockJSON)
      "t1" "d1" "f1" "p1" 30 []).2 = [] ++ [req]) :=
  ⟨(acquire_single_attempt refPackages (clientOf 409 "already locked")
      "t1" "d1" "f1" "w2" 60 []).1.2.2.1 ⟨409, .ok "already locked"⟩ ⟨_, rfl, rfl⟩ (by decide),
   (acquire_single_attempt refPackages (clientOf 200 sampleTenantLockJSON)
      "t1" "d1" "f1" "w1" 60 []).1.2.2.2 ⟨200, .ok sampleTenantLockJSON⟩ sampleTenantLockJSON
      sampleTenantLock ⟨_, rfl, rfl⟩ (by decide) rfl rfl,
   (acquire_single_attempt refPackages (clientOf 200 sampleFileLockJSON)
      "t1" "d1" "f1" "p1" 30 []).2.2.1 ⟨_, rfl⟩ rfl⟩

/-! ## C5: check applies no expiry test -/

/-- C5 (counterexample): the service answers 200 with the record of a lock whose TTL is the
instant 160; `CheckTenantLock` returns that record, also to a call made at instant 161 or
later, so the TTL of a returned record can be before the time of the call. -/
theorem CheckTenantLock_returns_expired_record :
    (CheckTenantLock refPackages (clientOf 200 sampleTenantLockJSON) "t1" []).1 =
      (some sampleTenantLock, none) ∧
    sampleTenantLock.TTL = 160 ∧
    ¬ ∀ now : Time, ∀ lock,
      (CheckTenantLock refPackages (clientOf 200 sampleTenantLockJSON) "t1" []).1.1 = some lock →
      now ≤ lock.TTL := by
  have h : (CheckTenantLock refPackages (clientOf 200 sampleTenantLockJSON) "t1" []).1 =
      (some sampleTenantLock, none) := by rfl
  refine ⟨h, rfl, ?_⟩
  intro hall
  have := hall 161 sampleTenantLock (by rw [h])
  revert this
  decide

/-- The non-nil locks a check method returns, from its outcome: exactly the records decoded
from an answer with a status below 400. -/
theorem check_returns_decoded {L : Type} (um : String → L → Except String L) (zero : L)
    (c : Client) (net : List Request) (out : (Option L × Option String) × List Request)
    (h : ((∀ resp, ¬ answered c net out.2 resp) ∧ out.1.1 = none ∧ out.1.2 ≠ none) ∨
      (∃ resp, answered c net out.2 resp ∧
        out.1 = if resp.StatusCode = 404 then (none, none)
          else lockResult (parseResponse um resp (some zero))))
    (lock : L) :
    out.1.1 = some lock ↔
      ∃ resp body, answered c net out.2 resp ∧ resp.StatusCode < 400 ∧
        resp.Body = .ok body ∧ um body zero = .ok lock := by
  constructor
  · intro hl
    rcases h with ⟨-, h1, -⟩ | ⟨resp, hans, hout⟩
    · rw [h1] at hl; cases hl
    · by_cases h404 : resp.StatusCode = 404
      · rw [hout, if_pos h404] at hl; cases hl
      · rw [hout, if_neg h404] at hl
        rcases parseResponse_some um resp zero with ⟨e, he⟩ | ⟨body, filled, hb, hs, hu, hp⟩
        · rw [lockResult_error _ e he] at hl; cases hl
        · rw [hp, lockResult_ok] at hl
          cases hl
          exact ⟨resp, body, hans, hs, hb, hu⟩
  · rintro ⟨resp, body, hans, hs, hb, hu⟩
    rw [((check_facts um zero c net out h).2.2.2) resp body lock hans hs hb hu]

/-- C5 (amended): `CheckTenantLock` and `CheckFileLock` return a lock record exactly when
their request was answered with a status below 400 and a body that decodes to that record,
and they return absent (nil lock, nil error) exactly when it was answered with status 404.
The record comes back as the service sent it: no field of it, the TTL included, is compared
with the time of the call. -/
theorem check_returns_record_as_sent (pk : Packages) (c : Client)
    (tenantID datasetID fileKey : String) (net : List Request) :
    ((∀ lock, (CheckTenantLock pk c tenantID net).1.1 = some lock ↔
        ∃ resp body, answered c net (CheckTenantLock pk c tenantID net).2 resp ∧
          resp.StatusCode < 400 ∧ resp.Body = .ok body ∧
          pk.UnmarshalPackerTenantLock body PackerTenantLock.zero = .ok lock) ∧
      ((CheckTenantLock pk c tenantID net).1 = (none, none) ↔
        ∃ resp, answered c net (CheckTenantLock pk c tenantID net).2 resp ∧
          resp.StatusCode = 404)) ∧
    ((∀ lock, (CheckFileLock pk c tenantID datasetID fileKey net).1.1 = some lock ↔
        ∃ resp body, answered c net (CheckFileLock pk c tenantID datasetID fileKey net).2 resp ∧
          resp.StatusCode < 400 ∧ resp.Body = .ok body ∧
          pk.UnmarshalPiperFileLock body PiperFileLock.zero = .ok lock) ∧
      ((CheckFileLock pk c tenantID datasetID fileKey net).1 = (none, none) ↔
        ∃ resp, answered c net (CheckFileLock pk c tenantID datasetID fileKey net).2 resp ∧
          resp.StatusCode = 404)) :=
  ⟨⟨check_returns_decoded _ _ c net _ (CheckTenantLock_outcome pk c tenantID net),
    (check_facts _ _ c net _ (CheckTenantLock_outcome pk c tenantID net)).1⟩,
   ⟨check_returns_decoded _ _ c net _
      (CheckFileLock_outcome pk c tenantID datasetID fileKey net),
    (check_facts _ _ c net _ (CheckFileLock_outcome pk c tenantID datasetID fileKey net)).1⟩⟩

/-- C5 (witness): the record returned for the answer `200` with the text of the sample
tenant lock is that lock. -/
theorem check_returns_record_as_sent_witness :
    (CheckTenantLock refPackages (clientOf 200 sampleTenantLockJSON) "t1" []).1.1 =
      some sampleTenantLock :=
  ((check_returns_record_as_sent refPackages (clientOf 200 sampleTenantLockJSON)
      "t1" "d1" "f1" []).1.1 sampleTenantLock).2
    ⟨⟨200, .ok sampleTenantLockJSON⟩, sampleTenantLockJSON, ⟨_, rfl, rfl⟩, by decide, rfl, rfl⟩

/-! ## C6: the cleanup methods return the count removed -/

/-- A cleanup method meets `CleanupContract`, from its outcome. -/
theorem cleanup_facts (pk : Packages) (c : Client) (net : List Request)
    (out : (Int × Option String) × List Request)
    (h : ((∀ resp, ¬ answered c net out.2 resp) ∧ out.1.1 = 0 ∧ out.1.2 ≠ none) ∨
      (∃ resp, answered c net out.2 resp ∧
        out.1 = countResult
          (parseResponse pk.UnmarshalCountResponse resp (some CountResponse.zero)))) :
    CleanupContract pk c net out := by
  rcases h with ⟨hno, h0, herr⟩ | ⟨resp, hans, hout⟩
  · exact ⟨fun resp _ _ hr => absurd hr (hno resp), fun hn => absurd hn herr, fun _ => h0⟩
  · rcases parseResponse_some pk.UnmarshalCountResponse resp CountResponse.zero
      with ⟨e, he⟩ | ⟨body, filled, hb, hs, hu, hp⟩
    · have hc : out.1 = (0, some e) := by
        rw [hout]
        generalize parseResponse pk.UnmarshalCountResponse resp (some CountResponse.zero) = p
          at he
        obtain ⟨t, err⟩ := p
        cases he
        rfl
      refine ⟨?_, ?_, ?_⟩
      · intro r2 body r hr2 hs hb hu
        have := answered_unique c net out.2 r2 resp hr2 hans
        subst this
        exfalso
        unfold parseResponse at he
        rw [hb] at he
        simp only at he
        rw [if_neg (by omega)] at he
        rw [hu] at he
        simp at he
      · intro hn; rw [hc] at hn; cases hn
      · intro _; rw [hc]
    · have hc : out.1 = (filled.Count, none) := by rw [hout, hp]; rfl
      refine ⟨?_, ?_, ?_⟩
      · intro r2 body2 r hr2 _ hb2 hu2
        have := answered_unique c net out.2 r2 resp hr2 hans
        subst this
        rw [hb] at hb2; cases hb2
        rw [hu] at hu2; cases hu2
        exact hc
      · intro _; exact ⟨resp, body, filled, hans, hs, hb, hu⟩
      · intro hn; rw [hc] at hn; exact absurd rfl hn

/-- C6: each of the five cleanup methods returns the count removed. On an answer with a
status below 400 whose body decodes, it returns the count of the decoded `CountResponse` with
a nil error; the decoder fills the zero value, so a count the body does not set is 0. It
returns a nil error in no other case (no answer, a status of 400 or more, a body that cannot
be read or decoded all give a non-nil error), and every non-nil error comes with count 0. -/
theorem cleanup_returns_count (pk : Packages) (c : Client) (staleThresholdSeconds : Int)
    (net : List Request) :
    CleanupContract pk c net (CleanupExpiredTenantLocks pk c net) ∧
    CleanupContract pk c net (CleanupStaleTenantLocks pk c staleThresholdSeconds net) ∧
    CleanupContract pk c net (ClearAllTenantLocks pk c net) ∧
    CleanupContract pk c net (CleanupExpiredFileLocks pk c net) ∧
    CleanupContract pk c net (CleanupStaleFileLocks pk c staleThresholdSeconds net) :=
  ⟨cleanup_facts pk c net _ (CleanupExpiredTenantLocks_outcome pk c net),
   cleanup_facts pk c net _ (CleanupStaleTenantLocks_outcome pk c staleThresholdSeconds net),
   cleanup_facts pk c net _ (ClearAllTenantLocks_outcome pk c net),
   cleanup_facts pk c net _ (CleanupExpiredFileLocks_outcome pk c net),
   cleanup_facts pk c net _ (CleanupStaleFileLocks_outcome pk c staleThresholdSeconds net)⟩

/-- C6 (witness): a cleanup answered `200` with count 3 returns 3 and a nil error; one
answered `200` with the empty object returns 0 and a nil error; one answered `500` returns
count 0. -/
theorem cleanup_returns_count_witness :
    (CleanupExpiredTenantLocks refPackages (clientOf 200 "\x7b\"count\":3\x7d") []).1
      = (3, none) ∧
    (CleanupStaleFileLocks refPackages (clientOf 200 "\x7b\x7d") 15 []).1 = (0, none) ∧
    (ClearAllTenantLocks refPackages (clientOf 500 "store unavailable") []).1.1 = 0 :=
  ⟨(cleanup_returns_count refPackages (clientOf 200 "\x7b\"count\":3\x7d") 15 []).1.1
      ⟨200, .ok "\x7b\"count\":3\x7d"⟩ "\x7b\"count\":3\x7d" ⟨3⟩ ⟨_, rfl, rfl⟩ (by decide) rfl rfl,
   (cleanup_returns_count refPackages (clientOf 200 "\x7b\x7d") 15 []).2.2.2.2.1
      ⟨200, .ok "\x7b\x7d"⟩ "\x7b\x7d" ⟨0⟩ ⟨_, rfl, rfl⟩ (by decide) rfl rfl,
   (cleanup_returns_count refPackages (clientOf 500 "store unavailable") 15 []).2.2.1.2.2
      (by decide)⟩

/-! ## C7: rejected responses stay distinguishable -/

/-- A digit character below ten denotes its digit and is not a closing parenthesis. -/
theorem digitValue_digitChar (k : Nat) (hk : k < 10) :
    digitValue (Nat.digitChar k) = k ∧ Nat.digitChar k ≠ ')' := by
  interval_cases k <;> decide

/-- Appending a digit multiplies the value by ten and adds the digit. -/
theorem decimalValue_snoc (pre : List Char) (d : Char) :
    decimalValue (pre ++ [d]) = 10 * decimalValue pre + digitValue d := by
  simp [decimalValue, List.foldl_append]

/-- The digits produced by `Nat.toDigitsCore` in base ten denote the number and hold no
closing parenthesis. -/
theorem toDigitsCore_decimal : ∀ (fuel n : Nat) (ds : List Char), n < fuel →
    ∃ pre, Nat.toDigitsCore 10 fuel n ds = pre ++ ds ∧ decimalValue pre = n ∧
      ∀ ch ∈ pre, ch ≠ ')' := by
  intro fuel
  induction fuel with
  | zero => intro n ds h; omega
  | succ fuel ih =>
    intro n ds h
    have hd := digitValue_digitChar (n % 10) (Nat.mod_lt _ (by decide))
    rw [Nat.toDigitsCore]
    by_cases h0 : n / 10 = 0
    · simp only [h0, if_true]
      refine ⟨[Nat.digitChar (n % 10)], rfl, ?_, ?_⟩
      · simp [decimalValue, hd.1]; omega
      · intro ch hch
        simp at hch
        rw [hch]; exact hd.2
    · simp only [h0, if_false]
      obtain ⟨pre, h1, h2, h3⟩ := ih (n / 10) (Nat.digitChar (n % 10) :: ds) (by omega)
      refine ⟨pre ++ [Nat.digitChar (n % 10)], by simp [h1], ?_, ?_⟩
      · rw [decimalValue_snoc, h2, hd.1]; omega
      · intro ch hch
        rw [List.mem_append] at hch
        rcases hch with hch | hch
        · exact h3 ch hch
        · simp at hch; rw [hch]; exact hd.2

/-- The decimal digits of a number denote it and hold no closing parenthesis. -/
theorem toDigits_decimal (n : Nat) :
    decimalValue (Nat.toDigits 10 n) = n ∧ ∀ ch ∈ Nat.toDigits 10 n, ch ≠ ')' := by
  obtain ⟨pre, h1, h2, h3⟩ := toDigitsCore_decimal (n + 1) n [] (by omega)
  rw [Nat.toDigits, h1]
  simp only [List.append_nil]
  exact ⟨h2, h3⟩

/-- Two lists that agree after being cut at the first separator have equal parts. -/
theorem append_separator_inj (sep : Char) : ∀ (xs ys us vs : List Char),
    sep ∉ xs → sep ∉ ys → xs ++ sep :: us = ys ++ sep :: vs → xs = ys ∧ us = vs := by
  intro xs
  induction xs with
  | nil =>
    intro ys us vs _ hy h
    cases ys with
    | nil => simpa using h
    | cons y ys =>
      simp at h
      simp at hy
      exact absurd h.1 hy.1
  | cons x xs ih =>
    intro ys us vs hx hy h
    cases ys with
    | nil =>
      simp at h
      simp at hx
      exact absurd h.1.symm hx.1
    | cons y ys =>
      simp at h hx hy
      obtain ⟨h1, h2⟩ := ih ys us vs hx.2 hy.2 h.2
      exact ⟨by rw [h.1, h1], h2⟩

/-- The verb `%d` on a non-negative number prints its decimal digits. -/
theorem fmtInt_ofNat (n : Nat) : (fmtInt (n : Int)).data = Nat.toDigits 10 n := rfl

/-- The message of a rejected response determines its status and its body. -/
theorem apiError_inj (s1 s2 : Int) (b1 b2 : String) (h1 : 0 ≤ s1) (h2 : 0 ≤ s2)
    (h : apiError s1 b1 = apiError s2 b2) : s1 = s2 ∧ b1 = b2 := by
  obtain ⟨n1, rfl⟩ := Int.eq_ofNat_of_zero_le h1
  obtain ⟨n2, rfl⟩ := Int.eq_ofNat_of_zero_le h2
  have hd := congrArg String.data h
  simp only [apiError, String.data_append, fmtInt_ofNat, List.append_assoc] at hd
  have hd2 := List.append_cancel_left hd
  have e1 := toDigits_decimal n1
  have e2 := toDigits_decimal n2
  have hsep := append_separator_inj ')' _ _ _ _ (fun hm => e1.2 _ hm rfl) (fun hm => e2.2 _ hm rfl) hd2
  refine ⟨?_, ?_⟩
  · have : n1 = n2 := by rw [← e1.1, ← e2.1, hsep.1]
    rw [this]
  · have := hsep.2
    simp at this
    exact String.ext this


/-- A rejected response whose body could be read makes `parseResponse` return the
message built from its status and body. -/
theorem parseResponse_apiError {α : Type} (um : String → α → Except String α)
    (resp : Response) (target : Option α) (body : String) (hb : resp.Body = .ok body)
    (hs : resp.StatusCode ≥ 400) :
    (parseResponse um resp target).2 = some (apiError resp.StatusCode body) := by
  unfold parseResponse
  rw [hb]
  simp only
  rw [if_pos hs]
  rfl

/-- Two rejected responses that differ in status or body give different errors, for a
method returning only an error. -/
theorem release_errors_differ (c1 c2 : Client) (net1 net2 : List Request)
    (out1 out2 : Option String × List Request) (r1 r2 : Response) (b1 b2 : String)
    (h1 : ((∀ resp, ¬ answered c1 net1 out1.2 resp) ∧ out1.1 ≠ none) ∨
      (∃ resp, answered c1 net1 out1.2 resp ∧ out1.1 = (parseResponse noTarget resp none).2))
    (h2 : ((∀ resp, ¬ answered c2 net2 out2.2 resp) ∧ out2.1 ≠ none) ∨
      (∃ resp, answered c2 net2 out2.2 resp ∧ out2.1 = (parseResponse noTarget resp none).2))
    (hs1 : r1.StatusCode ≥ 400) (hs2 : r2.StatusCode ≥ 400)
    (hb1 : r1.Body = .ok b1) (hb2 : r2.Body = .ok b2)
    (hdiff : r1.StatusCode ≠ r2.StatusCode ∨ b1 ≠ b2)
    (ha1 : answered c1 net1 out1.2 r1) (ha2 : answered c2 net2 out2.2 r2) :
    out1.1 ≠ none ∧ out2.1 ≠ none ∧ out1.1 ≠ out2.1 := by
  have e1 : out1.1 = some (apiError r1.StatusCode b1) := by
    rcases h1 with ⟨hno, -⟩ | ⟨resp, hans, hout⟩
    · exact absurd ha1 (hno r1)
    · have := answered_unique c1 net1 out1.2 r1 resp ha1 hans
      subst this
      rw [hout, parseResponse_apiError noTarget r1 none b1 hb1 hs1]
  have e2 : out2.1 = some (apiError r2.StatusCode b2) := by
    rcases h2 with ⟨hno, -⟩ | ⟨resp, hans, hout⟩
    · exact absurd ha2 (hno r2)
    · have := answered_unique c2 net2 out2.2 r2 resp ha2 hans
      subst this
      rw [hout, parseResponse_apiError noTarget r2 none b2 hb2 hs2]
  rw [e1, e2]
  refine ⟨by simp, by simp, ?_⟩
  intro h
  have := apiError_inj _ _ _ _ (by omega) (by omega) (Option.some.inj h)
  rcases hdiff with hd | hd
  · exact hd this.1
  · exact hd this.2

/-- Two rejected responses that differ in status or body give different errors, for a
method returning a lock. -/
theorem acquire_errors_differ {L : Type} (um : String → L → Except String L) (zero : L)
    (c1 c2 : Client) (net1 net2 : List Request)
    (out1 out2 : (Option L × Option String) × List Request) (r1 r2 : Response) (b1 b2 : String)
    (h1 : ((∀ resp, ¬ answered c1 net1 out1.2 resp) ∧ out1.1.1 = none ∧ out1.1.2 ≠ none) ∨
      (∃ resp, answered c1 net1 out1.2 resp ∧
        out1.1 = lockResult (parseResponse um resp (some zero))))
    (h2 : ((∀ resp, ¬ answered c2 net2 out2.2 resp) ∧ out2.1.1 = none ∧ out2.1.2 ≠ none) ∨
      (∃ resp, answered c2 net2 out2.2 resp ∧
        out2.1 = lockResult (parseResponse um resp (some zero))))
    (hs1 : r1.StatusCode ≥ 400) (hs2 : r2.StatusCode ≥ 400)
    (hb1 : r1.Body = .ok b1) (hb2 : r2.Body = .ok b2)
    (hdiff : r1.StatusCode ≠ r2.StatusCode ∨ b1 ≠ b2)
    (ha1 : answered c1 net1 out1.2 r1) (ha2 : answered c2 net2 out2.2 r2) :
    out1.1.2 ≠ none ∧ out2.1.2 ≠ none ∧ out1.1.2 ≠ out2.1.2 := by
  have e1 : out1.1.2 = some (apiError r1.StatusCode b1) := by
    rcases h1 with ⟨hno, -⟩ | ⟨resp, hans, hout⟩
    · exact absurd ha1 (hno r1)
    · have := answered_unique c1 net1 out1.2 r1 resp ha1 hans
      subst this
      rw [hout, lockResult_error _ _ (parseResponse_apiError um r1 (some zero) b1 hb1 hs1)]
  have e2 : out2.1.2 = some (apiError r2.StatusCode b2) := by
    rcases h2 with ⟨hno, -⟩ | ⟨resp, hans, hout⟩
    · exact absurd ha2 (hno r2)
    · have := answered_unique c2 net2 out2.2 r2 resp ha2 hans
      subst this
      rw [hout, lockResult_error _ _ (parseResponse_apiError um r2 (some zero) b2 hb2 hs2)]
  rw [e1, e2]
  refine ⟨by simp, by simp, ?_⟩
  intro h
  have := apiError_inj _ _ _ _ (by omega) (by omega) (Option.some.inj h)
  rcases hdiff with hd | hd
  · exact hd this.1
  · exact hd this.2

/-- C7 (counterexample): a release answered with status 404 and one answered with status
403, both with a body whose reading fails with `unexpected EOF`, return the same error,
`failed to read response body: unexpected EOF`: the body is read before the status is
looked at, so the two rejections cannot be told apart. -/
theorem unread_rejections_collapse :
    answered (clientUnread 404 "unexpected EOF") []
      (ReleaseTenantLock refPackages (clientUnread 404 "unexpected EOF") "t1" "w2" []).2
      ⟨404, .error "unexpected EOF"⟩ ∧
    answered (clientUnread 403 "unexpected EOF") []
      (ReleaseTenantLock refPackages (clientUnread 403 "unexpected EOF") "t1" "w2" []).2
      ⟨403, .error "unexpected EOF"⟩ ∧
    (ReleaseTenantLock refPackages (clientUnread 404 "unexpected EOF") "t1" "w2" []).1
      = some "failed to read response body: unexpected EOF" ∧
    (ReleaseTenantLock refPackages (clientUnread 403 "unexpected EOF") "t1" "w2" []).1
      = some "failed to read response body: unexpected EOF" ∧
    (AcquireTenantLock refPackages (clientUnread 409 "unexpected EOF") "t1" "w2" 60 []).1.2
      = (AcquireTenantLock refPackages (clientUnread 404 "unexpected EOF") "t1" "w2" 60 []).1.2 :=
  ⟨⟨_, rfl, rfl⟩, ⟨_, rfl, rfl⟩, rfl, rfl, rfl⟩

/-- C7 (amended): take two calls of the same lock method (acquire, release or heartbeat,
for tenant or file locks), possibly on different clients, arguments and networks, whose
requests were answered with rejected responses (status 400 or more) whose bodies were read
to the end and that differ in status code or in body. Then both calls return a non-nil
error and the two errors are different. -/
theorem rejections_stay_distinguishable (pk : Packages) (c1 c2 : Client)
    (tenant1 dataset1 file1 holder1 tenant2 dataset2 file2 holder2 : String)
    (seconds1 seconds2 : Int) (net1 net2 : List Request) (r1 r2 : Response) (b1 b2 : String)
    (hs1 : r1.StatusCode ≥ 400) (hs2 : r2.StatusCode ≥ 400)
    (hb1 : r1.Body = .ok b1) (hb2 : r2.Body = .ok b2)
    (hdiff : r1.StatusCode ≠ r2.StatusCode ∨ b1 ≠ b2) :
    (answered c1 net1 (AcquireTenantLock pk c1 tenant1 holder1 seconds1 net1).2 r1 →
      answered c2 net2 (AcquireTenantLock pk c2 tenant2 holder2 seconds2 net2).2 r2 →
      (AcquireTenantLock pk c1 tenant1 holder1 seconds1 net1).1.2 ≠ none ∧
      (AcquireTenantLock pk c2 tenant2 holder2 seconds2 net2).1.2 ≠ none ∧
      (AcquireTenantLock pk c1 tenant1 holder1 seconds1 net1).1.2 ≠
        (AcquireTenantLock pk c2 tenant2 holder2 seconds2 net2).1.2) ∧
    (answered c1 net1 (ReleaseTenantLock pk c1 tenant1 holder1 net1).2 r1 →
      answered c2 net2 (ReleaseTenantLock pk c2 tenant2 holder2 net2).2 r2 →
      (ReleaseTenantLock pk c1 tenant1 holder1 net1).1 ≠ none ∧
      (ReleaseTenantLock pk c2 tenant2 holder2 net2).1 ≠ none ∧
      (ReleaseTenantLock pk c1 tenant1 holder1 net1).1 ≠
        (ReleaseTenantLock pk c2 tenant2 holder2 net2).1) ∧
    (answered c1 net1 (UpdateTenantLockHeartbeat pk c1 tenant1 holder1 net1).2 r1 →
      answered c2 net2 (UpdateTenantLockHeartbeat pk c2 tenant2 holder2 net2).2 r2 →
      (UpdateTenantLockHeartbeat pk c1 tenant1 holder1 net1).1 ≠ none ∧
      (UpdateTenantLockHeartbeat pk c2 tenant2 holder2 net2).1 ≠ none ∧
      (UpdateTenantLockHeartbeat pk c1 tenant1 holder1 net1).1 ≠
        (UpdateTenantLockHeartbeat pk c2 tenant2 holder2 net2).1) ∧
    (answered c1 net1 (AcquireFileLock pk c1 tenant1 dataset1 file1 holder1 seconds1 net1).2 r1 →
      answered c2 net2 (AcquireFileLock pk c2 tenant2 dataset2 file2 holder2 seconds2 net2).2 r2 →
      (AcquireFileLock pk c1 tenant1 dataset1 file1 holder1 seconds1 net1).1.2 ≠ none ∧
      (AcquireFileLock pk c2 tenant2 dataset2 file2 holder2 seconds2 net2).1.2 ≠ none ∧
      (AcquireFileLock pk c1 tenant1 dataset1 file1 holder1 seconds1 net1).1.2 ≠
        (AcquireFileLock pk c2 tenant2 dataset2 file2 holder2 seconds2 net2).1.2) ∧
    (answered c1 net1 (ReleaseFileLock pk c1 tenant1 dataset1 file1 holder1 net1).2 r1 →
      answered c2 net2 (ReleaseFileLock pk c2 tenant2 dataset2 file2 holder2 net2).2 r2 →
      (ReleaseFileLock pk c1 tenant1 dataset1 file1 holder1 net1).1 ≠ none ∧
      (ReleaseFileLock pk c2 tenant2 dataset2 file2 holder2 net2).1 ≠ none ∧
      (ReleaseFileLock pk c1 tenant1 dataset1 file1 holder1 net1).1 ≠
        (ReleaseFileLock pk c2 tenant2 dataset2 file2 holder2 net2).1) :=
  ⟨acquire_errors_differ _ _ c1 c2 net1 net2 _ _ r1 r2 b1 b2
      (AcquireTenantLock_outcome pk c1 tenant1 holder1 seconds1 net1)
      (AcquireTenantLock_outcome pk c2 tenant2 holder2 seconds2 net2) hs1 hs2 hb1 hb2 hdiff,
   release_errors_differ c1 c2 net1 net2 _ _ r1 r2 b1 b2
      (ReleaseTenantLock_outcome pk c1 tenant1 holder1 net1)
      (ReleaseTenantLock_outcome pk c2 tenant2 holder2 net2) hs1 hs2 hb1 hb2 hdiff,
   release_errors_differ c1 c2 net1 net2 _ _ r1 r2 b1 b2
      (UpdateTenantLockHeartbeat_outcome pk c1 tenant1 holder1 net1)
      (UpdateTenantLockHeartbeat_outcome pk c2 tenant2 holder2 net2) hs1 hs2 hb1 hb2 hdiff,
   acquire_errors_differ _ _ c1 c2 net1 net2 _ _ r1 r2 b1 b2
      (AcquireFileLock_outcome pk c1 tenant1 dataset1 file1 holder1 seconds1 net1)
      (AcquireFileLock_outcome pk c2 tenant2 dataset2 file2 holder2 seconds2 net2)
      hs1 hs2 hb1 hb2 hdiff,
   release_errors_differ c1 c2 net1 net2 _ _ r1 r2 b1 b2
      (ReleaseFileLock_outcome pk c1 tenant1 dataset1 file1 holder1 net1)
      (ReleaseFileLock_outcome pk c2 tenant2 dataset2 file2 holder2 net2) hs1 hs2 hb1 hb2 hdiff⟩

/-- C7 (witness): a release answered `404 lock not found` and one answered
`403 not owner` return different, non-nil errors. -/
theorem rejections_stay_distinguishable_witness :
    (ReleaseTenantLock refPackages (clientOf 404 "lock not found") "t1" "w2" []).1 ≠ none ∧
    (ReleaseTenantLock refPackages (clientOf 403 "not owner") "t1" "w2" []).1 ≠ none ∧
    (ReleaseTenantLock refPackages (clientOf 404 "lock not found") "t1" "w2" []).1 ≠
      (ReleaseTenantLock refPackages (clientOf 403 "not owner") "t1" "w2" []).1 :=
  (rejections_stay_distinguishable refPackages (clientOf 404 "lock not found")
    (clientOf 403 "not owner") "t1" "d1" "f1" "w2" "t1" "d1" "f1" "w2" 60 60 [] []
    ⟨404, .ok "lock not found"⟩ ⟨403, .ok "not owner"⟩ "lock not found" "not owner"
    (by decide) (by decide) rfl rfl (Or.inl (by decide))).2.1
    ⟨_, rfl, rfl⟩ ⟨_, rfl, rfl⟩

/-! ## C8: the operations of the two lock families -/

/-- A request sent by `doRequest` on a path under a root has a URL under that root. -/
theorem doRequest_under_root (pk : Packages) (c : Client) (method path : String)
    (body : Option GoValue) (net : List Request) (root rest : String)
    (hpath : path = root ++ rest) :
    (doRequest pk c method path body net).2 = net ∨
    ∃ req, (doRequest pk c method path body net).2 = net ++ [req] ∧
      ∃ rest, req.url = c.baseURL ++ (root ++ rest) := by
  rcases doRequest_log pk c method path body net with ⟨e, he⟩ | ⟨req, h1, -, h3, -⟩
  · left; rw [he]
  · right; exact ⟨req, h1, rest, by rw [h3, hpath]⟩

/-- No URL lies under the roots of both lock families of one base URL. -/
theorem roots_disjoint (base rest1 rest2 : String) :
    base ++ (LockFamily.tenant.root ++ rest1) ≠ base ++ (LockFamily.file.root ++ rest2) := by
  intro h
  have hd := congrArg String.data h
  simp only [String.data_append] at hd
  have hd2 := List.append_cancel_left hd
  simp [LockFamily.root] at hd2

/-- C8 (counterexample): no method of the client is a heartbeat for file locks, and none
removes all file locks. -/
theorem file_locks_lack_heartbeat_and_clear_all :
    (¬ ∃ call : LockCall, call.family = .file ∧ call.kind = .heartbeat) ∧
    (¬ ∃ call : LockCall, call.family = .file ∧ call.kind = .cleanupAll) := by
  constructor <;> rintro ⟨call, h1, h2⟩ <;> cases call <;> cases h1 <;> cases h2

/-- C8 (amended): for tenant locks the client has a method of each of the seven kinds; for
file locks it has one of each kind except heartbeat and cleanup-all. Every lock method sends
at most one request, and the URL of that request is the base URL followed by the endpoint
root of the method's own family, never by the root of the other family. -/
theorem lock_families_and_endpoints :
    (∀ k : LockOpKind, ∃ call : LockCall, call.family = .tenant ∧ call.kind = k) ∧
    (∀ k : LockOpKind, (∃ call : LockCall, call.family = .file ∧ call.kind = k) ↔
      (k ≠ .heartbeat ∧ k ≠ .cleanupAll)) ∧
    (∀ (pk : Packages) (c : Client) (net : List Request) (call : LockCall),
      call.sent pk c net = net ∨
      ∃ req, call.sent pk c net = net ++ [req] ∧
        (∃ rest, req.url = c.baseURL ++ (call.family.root ++ rest)) ∧
        ∀ g : LockFamily, g ≠ call.family →
          ¬ ∃ rest, req.url = c.baseURL ++ (g.root ++ rest)) := by
  refine ⟨?_, ?_, ?_⟩
  · intro k
    cases k
    · exact ⟨.AcquireTenantLock "" "" 0, rfl, rfl⟩
    · exact ⟨.ReleaseTenantLock "" "", rfl, rfl⟩
    · exact ⟨.UpdateTenantLockHeartbeat "" "", rfl, rfl⟩
    · exact ⟨.CheckTenantLock "", rfl, rfl⟩
    · exact ⟨.CleanupExpiredTenantLocks, rfl, rfl⟩
    · exact ⟨.CleanupStaleTenantLocks 0, rfl, rfl⟩
    · exact ⟨.ClearAllTenantLocks, rfl, rfl⟩
  · intro k
    constructor
    · rintro ⟨call, h1, h2⟩
      cases call <;> cases h1 <;> cases h2 <;>
        exact ⟨fun h => LockOpKind.noConfusion h, fun h => LockOpKind.noConfusion h⟩
    · rintro ⟨h1, h2⟩
      cases k
      · exact ⟨.AcquireFileLock "" "" "" "" 0, rfl, rfl⟩
      · exact ⟨.ReleaseFileLock "" "" "" "", rfl, rfl⟩
      · exact absurd rfl h1
      · exact ⟨.CheckFileLock "" "" "", rfl, rfl⟩
      · exact ⟨.CleanupExpiredFileLocks, rfl, rfl⟩
      · exact ⟨.CleanupStaleFileLocks 0, rfl, rfl⟩
      · exact absurd rfl h2
  · intro pk c net call
    have key : (call.sent pk c net = net ∨
        ∃ req, call.sent pk c net = net ++ [req] ∧
          ∃ rest, req.url = c.baseURL ++ (call.family.root ++ rest)) := by
      cases call with
      | AcquireTenantLock t w d =>
        simp only [LockCall.sent, LockCall.family, AcquireTenantLock_log]
        exact doRequest_under_root pk c _ _ _ net _ "" rfl
      | ReleaseTenantLock t w =>
        simp only [LockCall.sent, LockCall.family, ReleaseTenantLock_log]
        exact doRequest_under_root pk c _ _ _ net _
          ("/" ++ t ++ "?locked_by=" ++ QueryEscape w) rfl
      | UpdateTenantLockHeartbeat t w =>
        simp only [LockCall.sent, LockCall.family, UpdateTenantLockHeartbeat_log]
        exact doRequest_under_root pk c _ _ _ net _ ("/" ++ t ++ "/heartbeat") rfl
      | CheckTenantLock t =>
        simp only [LockCall.sent, LockCall.family, CheckTenantLock_log]
        exact doRequest_under_root pk c _ _ _ net _ ("/" ++ t) rfl
      | CleanupExpiredTenantLocks =>
        simp only [LockCall.sent, LockCall.family, CleanupExpiredTenantLocks_log]
        exact doRequest_under_root pk c _ _ _ net _ "/cleanup/expired" rfl
      | ClearAllTenantLocks =>
        simp only [LockCall.sent, LockCall.family, ClearAllTenantLocks_log]
        exact doRequest_under_root pk c _ _ _ net _ "/cleanup/all" rfl
      | CleanupStaleTenantLocks n =>
        simp only [LockCall.sent, LockCall.family, CleanupStaleTenantLocks_log]
        exact doRequest_under_root pk c _ _ _ net _
          ("/cleanup/stale?stale_threshold_seconds=" ++ fmtInt n) rfl
      | AcquireFileLock t d f w n =>
        simp only [LockCall.sent, LockCall.family, AcquireFileLock_log]
        exact doRequest_under_root pk c _ _ _ net _ "" rfl
      | ReleaseFileLock t d f w =>
        simp only [LockCall.sent, LockCall.family]
        rcases ReleaseFileLock_log pk c t d f w net with h | ⟨inner, -, h⟩
        · exact Or.inl h
        · rw [h]
          exact doRequest_under_root pk c _ _ _ net _ "" rfl
      | CheckFileLock t d f =>
        simp only [LockCall.sent, LockCall.family, CheckFileLock_log]
        exact doRequest_under_root pk c _ _ _ net _
          ("/" ++ t ++ "/" ++ d ++ "/" ++ PathEscape f) rfl
      | CleanupExpiredFileLocks =>
        simp only [LockCall.sent, LockCall.family, CleanupExpiredFileLocks_log]
        exact doRequest_under_root pk c _ _ _ net _ "/cleanup/expired" rfl
      | CleanupStaleFileLocks n =>
        simp only [LockCall.sent, LockCall.family, CleanupStaleFileLocks_log]
        exact doRequest_under_root pk c _ _ _ net _
          ("/cleanup/stale?stale_threshold_seconds=" ++ fmtInt n) rfl
    rcases key with h | ⟨req, h1, rest, h2⟩
    · exact Or.inl h
    · refine Or.inr ⟨req, h1, ⟨rest, h2⟩, ?_⟩
      rintro g hg ⟨rest2, h3⟩
      rw [h2] at h3
      cases hf : call.family <;> cases g <;> rw [hf] at h3 hg
      · exact hg rfl
      · exact roots_disjoint _ _ _ h3
      · exact roots_disjoint _ _ _ h3.symm
      · exact hg rfl

/-! ## C10: what a heartbeat sends -/

/-- The request of `UpdateTenantLockHeartbeat`: when one is sent, it is a PUT to the
heartbeat path of the tenant whose body is the marshalled map with the single entry
`locked_by`; it carries no duration and no TTL. What the service does to the lock record on
receiving it is outside the client. -/
theorem UpdateTenantLockHeartbeat_request (pk : Packages) (c : Client)
    (tenantID lockedBy : String) (net : List Request) :
    (UpdateTenantLockHeartbeat pk c tenantID lockedBy net).2 = net ∨
    ∃ req j, (UpdateTenantLockHeartbeat pk c tenantID lockedBy net).2 = net ++ [req] ∧
      req.method = "PUT" ∧
      req.url = c.baseURL ++ ("/api/v1/packer/locks/tenants/" ++ tenantID ++ "/heartbeat") ∧
      pk.Marshal (.map [("locked_by", .str lockedBy)]) = .ok j ∧ req.body = some j := by
  rw [UpdateTenantLockHeartbeat_log]
  rcases doRequest_log pk c "PUT" ("/api/v1/packer/locks/tenants/" ++ tenantID ++ "/heartbeat")
    (some (.map [("locked_by", .str lockedBy)])) net with ⟨e, he⟩ | ⟨req, h1, h2, h3, -, h5⟩
  · left; rw [he]
  · right
    obtain ⟨j, hj, hb⟩ := h5 _ rfl
    exact ⟨req, j, h1, h2, h3, hj, hb⟩

/-! ## C16: the request `doRequest` builds -/

/-- The network after `doRequest`, exactly: unchanged, or extended by the request with the
given method, the URL `baseURL + path`, the marshalled body (none for a nil body) and the
headers `Content-Type`, `Accept` and, for a non-empty API key, `Authorization`. -/
theorem doRequest_log_exact (pk : Packages) (c : Client) (method path : String)
    (body : Option GoValue) (net : List Request) :
    (doRequest pk c method path body net).2 = net ∨
    ∃ rb, (body = none → rb = none) ∧
      (∀ b, body = some b → ∃ j, pk.Marshal b = .ok j ∧ rb = some j) ∧
      (doRequest pk c method path body net).2 = net ++ [⟨method, c.baseURL ++ path, rb,
        [("Content-Type", "application/json"), ("Accept", "application/json")] ++
          (if c.apiKey = "" then [] else [("Authorization", "Bearer " ++ c.apiKey)])⟩] := by
  have key : ∀ rb : Option String,
      (if c.apiKey != "" then
          (((Request.mk method (c.baseURL ++ path) rb []).Set "Content-Type"
            "application/json").Set "Accept" "application/json").Set "Authorization"
            ("Bearer " ++ c.apiKey)
        else ((Request.mk method (c.baseURL ++ path) rb []).Set "Content-Type"
          "application/json").Set "Accept" "application/json") =
      ⟨method, c.baseURL ++ path, rb,
        [("Content-Type", "application/json"), ("Accept", "application/json")] ++
          (if c.apiKey = "" then [] else [("Authorization", "Bearer " ++ c.apiKey)])⟩ := by
    intro rb
    by_cases hk : c.apiKey = ""
    · simp [hk, Request.Set]
    · simp [hk, Request.Set]
  unfold doRequest
  cases hurl : pk.ParseURL (c.baseURL ++ path) with
  | some err =>
    left
    cases body with
    | none => simp only [NewRequestWithContext, hurl]
    | some b =>
      cases hm : pk.Marshal b with
      | error e => simp only [hm]
      | ok j => simp only [hm, NewRequestWithContext, hurl]
  | none =>
    cases body with
    | none =>
      right
      refine ⟨none, fun _ => rfl, fun b hb => (by cases hb), ?_⟩
      simp only [NewRequestWithContext, hurl]
      rw [← key none]
      split <;> rfl
    | some b =>
      cases hm : pk.Marshal b with
      | error e => left; simp only [hm]
      | ok j =>
        right
        refine ⟨some j, fun hb => (by cases hb), fun b2 hb => ?_, ?_⟩
        · cases hb; exact ⟨j, hm, rfl⟩
        · simp only [hm, NewRequestWithContext, hurl]
          rw [← key (some j)]
          split <;> rfl

/-- C16: every request `doRequest` sends has the given method and the URL
`baseURL + path`; its headers are `Content-Type: application/json`,
`Accept: application/json` and, exactly when the API key is non-empty,
`Authorization: Bearer <apiKey>`; it has no body for a nil body and otherwise the body as
marshalled by `sonic.Marshal`. -/
theorem doRequest_sends_authenticated_json (pk : Packages) (c : Client) (method path : String)
    (body : Option GoValue) (net : List Request) (req : Request)
    (hsent : (doRequest pk c method path body net).2 = net ++ [req]) :
    req.method = method ∧ req.url = c.baseURL ++ path ∧
    ("Content-Type", "application/json") ∈ req.header ∧
    ("Accept", "application/json") ∈ req.header ∧
    (∀ v, ("Content-Type", v) ∈ req.header → v = "application/json") ∧
    (∀ v, ("Accept", v) ∈ req.header → v = "application/json") ∧
    (∀ v, ("Authorization", v) ∈ req.header ↔ (c.apiKey ≠ "" ∧ v = "Bearer " ++ c.apiKey)) ∧
    (body = none → req.body = none) ∧
    (∀ b, body = some b → ∃ j, pk.Marshal b = .ok j ∧ req.body = some j) := by
  rcases doRequest_log_exact pk c method path body net with h | ⟨rb, h1, h2, h3⟩
  · rw [h] at hsent
    have := congrArg List.length hsent
    simp at this
  · rw [h3] at hsent
    have hreq : req = _ := (List.singleton_inj.1 (List.append_cancel_left hsent)).symm
    subst hreq
    refine ⟨rfl, rfl, by simp, by simp, ?_, ?_, ?_, h1, h2⟩
    · intro v hv
      by_cases hk : c.apiKey = "" <;> simp [hk] at hv <;> exact hv
    · intro v hv
      by_cases hk : c.apiKey = "" <;> simp [hk] at hv <;> exact hv
    · intro v
      by_cases hk : c.apiKey = "" <;> simp [hk]

/-- C16 (witness): the request of a health check by a client with the key `secret`, and
the request of a client without a key, which has no `Authorization` header. -/
theorem doRequest_sends_authenticated_json_witness :
    (doRequest refPackages (clientOf 200 "ok") "GET" "/api/v1/health" none []).2 =
      [⟨"GET", "http://control:8080/api/v1/health", none,
        [("Content-Type", "application/json"), ("Accept", "application/json"),
         ("Authorization", "Bearer secret")]⟩] ∧
    (∀ v, ("Authorization", v) ∈ (Request.mk "GET" "http://control:8080/api/v1/health" none
        [("Content-Type", "application/json"), ("Accept", "application/json"),
         ("Authorization", "Bearer secret")]).header ↔
      ((clientOf 200 "ok").apiKey ≠ "" ∧ v = "Bearer " ++ (clientOf 200 "ok").apiKey)) :=
  ⟨rfl, (doRequest_sends_authenticated_json refPackages (clientOf 200 "ok") "GET"
    "/api/v1/health" none [] _ rfl).2.2.2.2.2.2.1⟩

/-! ## C17: the health check -/

/-- The outcome of `HealthCheck` in terms of the answer to its request: an error when
unanswered, and otherwise a result that depends on the status code alone. -/
theorem HealthCheck_outcome (pk : Packages) (c : Client) (net : List Request) :
    ((∀ resp, ¬ answered c net (HealthCheck pk c net).2 resp) ∧
      (HealthCheck pk c net).1 ≠ none) ∨
    (∃ resp, answered c net (HealthCheck pk c net).2 resp ∧
      (HealthCheck pk c net).1 =
        if resp.StatusCode = 200 then none
        else some ("health check failed with status " ++ fmtInt resp.StatusCode)) := by
  have hiff := doRequest_ok_iff pk c "GET" "/api/v1/health" none net
  unfold HealthCheck
  rcases h : doRequest pk c "GET" "/api/v1/health" none net with ⟨r, net1⟩
  rw [h] at hiff
  cases r with
  | error e =>
    left
    refine ⟨?_, by simp⟩
    intro resp hr
    have := (hiff resp).2 hr
    cases this
  | ok resp =>
    right
    have hans : answered c net net1 resp := (hiff resp).1 rfl
    simp only
    by_cases h200 : resp.StatusCode = 200
    · exact ⟨resp, by simpa [h200] using hans, by simp [h200]⟩
    · exact ⟨resp, by simpa [h200] using hans, by simp [h200]⟩

/-- C17: `HealthCheck` returns nil if and only if its request was answered with status
exactly 200. When no answer arrives it returns a non-nil error, and so it does for every
other status, 2xx and 3xx included. The body is never inspected: two health checks whose
answers have the same status return the same result, whatever the bodies are and whether or
not they can be read. -/
theorem HealthCheck_healthy_iff_status_200 (pk : Packages) (c c2 : Client)
    (net net2 : List Request) :
    ((HealthCheck pk c net).1 = none ↔
      ∃ resp, answered c net (HealthCheck pk c net).2 resp ∧ resp.StatusCode = 200) ∧
    ((∀ resp, ¬ answered c net (HealthCheck pk c net).2 resp) →
      (HealthCheck pk c net).1 ≠ none) ∧
    (∀ resp, answered c net (HealthCheck pk c net).2 resp → resp.StatusCode ≠ 200 →
      (HealthCheck pk c net).1 =
        some ("health check failed with status " ++ fmtInt resp.StatusCode)) ∧
    (∀ resp resp2, answered c net (HealthCheck pk c net).2 resp →
      answered c2 net2 (HealthCheck pk c2 net2).2 resp2 →
      resp.StatusCode = resp2.StatusCode →
      (HealthCheck pk c net).1 = (HealthCheck pk c2 net2).1) := by
  have value : ∀ (d : Client) (n : List Request) (resp : Response),
      answered d n (HealthCheck pk d n).2 resp →
      (HealthCheck pk d n).1 = if resp.StatusCode = 200 then none
        else some ("health check failed with status " ++ fmtInt resp.StatusCode) := by
    intro d n resp hr
    rcases HealthCheck_outcome pk d n with ⟨hno, -⟩ | ⟨r, hans, hout⟩
    · exact absurd hr (hno resp)
    · have := answered_unique d n _ resp r hr hans
      subst this
      exact hout
  refine ⟨⟨?_, ?_⟩, ?_, ?_, ?_⟩
  · intro hnil
    rcases HealthCheck_outcome pk c net with ⟨-, herr⟩ | ⟨resp, hans, hout⟩
    · exact absurd hnil herr
    · refine ⟨resp, hans, ?_⟩
      by_contra h200
      rw [hout, if_neg h200] at hnil
      cases hnil
  · rintro ⟨resp, hans, h200⟩
    rw [value c net resp hans, if_pos h200]
  · intro hno
    rcases HealthCheck_outcome pk c net with ⟨-, herr⟩ | ⟨resp, hans, -⟩
    · exact herr
    · exact absurd hans (hno resp)
  · intro resp hans h200
    rw [value c net resp hans, if_neg h200]
  · intro resp resp2 hans hans2 hs
    rw [value c net resp hans, value c2 net2 resp2 hans2, hs]

/-- C17 (witness): a service answering 200 is healthy, one answering 204 is not, and one
that cannot be reached is not. -/
theorem HealthCheck_healthy_iff_status_200_witness :
    (HealthCheck refPackages (clientOf 200 "ok") []).1 = none ∧
    (HealthCheck refPackages (clientOf 204 "") []).1 =
      some "health check failed with status 204" ∧
    (HealthCheck refPackages unreachableClient []).1 ≠ none :=
  ⟨(HealthCheck_healthy_iff_status_200 refPackages (clientOf 200 "ok") (clientOf 200 "ok")
      [] []).1.2 ⟨⟨200, .ok "ok"⟩, ⟨_, rfl, rfl⟩, rfl⟩,
   (HealthCheck_healthy_iff_status_200 refPackages (clientOf 204 "") (clientOf 204 "")
      [] []).2.2.1 ⟨204, .ok ""⟩ ⟨_, rfl, rfl⟩ (by decide),
   (HealthCheck_healthy_iff_status_200 refPackages unreachableClient unreachableClient
      [] []).2.1 (fun _ h => h.elim fun _ hreq => nomatch hreq.2)⟩

/-! ## C11: what the sweeps send -/

/-- The requests of the four sweep methods: each sends at most one request, a DELETE
without body to the cleanup path of its family, the stale sweeps with the threshold as the
query parameter `stale_threshold_seconds`. Which records the service removes on receiving
it is outside the client. -/
theorem sweep_requests (pk : Packages) (c : Client) (staleThresholdSeconds : Int)
    (net : List Request) :
    ((CleanupExpiredTenantLocks pk c net).2 = net ∨
      ∃ req, (CleanupExpiredTenantLocks pk c net).2 = net ++ [req] ∧ req.method = "DELETE" ∧
        req.url = c.baseURL ++ "/api/v1/packer/locks/tenants/cleanup/expired" ∧
        req.body = none) ∧
    ((CleanupExpiredFileLocks pk c net).2 = net ∨
      ∃ req, (CleanupExpiredFileLocks pk c net).2 = net ++ [req] ∧ req.method = "DELETE" ∧
        req.url = c.baseURL ++ "/api/v1/piper/locks/files/cleanup/expired" ∧
        req.body = none) ∧
    ((CleanupStaleTenantLocks pk c staleThresholdSeconds net).2 = net ∨
      ∃ req, (CleanupStaleTenantLocks pk c staleThresholdSeconds net).2 = net ++ [req] ∧
        req.method = "DELETE" ∧
        req.url = c.baseURL ++ ("/api/v1/packer/locks/tenants/cleanup/stale" ++
          "?stale_threshold_seconds=" ++ fmtInt staleThresholdSeconds) ∧
        req.body = none) ∧
    ((CleanupStaleFileLocks pk c staleThresholdSeconds net).2 = net ∨
      ∃ req, (CleanupStaleFileLocks pk c staleThresholdSeconds net).2 = net ++ [req] ∧
        req.method = "DELETE" ∧
        req.url = c.baseURL ++ ("/api/v1/piper/locks/files/cleanup/stale" ++
          "?stale_threshold_seconds=" ++ fmtInt staleThresholdSeconds) ∧
        req.body = none) := by
  have key : ∀ path : String, (doRequest pk c "DELETE" path none net).2 = net ∨
      ∃ req, (doRequest pk c "DELETE" path none net).2 = net ++ [req] ∧
        req.method = "DELETE" ∧ req.url = c.baseURL ++ path ∧ req.body = none := by
    intro path
    rcases doRequest_log pk c "DELETE" path none net with ⟨e, he⟩ | ⟨req, h1, h2, h3, h4, -⟩
    · left; rw [he]
    · right; exact ⟨req, h1, h2, h3, h4 rfl⟩
  refine ⟨?_, ?_, ?_, ?_⟩
  · rw [CleanupExpiredTenantLocks_log]; exact key _
  · rw [CleanupExpiredFileLocks_log]; exact key _
  · rw [CleanupStaleTenantLocks_log]; exact key _
  · rw [CleanupStaleFileLocks_log]; exact key _

end controlclient

namespace log

/-! ## Shared lemmas on loggers -/

/-- What a successful `With` leaves: the same writer and options, and the attached
attributes extended. -/
theorem With_ok (l l2 : Logger) (args : List slog.Arg) (h : l.With args = .ok l2) :
    l2.w = l.w ∧ l2.logger.handler.w = l.logger.handler.w ∧
    l2.logger.handler.opts = l.logger.handler.opts ∧
    ∃ xs, l2.logger.handler.preformattedAttrs = l.logger.handler.preformattedAttrs ++ xs := by
  unfold Logger.With slog.Logger.With at h
  by_cases ha : args.isEmpty = true
  · simp only [ha, if_true] at h
    cases h
    exact ⟨rfl, rfl, rfl, [], by simp⟩
  · simp only [ha] at h
    unfold slog.JSONHandler.WithAttrs at h
    by_cases hb : (slog.argsToAttrSlice args).isEmpty = true
    · simp only [hb, if_true] at h
      cases h
      exact ⟨rfl, rfl, rfl, [], by simp⟩
    · simp only [hb] at h
      cases hx : l.logger.handler.appendAttrs (slog.argsToAttrSlice args) with
      | error e => simp [hx] at h
      | ok xs =>
        simp only [hx] at h
        cases h
        exact ⟨rfl, rfl, rfl, xs, rfl⟩

/-- The methods `WithTrace` and `WithCustomer` are calls of `With`. -/
theorem WithTrace_eq_With (l : Logger) (traceID customerID : String) :
    l.WithTrace traceID = l.With [.any (.string TraceKey), .any (.string traceID)] ∧
    l.WithCustomer customerID =
      l.With [.any (.string CustomerKey), .any (.string customerID)] := ⟨rfl, rfl⟩

/-- Every logger built from `New w` writes to `w`, adds the source and replaces attributes
with `resolveLogLevel`. -/
theorem Built_inv (w : slog.Writer) (l : Logger) (h : Built w l) :
    l.w = w ∧ l.logger.handler.w = w ∧
    l.logger.handler.opts.ReplaceAttr = some resolveLogLevel ∧
    l.logger.handler.opts.AddSource = true := by
  induction h with
  | new => exact ⟨rfl, rfl, rfl, rfl⟩
  | withArgs l l2 args _ hw ih =>
    obtain ⟨h1, h2, h3, -⟩ := With_ok l l2 args hw
    rw [h1, h2, h3]
    exact ih
  | setMinLogLevel l lev _ ih =>
    exact ⟨ih.1, ih.1, rfl, rfl⟩

/-- A logger derived without `SetMinLogLevel` is built from `New w` and has no minimum
level in its options. -/
theorem Derived_inv (w : slog.Writer) (l : Logger) (h : Derived w l) :
    Built w l ∧ l.logger.handler.opts.Level = none := by
  induction h with
  | new => exact ⟨Built.new, rfl⟩
  | withArgs l l2 args _ hw ih =>
    refine ⟨Built.withArgs l l2 args ih.1 hw, ?_⟩
    rw [(With_ok l l2 args hw).2.2.1]
    exact ih.2
  | withTrace l l2 traceID _ hw ih =>
    refine ⟨Built.withArgs l l2 _ ih.1 hw, ?_⟩
    rw [(With_ok l l2 _ hw).2.2.1]
    exact ih.2
  | withCustomer l l2 customerID _ hw ih =>
    refine ⟨Built.withArgs l l2 _ ih.1 hw, ?_⟩
    rw [(With_ok l l2 _ hw).2.2.1]
    exact ih.2

/-- What `Logger.log` does without extra arguments, for a logger that adds the source and
replaces attributes with `resolveLogLevel`: nothing below the minimum level, and otherwise
one record with the built-in members followed by the attached attributes. -/
theorem log_record (l : Logger) (env : Env) (level : slog.Level) (msg : String)
    (out : slog.Output)
    (hrep : l.logger.handler.opts.ReplaceAttr = some resolveLogLevel)
    (hsrc : l.logger.handler.opts.AddSource = true) :
    l.log env level msg [] out =
      if l.logger.Enabled level then
        .ok (out.write l.logger.handler.w
          (.record (builtinMembers env level msg ++ l.logger.handler.preformattedAttrs)))
      else .ok out := by
  unfold Logger.log
  by_cases hen : l.logger.Enabled level = true
  · simp only [hen, Bool.not_true, if_true]
    simp only [slog.JSONHandler.Handle, slog.NewRecord, slog.Record.Add, hsrc,
      slog.argsToAttrSlice, List.append_nil, if_true]
    by_cases hnow : env.Now = 0
    · by_cases hf : level = LevelFatal
      · simp [hnow, hf, slog.JSONHandler.appendAttrs, slog.JSONHandler.appendAttr, hrep,
          resolveLogLevel, builtinMembers, slog.Attr.isEmpty, slog.LevelKey, slog.SourceKey,
          slog.MessageKey, slog.TimeKey, slog.Value.Any, slog.GoAny.assertLevel]
      · simp [hnow, hf, slog.JSONHandler.appendAttrs, slog.JSONHandler.appendAttr, hrep,
          resolveLogLevel, builtinMembers, slog.Attr.isEmpty, slog.LevelKey, slog.SourceKey,
          slog.MessageKey, slog.TimeKey, slog.Value.Any, slog.GoAny.assertLevel]
    · by_cases hf : level = LevelFatal
      · simp [hnow, hf, slog.JSONHandler.appendAttrs, slog.JSONHandler.appendAttr, hrep,
          resolveLogLevel, builtinMembers, slog.Attr.isEmpty, slog.LevelKey, slog.SourceKey,
          slog.MessageKey, slog.TimeKey, slog.Value.Any, slog.GoAny.assertLevel]
      · simp [hnow, hf, slog.JSONHandler.appendAttrs, slog.JSONHandler.appendAttr, hrep,
          resolveLogLevel, builtinMembers, slog.Attr.isEmpty, slog.LevelKey, slog.SourceKey,
          slog.MessageKey, slog.TimeKey, slog.Value.Any, slog.GoAny.assertLevel]
  · simp [hen]

end log

namespace log

/-- The method `WithTrace` never fails on a logger that replaces attributes with
`resolveLogLevel`: it attaches the one attribute `traceId`. -/
theorem WithTrace_ok (l : Logger) (traceID : String)
    (hrep : l.logger.handler.opts.ReplaceAttr = some resolveLogLevel) :
    l.WithTrace traceID = .ok
      { w := l.w
        logger := ⟨{ l.logger.handler with
          preformattedAttrs :=
            l.logger.handler.preformattedAttrs ++ [⟨TraceKey, .str traceID⟩] }⟩ } := by
  simp [Logger.WithTrace, Logger.With, slog.Logger.With, slog.JSONHandler.WithAttrs,
    slog.argsToAttrSlice, slog.JSONHandler.appendAttrs, slog.JSONHandler.appendAttr, hrep,
    resolveLogLevel, slog.Attr.isEmpty, slog.LevelKey, TraceKey, slog.AnyValue,
    slog.Arg.toAny]

/-- The built-in members of a record have no member keyed `traceId`. -/
theorem builtinMembers_keys (env : Env) (level : slog.Level) (msg : String) :
    ∀ a ∈ builtinMembers env level msg, a.Key ≠ TraceKey := by
  intro a ha
  unfold builtinMembers at ha
  by_cases hnow : env.Now = 0
  · simp only [hnow, ne_eq, not_true_eq_false, if_false, List.nil_append, List.mem_cons,
      List.mem_singleton, List.not_mem_nil, or_false] at ha
    rcases ha with rfl | rfl | rfl <;>
      simp [slog.TimeKey, slog.LevelKey, slog.SourceKey, slog.MessageKey, TraceKey]
  · simp only [hnow, ne_eq, not_false_eq_true, if_true, List.cons_append, List.nil_append,
      List.mem_cons, List.mem_singleton, List.not_mem_nil, or_false] at ha
    rcases ha with rfl | rfl | rfl | rfl <;>
      simp [slog.TimeKey, slog.LevelKey, slog.SourceKey, slog.MessageKey, TraceKey]

/-- A record none of whose members has a key has no value under that key. -/
theorem member_none (key : String) (ms : List slog.Attr) (h : ∀ a ∈ ms, a.Key ≠ key) :
    member key ms = none := by
  unfold member
  have : ms.filter (fun a => a.Key = key) = [] := by
    rw [List.filter_eq_nil_iff]
    intro a ha
    simpa using h a ha
  rw [this]
  rfl

/-- The value under a key whose only member comes last. -/
theorem member_last (key : String) (ms : List slog.Attr) (v : slog.Value)
    (h : ∀ a ∈ ms, a.Key ≠ key) : member key (ms ++ [⟨key, v⟩]) = some v := by
  unfold member
  have : ms.filter (fun a => a.Key = key) = [] := by
    rw [List.filter_eq_nil_iff]
    intro a ha
    simpa using h a ha
  simp [List.filter_append, this]

/-- The message of a record with the built-in members first. -/
theorem member_msg (env : Env) (level : slog.Level) (msg : String) (key : String)
    (v : slog.Value) (hk : key ≠ slog.MessageKey) :
    member slog.MessageKey (builtinMembers env level msg ++ [⟨key, v⟩]) = some (.str msg) := by
  unfold member builtinMembers
  have hk2 : ¬ key = "msg" := hk
  by_cases hnow : env.Now = 0 <;>
    simp [hnow, slog.TimeKey, slog.LevelKey, slog.SourceKey, slog.MessageKey,
      List.filter_cons, hk2]

/-! ## C12: debug messages are dropped by default -/

/-- C12: a logger created by `New w`, or derived from it by `With`, `WithTrace` and
`WithCustomer` without any call of `SetMinLogLevel`, writes nothing for a debug message:
for every message and arguments `Debug` and `Debugf` return with the output unchanged. -/
theorem debug_writes_nothing_by_default (w : slog.Writer) (l : Logger) (h : Derived w l)
    (env : Env) (msg : String) (args : List slog.GoAny) (out : slog.Output) :
    l.Debug env msg out = .ok out ∧ l.Debugf env msg args out = .ok out := by
  have hlev := (Derived_inv w l h).2
  have hdis : l.logger.Enabled slog.LevelDebug = false := by
    simp [slog.Logger.Enabled, slog.JSONHandler.Enabled, hlev, slog.LevelDebug,
      slog.LevelInfo]
  constructor
  · simp [Logger.Debug, Logger.log, hdis]
  · simp [Logger.Debugf, Logger.log, hdis]

/-- C12 (witness): as in the test, `New(w).WithTrace("1234").Debugf` leaves the output
empty. -/
theorem debug_writes_nothing_by_default_witness :
    ∃ l, (New 0).WithTrace "1234" = .ok l ∧
      l.Debugf refEnv "error: %s" [.other "test error happened"] emptyOutput
        = .ok emptyOutput :=
  ⟨_, rfl, (debug_writes_nothing_by_default 0 _
    (Derived.withTrace (New 0) _ "1234" Derived.new rfl) refEnv "error: %s"
    [.other "test error happened"] emptyOutput).2⟩

/-! ## C13: an error with a trace id -/

/-- C13: for every trace id, format and arguments, `New(w).WithTrace(id)` succeeds and
`Errorf` on the result writes exactly one record to `w` (one more write on `w`, no write
on any other writer). Its members are the built-in ones followed by `traceId`; its `msg`
member is `fmt.Sprintf(format, args...)` and its `traceId` member is `id`. -/
theorem errorf_with_trace_writes_one_record (w : slog.Writer) (id format : String)
    (args : List slog.GoAny) (env : Env) (out : slog.Output) :
    ∃ child out2 members, (New w).WithTrace id = .ok child ∧
      child.Errorf env format args out = .ok out2 ∧
      out2 w = out w ++ [.record members] ∧
      (∀ v, v ≠ w → out2 v = out v) ∧
      members = builtinMembers env slog.LevelError (env.Sprintf format args)
        ++ [⟨TraceKey, .str id⟩] ∧
      member slog.MessageKey members = some (.str (env.Sprintf format args)) ∧
      member TraceKey members = some (.str id) := by
  have hw := WithTrace_ok (New w) id rfl
  refine ⟨_, out.write w (.record (builtinMembers env slog.LevelError (env.Sprintf format args)
    ++ [⟨TraceKey, .str id⟩])), _, hw, ?_, ?_, ?_, rfl, ?_, ?_⟩
  · simp only [Logger.Errorf]
    rw [log_record _ _ _ _ _ rfl rfl]
    simp only [slog.Logger.Enabled, slog.JSONHandler.Enabled, New, slog.New,
      slog.NewJSONHandler, defaultHandlerOptions, slog.LevelError, slog.LevelInfo]
    rfl
  · simp [slog.Output.write]
  · intro v hv
    simp [slog.Output.write, hv]
  · exact member_msg env _ _ TraceKey _ (by decide)
  · exact member_last TraceKey _ _ (builtinMembers_keys env _ _)

/-- C13 (witness): as in the test, `New(w).WithTrace("1234").Errorf("error: %s", e)` writes
one record whose `msg` member is `error: test error happened` and whose `traceId` member is
`1234`. -/
theorem errorf_with_trace_writes_one_record_witness :
    refEnv.Sprintf "error: %s" [.other "test error happened"] = "error: test error happened" ∧
    ∃ child out2 members, (New 0).WithTrace "1234" = .ok child ∧
      child.Errorf refEnv "error: %s" [.other "test error happened"] emptyOutput = .ok out2 ∧
      out2 0 = emptyOutput 0 ++ [.record members] ∧
      (∀ v, v ≠ 0 → out2 v = emptyOutput v) ∧
      members = builtinMembers refEnv slog.LevelError
        (refEnv.Sprintf "error: %s" [.other "test error happened"])
        ++ [⟨TraceKey, .str "1234"⟩] ∧
      member slog.MessageKey members =
        some (.str (refEnv.Sprintf "error: %s" [.other "test error happened"])) ∧
      member TraceKey members = some (.str "1234") :=
  ⟨by decide, errorf_with_trace_writes_one_record 0 "1234" "error: %s"
    [.other "test error happened"] refEnv emptyOutput⟩

/-! ## C14: loggers without a trace id -/

/-- C14 (counterexample): on the logger `New(w).With("traceId", "z")` the method
`WithTrace` was never applied, yet the record of an error written through it has the
`traceId` member `z`. -/
theorem with_trace_key_attaches_trace_id :
    ∃ l members, (New 0).With [.any (.string "traceId"), .any (.string "z")] = .ok l ∧
      l.Error refEnv "oh no" emptyOutput = .ok (emptyOutput.write 0 (.record members)) ∧
      member TraceKey members = some (.str "z") :=
  ⟨_, _, rfl, rfl, by decide⟩

/-- The built-in members of a record have no member whose key matches `traceId`, folded
or not. -/
theorem builtinMembers_folded_keys (env : Env) (level : slog.Level) (msg : String) :
    ∀ a ∈ builtinMembers env level msg, json.foldName a.Key ≠ json.foldName TraceKey := by
  have k1 : json.foldName slog.TimeKey ≠ json.foldName TraceKey := by decide
  have k2 : json.foldName slog.LevelKey ≠ json.foldName TraceKey := by decide
  have k3 : json.foldName slog.SourceKey ≠ json.foldName TraceKey := by decide
  have k4 : json.foldName slog.MessageKey ≠ json.foldName TraceKey := by decide
  intro a ha
  unfold builtinMembers at ha
  by_cases hnow : env.Now = 0
  · simp only [hnow, ne_eq, not_true_eq_false, if_false, List.nil_append, List.mem_cons,
      List.mem_singleton, List.not_mem_nil, or_false] at ha
    rcases ha with rfl | rfl | rfl
    · exact k2
    · exact k3
    · exact k4
  · simp only [hnow, ne_eq, not_false_eq_true, if_true, List.cons_append, List.nil_append,
      List.mem_cons, List.mem_singleton, List.not_mem_nil, or_false] at ha
    rcases ha with rfl | rfl | rfl | rfl
    · exact k1
    · exact k2
    · exact k3
    · exact k4

/-- A record none of whose members matches a tag leaves the field at its zero value. -/
theorem fieldMember_none (key : String) (ms : List slog.Attr)
    (h : ∀ a ∈ ms, json.foldName a.Key ≠ json.foldName key) : fieldMember key ms = none := by
  unfold fieldMember
  have : ms.filter (fun a => json.foldName a.Key = json.foldName key) = [] := by
    rw [List.filter_eq_nil_iff]
    intro a ha
    simpa using h a ha
  rw [this]
  rfl

/-- The field of a tag whose only matching member comes last. -/
theorem fieldMember_last (key : String) (ms : List slog.Attr) (v : slog.Value)
    (h : ∀ a ∈ ms, json.foldName a.Key ≠ json.foldName key) :
    fieldMember key (ms ++ [⟨key, v⟩]) = some v := by
  unfold fieldMember
  have : ms.filter (fun a => json.foldName a.Key = json.foldName key) = [] := by
    rw [List.filter_eq_nil_iff]
    intro a ha
    simpa using h a ha
  simp [List.filter_append, this]

/-- The logger `New(w).With("TRACEID", "z")` has no attribute keyed `traceId`, yet the
record of an error written through it decodes with the trace id `z`: the decoder matches
the member `TRACEID` with the field tagged `traceId`. -/
theorem with_folded_key_decodes_as_trace_id :
    ∃ l members, (New 0).With [.any (.string "TRACEID"), .any (.string "z")] = .ok l ∧
      l.Error refEnv "oh no" emptyOutput = .ok (emptyOutput.write 0 (.record members)) ∧
      member TraceKey members = none ∧
      fieldMember TraceKey members = some (.str "z") :=
  ⟨_, _, rfl, rfl, by decide, by decide⟩

/-- C14 (amended): take a logger built from `New w` to which no attribute is attached whose
key matches `traceId`, with the same name or the same folded name (so neither by
`WithTrace` nor by `With` with a key such as `traceId` or `TRACEID`), and let `child` be
`l.WithTrace(id)`, which always succeeds. A logging call at a disabled level writes nothing
through either. At an enabled level the call through `l` writes one record with no member
matching `traceId`, which decodes with an empty trace id, and the same call through `child`
writes one record whose only member matching `traceId` is `traceId` with the value `id`,
which decodes with the trace id `id`; both go to `w`. -/
theorem trace_id_only_on_child (w : slog.Writer) (l : Logger) (hb : Built w l)
    (hno : ∀ a ∈ l.logger.handler.preformattedAttrs,
      json.foldName a.Key ≠ json.foldName TraceKey) (id : String) :
    ∃ child, l.WithTrace id = .ok child ∧ Built w child ∧
      ∀ (env : Env) (level : slog.Level) (msg : String) (out : slog.Output),
        (l.logger.Enabled level = false →
          l.log env level msg [] out = .ok out ∧ child.log env level msg [] out = .ok out) ∧
        (l.logger.Enabled level = true →
          ∃ ms ms2, l.log env level msg [] out = .ok (out.write w (.record ms)) ∧
            member TraceKey ms = none ∧
            fieldMember TraceKey ms = none ∧
            child.log env level msg [] out = .ok (out.write w (.record ms2)) ∧
            member TraceKey ms2 = some (.str id) ∧
            fieldMember TraceKey ms2 = some (.str id)) := by
  obtain ⟨h1, h2, h3, h4⟩ := Built_inv w l hb
  have hw := WithTrace_ok l id h3
  have hexact : ∀ a ∈ l.logger.handler.preformattedAttrs, a.Key ≠ TraceKey :=
    fun a ha e => hno a ha (by rw [e])
  refine ⟨_, hw, Built.withArgs l _ _ hb hw, ?_⟩
  intro env level msg out
  have hl := log_record l env level msg out h3 h4
  have hc := log_record
    { w := l.w
      logger := ⟨{ l.logger.handler with
        preformattedAttrs :=
          l.logger.handler.preformattedAttrs ++ [⟨TraceKey, .str id⟩] }⟩ }
    env level msg out h3 h4
  have hen2 : slog.Logger.Enabled ⟨{ l.logger.handler with
      preformattedAttrs :=
        l.logger.handler.preformattedAttrs ++ [⟨TraceKey, .str id⟩] }⟩ level
      = l.logger.Enabled level := rfl
  rw [hen2] at hc
  have hallExact : ∀ a ∈ builtinMembers env level msg ++ l.logger.handler.preformattedAttrs,
      a.Key ≠ TraceKey := by
    intro a ha
    rw [List.mem_append] at ha
    rcases ha with ha | ha
    · exact builtinMembers_keys env level msg a ha
    · exact hexact a ha
  have hallFolded : ∀ a ∈ builtinMembers env level msg ++ l.logger.handler.preformattedAttrs,
      json.foldName a.Key ≠ json.foldName TraceKey := by
    intro a ha
    rw [List.mem_append] at ha
    rcases ha with ha | ha
    · exact builtinMembers_folded_keys env level msg a ha
    · exact hno a ha
  constructor
  · intro hdis
    rw [hdis] at hl hc
    exact ⟨hl, hc⟩
  · intro hen
    rw [hen] at hl hc
    simp only [if_true] at hl hc
    rw [h2] at hl
    refine ⟨_, (builtinMembers env level msg ++ l.logger.handler.preformattedAttrs)
      ++ [⟨TraceKey, .str id⟩], hl, member_none _ _ hallExact, fieldMember_none _ _ hallFolded,
      ?_, member_last TraceKey _ _ hallExact, fieldMember_last TraceKey _ _ hallFolded⟩
    rw [hc, List.append_assoc]
    show Except.ok (out.write l.logger.handler.w _) = _
    rw [h2]

/-- C14 (witness): as in the test, an error through `New(w)` decodes with an empty trace
id, and the same error through `New(w).WithTrace("1234")` with the trace id `1234`. -/
theorem trace_id_only_on_child_witness :
    ∃ child, (New 0).WithTrace "1234" = .ok child ∧ Built 0 child ∧
      ∀ (env : Env) (level : slog.Level) (msg : String) (out : slog.Output),
        ((New 0).logger.Enabled level = false →
          (New 0).log env level msg [] out = .ok out ∧
          child.log env level msg [] out = .ok out) ∧
        ((New 0).logger.Enabled level = true →
          ∃ ms ms2, (New 0).log env level msg [] out = .ok (out.write 0 (.record ms)) ∧
            member TraceKey ms = none ∧
            fieldMember TraceKey ms = none ∧
            child.log env level msg [] out = .ok (out.write 0 (.record ms2)) ∧
            member TraceKey ms2 = some (.str "1234") ∧
            fieldMember TraceKey ms2 = some (.str "1234")) :=
  trace_id_only_on_child 0 (New 0) Built.new (fun _ h => nomatch h) "1234"

end log

namespace log

/-! ## C15: `Print` and `Printf` write plain text -/

/-- C15: on every logger, whatever its minimum level, `Printf` makes exactly one write on
the logger's writer, the text `fmt.Sprintf(format, args...)` followed by a line feed, and
`Print` makes exactly one write, the message followed by a line feed; no other writer is
written to and no record is produced. -/
theorem print_writes_plain_text (l : Logger) (lev : Option slog.Leveler) (env : Env)
    (msg format : String) (args : List slog.GoAny) (out : slog.Output) :
    ((l.Printf env format args out) l.w =
        out l.w ++ [.text (env.Sprintf format args ++ "\n")] ∧
      ∀ v, v ≠ l.w → (l.Printf env format args out) v = out v) ∧
    ((l.Print msg out) l.w = out l.w ++ [.text (msg ++ "\n")] ∧
      ∀ v, v ≠ l.w → (l.Print msg out) v = out v) ∧
    ((l.SetMinLogLevel lev).Printf env format args out = l.Printf env format args out ∧
      (l.SetMinLogLevel lev).Print msg out = l.Print msg out) := by
  refine ⟨⟨?_, ?_⟩, ⟨?_, ?_⟩, rfl, rfl⟩
  · simp [Logger.Printf, slog.Output.write]
  · intro v hv
    simp [Logger.Printf, slog.Output.write, hv]
  · simp [Logger.Print, slog.Output.write]
  · intro v hv
    simp [Logger.Print, slog.Output.write, hv]

/-- C15 (witness): as in the test, `New(w).Printf("hello %s", "user")` writes
`hello user` and a line feed. -/
theorem print_writes_plain_text_witness :
    ((New 0).Printf refEnv "hello %s" [.string "user"] emptyOutput) 0
      = [.text "hello user\n"] :=
  (print_writes_plain_text (New 0) none refEnv "" "hello %s" [.string "user"]
    emptyOutput).1.1

/-! ## C18: `resolveLogLevel` on a `level` attribute that holds no level -/

/-- C18 (failing input): on the attribute `level = "x"`, as attached by
`logger.With("level", "x")`, `resolveLogLevel` panics, and so does that call of `With`
on a new logger. -/
theorem resolveLogLevel_panics_on_foreign_level :
    resolveLogLevel [] ⟨"level", .str "x"⟩ =
      .error "interface conversion: interface \x7b\x7d is not slog.Level" ∧
    (∀ l2, (New 0).With [.any (.string "level"), .any (.string "x")] ≠ .ok l2) := by
  refine ⟨rfl, ?_⟩
  intro l2 h
  have : (New 0).With [.any (.string "level"), .any (.string "x")] =
      .error "interface conversion: interface \x7b\x7d is not slog.Level" := rfl
  rw [this] at h
  cases h

/-! ## C19: `resolveLogLevel` rewrites the fatal level only -/

/-- C19: whatever the groups, `resolveLogLevel` returns a `level` attribute that holds
`LevelFatal` with the string value `FATAL` and the same key, returns every attribute with
another key unchanged, and returns every `level` attribute that holds another `slog.Level`
unchanged. -/
theorem resolveLogLevel_rewrites_fatal_only (groups : List String) :
    resolveLogLevel groups ⟨slog.LevelKey, .any (.level LevelFatal)⟩ =
      .ok ⟨slog.LevelKey, .str "FATAL"⟩ ∧
    (∀ a : slog.Attr, a.Key ≠ slog.LevelKey → resolveLogLevel groups a = .ok a) ∧
    (∀ level : slog.Level, level ≠ LevelFatal →
      resolveLogLevel groups ⟨slog.LevelKey, .any (.level level)⟩ =
        .ok ⟨slog.LevelKey, .any (.level level)⟩) := by
  refine ⟨rfl, ?_, ?_⟩
  · intro a ha
    simp [resolveLogLevel, ha]
  · intro level hl
    simp [resolveLogLevel, slog.Value.Any, slog.GoAny.assertLevel, hl]

/-- C19 (witness): the attribute `msg` and the level `LevelError` come back unchanged, in
a group as well. -/
theorem resolveLogLevel_rewrites_fatal_only_witness :
    resolveLogLevel ["g"] ⟨"msg", .str "hello"⟩ = .ok ⟨"msg", .str "hello"⟩ ∧
    resolveLogLevel ["g"] ⟨"level", .any (.level slog.LevelError)⟩ =
      .ok ⟨"level", .any (.level slog.LevelError)⟩ :=
  ⟨(resolveLogLevel_rewrites_fatal_only ["g"]).2.1 ⟨"msg", .str "hello"⟩ (by decide),
   (resolveLogLevel_rewrites_fatal_only ["g"]).2.2 slog.LevelError (by decide)⟩

/-! ## C20: the minimum level after `SetMinLogLevel` -/

/-- C20: after `l.SetMinLogLevel(lev)` a logging call at level `L` writes one record, made
of the built-in members, to the logger's writer when `L >= lev.Level()`, and leaves the
output unchanged otherwise, so it writes a record if and only if `L >= lev.Level()`. The
`MinLevel` values are ordered -4 < 0 < 4 < 8 < 12, `MinLevel.Level` returns the wrapped
level, and a call that writes under a minimum level writes under every lower one. -/
theorem min_level_gates_records (l : Logger) (lev lev2 : slog.Leveler) (env : Env)
    (level : slog.Level) (msg : String) (out : slog.Output) :
    ((l.SetMinLogLevel (some lev)).log env level msg [] out =
      if level ≥ lev.Level then
        .ok (out.write l.w (.record (builtinMembers env level msg)))
      else .ok out) ∧
    ((∃ members, (l.SetMinLogLevel (some lev)).log env level msg [] out =
        .ok (out.write l.w (.record members))) ↔ level ≥ lev.Level) ∧
    (MinLevelDebug.Level = -4 ∧ MinLevelInfo.Level = 0 ∧ MinLevelWarn.Level = 4 ∧
      MinLevelError.Level = 8 ∧ MinLevelFatal.Level = 12 ∧
      MinLevelDebug.Level < MinLevelInfo.Level ∧ MinLevelInfo.Level < MinLevelWarn.Level ∧
      MinLevelWarn.Level < MinLevelError.Level ∧
      MinLevelError.Level < MinLevelFatal.Level) ∧
    (∀ ml : MinLevel, ml.Level = ml.level ∧ ml.toLeveler.Level = ml.level) ∧
    (lev.Level ≤ lev2.Level →
      (∃ members, (l.SetMinLogLevel (some lev2)).log env level msg [] out =
        .ok (out.write l.w (.record members))) →
      ∃ members, (l.SetMinLogLevel (some lev)).log env level msg [] out =
        .ok (out.write l.w (.record members))) := by
  have value : ∀ v : slog.Leveler, (l.SetMinLogLevel (some v)).log env level msg [] out =
      if level ≥ v.Level then
        .ok (out.write l.w (.record (builtinMembers env level msg)))
      else .ok out := by
    intro v
    rw [log_record _ env level msg out rfl rfl]
    simp only [Logger.SetMinLogLevel, slog.New, slog.NewJSONHandler, slog.Logger.Enabled,
      slog.JSONHandler.Enabled, List.append_nil, decide_eq_true_eq]
  have writes : ∀ v : slog.Leveler,
      (∃ members, (l.SetMinLogLevel (some v)).log env level msg [] out =
        .ok (out.write l.w (.record members))) ↔ level ≥ v.Level := by
    intro v
    rw [value v]
    constructor
    · rintro ⟨members, h⟩
      by_contra hlt
      rw [if_neg hlt] at h
      have h2 := congrFun (Except.ok.inj h) l.w
      have h3 := congrArg List.length h2
      simp [slog.Output.write] at h3
    · intro hge
      rw [if_pos hge]
      exact ⟨_, rfl⟩
  refine ⟨value lev, writes lev, by decide, fun ml => ⟨rfl, rfl⟩, ?_⟩
  intro hle h2
  have := (writes lev2).1 h2
  exact (writes lev).2 (le_trans hle this)

/-- C20 (witness): with the minimum level `MinLevelWarn`, an info message writes nothing
and an error message writes one record. -/
theorem min_level_gates_records_witness :
    ((New 0).SetMinLogLevel (some MinLevelWarn.toLeveler)).Info refEnv "hello" emptyOutput
      = .ok emptyOutput ∧
    (∃ members,
      ((New 0).SetMinLogLevel (some MinLevelWarn.toLeveler)).Error refEnv "hello" emptyOutput
        = .ok (emptyOutput.write 0 (.record members))) :=
  ⟨((min_level_gates_records (New 0) MinLevelWarn.toLeveler MinLevelWarn.toLeveler refEnv
      slog.LevelInfo "hello" emptyOutput).1).trans (if_neg (by decide)),
   (min_level_gates_records (New 0) MinLevelWarn.toLeveler MinLevelWarn.toLeveler refEnv
      slog.LevelError "hello" emptyOutput).2.1.2 (by decide)⟩

end log

namespace controlclient

/-! ## C22: `DeleteAccount` and `DeleteTenant` -/

/-- The outcome of `DeleteAccount` in terms of the answer to its request. -/
theorem DeleteAccount_outcome (pk : Packages)
    (unmarshal : String → DeleteResult → Except String DeleteResult) (c : Client)
    (accountID : String) (net : List Request) :
    ((∀ resp, ¬ answered c net (DeleteAccount pk unmarshal c accountID net).2 resp) ∧
      (DeleteAccount pk unmarshal c accountID net).1 ≠ none) ∨
    (∃ resp, answered c net (DeleteAccount pk unmarshal c accountID net).2 resp ∧
      (DeleteAccount pk unmarshal c accountID net).1 =
        deleteResult (parseResponse unmarshal resp (some DeleteResult.zero))) := by
  have hiff := doRequest_ok_iff pk c "DELETE" ("/api/v1/accounts/" ++ accountID) none net
  unfold DeleteAccount
  simp only
  rcases h : doRequest pk c "DELETE" ("/api/v1/accounts/" ++ accountID) none net
    with ⟨r, net1⟩
  rw [h] at hiff
  cases r with
  | error e =>
    left
    refine ⟨?_, by simp⟩
    intro resp hr
    have := (hiff resp).2 hr
    cases this
  | ok resp =>
    right
    have hans : answered c net net1 resp := (hiff resp).1 rfl
    simp only
    refine ⟨resp, ?_, ?_⟩
    · split
      · exact hans
      · split <;> exact hans
    · unfold deleteResult
      split
      · simp_all
      · split <;> simp_all

/-- The outcome of `DeleteTenant` in terms of the answer to its request. -/
theorem DeleteTenant_outcome (pk : Packages)
    (unmarshal : String → DeleteResult → Except String DeleteResult) (c : Client)
    (accountID tenantID : String) (net : List Request) :
    ((∀ resp, ¬ answered c net (DeleteTenant pk unmarshal c accountID tenantID net).2 resp) ∧
      (DeleteTenant pk unmarshal c accountID tenantID net).1 ≠ none) ∨
    (∃ resp, answered c net (DeleteTenant pk unmarshal c accountID tenantID net).2 resp ∧
      (DeleteTenant pk unmarshal c accountID tenantID net).1 =
        deleteResult (parseResponse unmarshal resp (some DeleteResult.zero))) := by
  have hiff := doRequest_ok_iff pk c "DELETE"
    ("/api/v1/accounts/" ++ accountID ++ "/tenants/" ++ tenantID) none net
  unfold DeleteTenant
  simp only
  rcases h : doRequest pk c "DELETE"
    ("/api/v1/accounts/" ++ accountID ++ "/tenants/" ++ tenantID) none net with ⟨r, net1⟩
  rw [h] at hiff
  cases r with
  | error e =>
    left
    refine ⟨?_, by simp⟩
    intro resp hr
    have := (hiff resp).2 hr
    cases this
  | ok resp =>
    right
    have hans : answered c net net1 resp := (hiff resp).1 rfl
    simp only
    refine ⟨resp, ?_, ?_⟩
    · split
      · exact hans
      · split <;> exact hans
    · unfold deleteResult
      split
      · simp_all
      · split <;> simp_all

/-- What a delete method makes of a response: nil exactly when the status is below 400,
the body is read and decodes, and the decoded result is a success. -/
theorem deleteResult_none_iff (unmarshal : String → DeleteResult → Except String DeleteResult)
    (resp : Response) :
    deleteResult (parseResponse unmarshal resp (some DeleteResult.zero)) = none ↔
      ∃ body r, resp.StatusCode < 400 ∧ resp.Body = .ok body ∧
        unmarshal body DeleteResult.zero = .ok r ∧ r.Success = true := by
  unfold parseResponse deleteResult
  cases hb : resp.Body with
  | error e => simp
  | ok body =>
    simp only
    by_cases hs : resp.StatusCode ≥ 400
    · rw [if_pos hs]
      simp only [reduceCtorEq, false_iff, not_exists, not_and]
      intro b r hlt
      omega
    · rw [if_neg hs]
      cases hu : unmarshal body DeleteResult.zero with
      | error e => simp [hu]
      | ok filled =>
        simp only [Option.getD_some]
        constructor
        · intro h
          refine ⟨body, filled, by omega, rfl, hu, ?_⟩
          cases hf : filled.Success with
          | true => rfl
          | false => simp [hf] at h
        · rintro ⟨b, r, -, hb2, hu2, hr⟩
          cases hb2
          rw [hu] at hu2
          cases hu2
          simp [hr]

/-- What a delete method makes of a response with a status below 400 whose body decodes
into a result that is not a success: `delete failed: ` followed by the message. -/
theorem deleteResult_failed (unmarshal : String → DeleteResult → Except String DeleteResult)
    (resp : Response) (body : String) (r : DeleteResult) (hs : resp.StatusCode < 400)
    (hb : resp.Body = .ok body) (hu : unmarshal body DeleteResult.zero = .ok r)
    (hf : r.Success = false) :
    deleteResult (parseResponse unmarshal resp (some DeleteResult.zero))
      = some ("delete failed: " ++ r.Message) := by
  unfold parseResponse deleteResult
  rw [hb]
  simp only
  rw [if_neg (by omega)]
  simp [hu, hf]

/-- The facts about a delete method that follow from its outcome. -/
theorem delete_facts (unmarshal : String → DeleteResult → Except String DeleteResult)
    (c : Client) (net : List Request) (out : Option String × List Request)
    (h : ((∀ resp, ¬ answered c net out.2 resp) ∧ out.1 ≠ none) ∨
      (∃ resp, answered c net out.2 resp ∧
        out.1 = deleteResult (parseResponse unmarshal resp (some DeleteResult.zero)))) :
    (out.1 = none ↔ ∃ resp body r, answered c net out.2 resp ∧ resp.StatusCode < 400 ∧
      resp.Body = .ok body ∧ unmarshal body DeleteResult.zero = .ok r ∧ r.Success = true) ∧
    (∀ resp body r, answered c net out.2 resp → resp.StatusCode < 400 →
      resp.Body = .ok body → unmarshal body DeleteResult.zero = .ok r → r.Success = false →
      out.1 = some ("delete failed: " ++ r.Message)) := by
  rcases h with ⟨hno, herr⟩ | ⟨resp, hans, hout⟩
  · refine ⟨⟨fun h0 => absurd h0 herr, ?_⟩, ?_⟩
    · rintro ⟨resp, _, _, hans, -⟩
      exact absurd hans (hno resp)
    · intro resp _ _ hans
      exact absurd hans (hno resp)
  · constructor
    · rw [hout, deleteResult_none_iff]
      constructor
      · rintro ⟨body, r, h1, h2, h3, h4⟩
        exact ⟨resp, body, r, hans, h1, h2, h3, h4⟩
      · rintro ⟨resp2, body, r, hans2, h1, h2, h3, h4⟩
        have := answered_unique c net out.2 resp2 resp hans2 hans
        subst this
        exact ⟨body, r, h1, h2, h3, h4⟩
    · intro resp2 body r hans2 hs hb hu hf
      have := answered_unique c net out.2 resp2 resp hans2 hans
      subst this
      rw [hout]
      exact deleteResult_failed unmarshal resp2 body r hs hb hu hf

/-- C22: `DeleteAccount` and `DeleteTenant` return nil if and only if their request was
answered with a status below 400 and a body that decodes into a result whose `success`
field is true. When the answer has a status below 400 and its body decodes into a result
whose `success` field is false, as it is for a body without that field, which leaves the
zero value, the error is `delete failed: ` followed by the decoded `message` field. -/
theorem delete_nil_iff_decoded_success (pk : Packages)
    (unmarshal : String → DeleteResult → Except String DeleteResult) (c : Client)
    (accountID tenantID : String) (net : List Request) :
    (((DeleteAccount pk unmarshal c accountID net).1 = none ↔
        ∃ resp body r, answered c net (DeleteAccount pk unmarshal c accountID net).2 resp ∧
          resp.StatusCode < 400 ∧ resp.Body = .ok body ∧
          unmarshal body DeleteResult.zero = .ok r ∧ r.Success = true) ∧
      (∀ resp body r, answered c net (DeleteAccount pk unmarshal c accountID net).2 resp →
        resp.StatusCode < 400 → resp.Body = .ok body →
        unmarshal body DeleteResult.zero = .ok r → r.Success = false →
        (DeleteAccount pk unmarshal c accountID net).1
          = some ("delete failed: " ++ r.Message))) ∧
    (((DeleteTenant pk unmarshal c accountID tenantID net).1 = none ↔
        ∃ resp body r,
          answered c net (DeleteTenant pk unmarshal c accountID tenantID net).2 resp ∧
          resp.StatusCode < 400 ∧ resp.Body = .ok body ∧
          unmarshal body DeleteResult.zero = .ok r ∧ r.Success = true) ∧
      (∀ resp body r,
        answered c net (DeleteTenant pk unmarshal c accountID tenantID net).2 resp →
        resp.StatusCode < 400 → resp.Body = .ok body →
        unmarshal body DeleteResult.zero = .ok r → r.Success = false →
        (DeleteTenant pk unmarshal c accountID tenantID net).1
          = some ("delete failed: " ++ r.Message))) ∧
    DeleteResult.zero.Success = false ∧ DeleteResult.zero.Message = "" :=
  ⟨delete_facts unmarshal c net _ (DeleteAccount_outcome pk unmarshal c accountID net),
   delete_facts unmarshal c net _ (DeleteTenant_outcome pk unmarshal c accountID tenantID net),
   rfl, rfl⟩

/-- C22 (witness): a service answering 200 with `success` true makes `DeleteAccount` return
nil; answering 200 with the empty object, which leaves the zero result, makes it and
`DeleteTenant` return `delete failed: ` with an empty message; answering 200 with
`success` false and the message `in use` makes `DeleteTenant` return
`delete failed: in use`. -/
theorem delete_nil_iff_decoded_success_witness :
    (DeleteAccount refPackages refUnmarshalDelete
      (clientOf 200 "\x7b\"success\":true,\"message\":\"deleted\"\x7d") "acc1" []).1 = none ∧
    (DeleteAccount refPackages refUnmarshalDelete (clientOf 200 "\x7b\x7d") "acc1" []).1
      = some ("delete failed: " ++ "") ∧
    (DeleteTenant refPackages refUnmarshalDelete
      (clientOf 200 "\x7b\"success\":false,\"message\":\"in use\"\x7d") "acc1" "t1" []).1
      = some ("delete failed: " ++ "in use") :=
  ⟨(delete_nil_iff_decoded_success refPackages refUnmarshalDelete
      (clientOf 200 "\x7b\"success\":true,\"message\":\"deleted\"\x7d") "acc1" "t1" []).1.1.2
      ⟨⟨200, .ok "\x7b\"success\":true,\"message\":\"deleted\"\x7d"⟩, _, ⟨true, "deleted"⟩,
        ⟨_, rfl, rfl⟩, by decide, rfl, rfl, rfl⟩,
   (delete_nil_iff_decoded_success refPackages refUnmarshalDelete
      (clientOf 200 "\x7b\x7d") "acc1" "t1" []).1.2
      ⟨200, .ok "\x7b\x7d"⟩ "\x7b\x7d" DeleteResult.zero ⟨_, rfl, rfl⟩ (by decide) rfl rfl rfl,
   (delete_nil_iff_decoded_success refPackages refUnmarshalDelete
      (clientOf 200 "\x7b\"success\":false,\"message\":\"in use\"\x7d") "acc1" "t1" []).2.1.2
      ⟨200, .ok "\x7b\"success\":false,\"message\":\"in use\"\x7d"⟩ _ ⟨false, "in use"⟩
      ⟨_, rfl, rfl⟩ (by decide) rfl rfl rfl⟩

end controlclient

namespace controlclient

/-! ## C23: the path of `CheckFileLock` -/

/-- The code point of a character is below 0x110000. -/
theorem code_lt (c : Char) : c.toNat < 0x110000 := by
  have h := c.valid
  simp only [UInt32.isValidChar, Nat.isValidChar] at h
  show c.val.toNat < 0x110000
  omega

/-- Every byte of the UTF-8 form of a character is below 256. -/
theorem utf8Bytes_lt (c : Char) : ∀ b ∈ utf8Bytes c, b < 256 := by
  have hc := code_lt c
  intro b hb
  unfold utf8Bytes at hb
  simp only at hb
  split_ifs at hb <;> simp at hb <;> omega

/-- The UTF-8 form of an ASCII character is its code. -/
theorem utf8Bytes_ascii (c : Char) (h : c.toNat < 128) : utf8Bytes c = [c.toNat] := by
  unfold utf8Bytes
  simp [h]

/-- The UTF-8 forms of characters are prefix-free: equal byte strings start with the same
character. -/
theorem utf8Bytes_head_inj (c d : Char) (r s : List Nat)
    (h : utf8Bytes c ++ r = utf8Bytes d ++ s) : c = d ∧ r = s := by
  have hc := code_lt c
  have hd := code_lt d
  have key : c.toNat = d.toNat ∧ r = s := by
    unfold utf8Bytes at h
    simp only at h
    split_ifs at h <;> simp at h <;>
      first
        | (exfalso; omega)
        | exact ⟨by omega, by simp [h]⟩
  refine ⟨?_, key.2⟩
  rw [← Char.ofNat_toNat c, ← Char.ofNat_toNat d, key.1]

/-- The bytes of a string determine the string. -/
theorem bytesOf_injective : ∀ s t : String, bytesOf s = bytesOf t → s = t := by
  have key : ∀ xs ys : List Char, xs.flatMap utf8Bytes = ys.flatMap utf8Bytes → xs = ys := by
    intro xs
    induction xs with
    | nil =>
      intro ys h
      cases ys with
      | nil => rfl
      | cons y ys =>
        exfalso
        simp only [List.flatMap_nil, List.flatMap_cons] at h
        have := congrArg List.length h
        unfold utf8Bytes at this
        simp only at this
        split_ifs at this <;> simp at this
    | cons x xs ih =>
      intro ys h
      cases ys with
      | nil =>
        exfalso
        simp only [List.flatMap_nil, List.flatMap_cons] at h
        have := congrArg List.length h
        unfold utf8Bytes at this
        simp only at this
        split_ifs at this <;> simp at this
      | cons y ys =>
        simp only [List.flatMap_cons] at h
        obtain ⟨h1, h2⟩ := utf8Bytes_head_inj x y _ _ h
        rw [h1, ih ys h2]
  intro s t h
  exact String.ext (key s.toList t.toList h)

/-- A hexadecimal digit written by `upperhex` is an ASCII character other than the three
separators, and `unhex` reads its value back. -/
theorem upperhex_spec : ∀ n, n < 16 →
    (upperhex n).toNat < 128 ∧ (upperhex n).toNat ≠ 47 ∧ (upperhex n).toNat ≠ 63 ∧
      (upperhex n).toNat ≠ 35 ∧ (upperhex n).toNat ≠ 37 ∧
      ishex (upperhex n).toNat = true ∧ unhex (upperhex n).toNat = n := by
  decide

/-- A byte that a path segment keeps is an ASCII character other than `/`, `?`, `#`
and `%`. -/
theorem kept_byte_spec : ∀ b, b < 256 → shouldEscape b .encodePathSegment = false →
    (Char.ofNat b).toNat = b ∧ b < 128 ∧ b ≠ 47 ∧ b ≠ 63 ∧ b ≠ 35 ∧ b ≠ 37 := by
  decide

/-- The escaping of one byte in a path segment: ASCII characters only, none of them a
separator. -/
theorem escapeByte_chars (b : Nat) (hb : b < 256) :
    ∀ ch ∈ escapeByte .encodePathSegment b,
      ch.toNat < 128 ∧ ch.toNat ≠ 47 ∧ ch.toNat ≠ 63 ∧ ch.toNat ≠ 35 := by
  intro ch hch
  unfold escapeByte at hch
  simp only [reduceCtorEq, and_false, if_false] at hch
  by_cases hs : shouldEscape b .encodePathSegment = true
  · rw [if_pos hs] at hch
    have h1 := upperhex_spec (b / 16) (by omega)
    have h2 := upperhex_spec (b % 16) (by omega)
    simp only [List.mem_cons, List.mem_singleton, List.not_mem_nil, or_false] at hch
    rcases hch with rfl | rfl | rfl
    · decide
    · exact ⟨h1.1, h1.2.1, h1.2.2.1, h1.2.2.2.1⟩
    · exact ⟨h2.1, h2.2.1, h2.2.2.1, h2.2.2.2.1⟩
  · rw [if_neg hs] at hch
    have h := kept_byte_spec b hb (by simpa using hs)
    simp only [List.mem_singleton] at hch
    subst hch
    rw [h.1]
    exact ⟨h.2.1, h.2.2.1, h.2.2.2.1, h.2.2.2.2.1⟩

/-- Unescaping undoes the escaping of one byte in front of any rest. -/
theorem unescape_escapeByte (b : Nat) (hb : b < 256) (rest : List Nat) :
    unescape ((escapeByte .encodePathSegment b).map Char.toNat ++ rest) .encodePathSegment
      = (unescape rest .encodePathSegment).map (fun bs => b :: bs) := by
  unfold escapeByte
  simp only [reduceCtorEq, and_false, if_false]
  by_cases hs : shouldEscape b .encodePathSegment = true
  · rw [if_pos hs]
    have h1 := upperhex_spec (b / 16) (by omega)
    have h2 := upperhex_spec (b % 16) (by omega)
    have h37 : ('%' : Char).toNat = 37 := by decide
    simp only [List.map_cons, List.map_nil, List.cons_append, List.nil_append, h37]
    rw [unescape]
    simp only [h1.2.2.2.2.2.1, h1.2.2.2.2.2.2, h2.2.2.2.2.2.1, h2.2.2.2.2.2.2, Bool.and_self,
      if_true]
    have hval : b / 16 * 16 + b % 16 = b := by omega
    rw [hval]
    cases unescape rest .encodePathSegment <;> rfl
  · rw [if_neg hs]
    have h := kept_byte_spec b hb (by simpa using hs)
    simp only [List.map_cons, List.map_nil, List.cons_append, List.nil_append, h.1]
    have hne : b ≠ 37 := h.2.2.2.2.2
    rw [unescape]
    · simp only [reduceCtorEq, and_false, if_false]
      cases unescape rest .encodePathSegment <;> rfl
    all_goals (intros; omega)

/-- The bytes of a string of ASCII characters are the codes of its characters. -/
theorem bytesOf_ascii (cs : List Char) (h : ∀ ch ∈ cs, ch.toNat < 128) :
    bytesOf (String.mk cs) = cs.map Char.toNat := by
  show cs.flatMap utf8Bytes = cs.map Char.toNat
  induction cs with
  | nil => rfl
  | cons c cs ih =>
    rw [List.flatMap_cons, List.map_cons, utf8Bytes_ascii c (h c (List.mem_cons_self _ _)),
      ih (fun ch hch => h ch (List.mem_cons_of_mem _ hch))]
    rfl

/-- Every byte of a string is below 256. -/
theorem bytesOf_lt (s : String) : ∀ b ∈ bytesOf s, b < 256 := by
  intro b hb
  unfold bytesOf at hb
  rw [List.mem_flatMap] at hb
  obtain ⟨c, _, hc⟩ := hb
  exact utf8Bytes_lt c b hc

/-- The characters of a path-escaped string are ASCII, and none of them is `/`, `?`
or `#`. -/
theorem PathEscape_chars (s : String) :
    ∀ ch ∈ (PathEscape s).toList,
      ch.toNat < 128 ∧ ch.toNat ≠ 47 ∧ ch.toNat ≠ 63 ∧ ch.toNat ≠ 35 := by
  intro ch hch
  have hch2 : ch ∈ (bytesOf s).flatMap (escapeByte .encodePathSegment) := hch
  rw [List.mem_flatMap] at hch2
  obtain ⟨b, hb, hc⟩ := hch2
  exact escapeByte_chars b (bytesOf_lt s b hb) ch hc

/-- Unescaping undoes the escaping of a list of bytes. -/
theorem unescape_escape_bytes (bs : List Nat) (h : ∀ b ∈ bs, b < 256) :
    unescape ((bs.flatMap (escapeByte .encodePathSegment)).map Char.toNat) .encodePathSegment
      = some bs := by
  induction bs with
  | nil => simp [unescape]
  | cons b bs ih =>
    rw [List.flatMap_cons, List.map_append,
      unescape_escapeByte b (h b (List.mem_cons_self _ _)),
      ih (fun x hx => h x (List.mem_cons_of_mem _ hx))]
    rfl

/-- Path-unescaping a path-escaped string gives the bytes of the string back. -/
theorem PathUnescape_PathEscape (s : String) :
    PathUnescape (PathEscape s) = some (bytesOf s) := by
  unfold PathUnescape
  have h1 : bytesOf (PathEscape s)
      = ((bytesOf s).flatMap (escapeByte .encodePathSegment)).map Char.toNat :=
    bytesOf_ascii _ (fun ch hch => (PathEscape_chars s ch hch).1)
  rw [h1]
  exact unescape_escape_bytes _ (bytesOf_lt s)

/-- Distinct strings have distinct path escapings. -/
theorem PathEscape_injective (s t : String) (h : PathEscape s = PathEscape t) : s = t := by
  have h1 := PathUnescape_PathEscape s
  rw [h, PathUnescape_PathEscape t] at h1
  exact (bytesOf_injective s t (Option.some.inj h1).symm)

/-- The characters `/`, `?` and `#` do not occur in a path-escaped string. -/
theorem PathEscape_separators (s : String) :
    '/' ∉ (PathEscape s).toList ∧ '?' ∉ (PathEscape s).toList ∧
      '#' ∉ (PathEscape s).toList := by
  refine ⟨fun h => ?_, fun h => ?_, fun h => ?_⟩
  · exact (PathEscape_chars s _ h).2.1 (by decide)
  · exact (PathEscape_chars s _ h).2.2.1 (by decide)
  · exact (PathEscape_chars s _ h).2.2.2 (by decide)

/-- The part of the path that follows the prefix splits at `/` into the tenant, the
dataset and the escaped file key. -/
theorem file_path_segments (tenantID datasetID fileKey : String)
    (ht : '/' ∉ tenantID.toList) (hd : '/' ∉ datasetID.toList) :
    (tenantID ++ "/" ++ datasetID ++ "/" ++ PathEscape fileKey).toList.splitOn '/'
      = [tenantID.toList, datasetID.toList, (PathEscape fileKey).toList] := by
  have h := List.splitOn_intercalate
    [tenantID.toList, datasetID.toList, (PathEscape fileKey).toList] '/'
    (by
      intro l hl
      simp only [List.mem_cons, List.mem_singleton, List.not_mem_nil, or_false] at hl
      rcases hl with rfl | rfl | rfl
      · exact ht
      · exact hd
      · exact (PathEscape_separators fileKey).1)
    (by simp)
  rw [← h]
  congr 1
  simp [List.intercalate, String.toList]

/-- Paths built from two triples are equal only when the triples are. -/
theorem file_path_inj (tenantID datasetID fileKey tenantID2 datasetID2 fileKey2 : String)
    (ht : '/' ∉ tenantID.toList) (hd : '/' ∉ datasetID.toList)
    (ht2 : '/' ∉ tenantID2.toList) (hd2 : '/' ∉ datasetID2.toList)
    (h : "/api/v1/piper/locks/files/" ++ tenantID ++ "/" ++ datasetID ++ "/"
        ++ PathEscape fileKey
      = "/api/v1/piper/locks/files/" ++ tenantID2 ++ "/" ++ datasetID2 ++ "/"
        ++ PathEscape fileKey2) :
    tenantID = tenantID2 ∧ datasetID = datasetID2 ∧ fileKey = fileKey2 := by
  have hdata := congrArg String.data h
  simp only [String.data_append, List.append_assoc] at hdata
  have h1 := List.append_cancel_left hdata
  simp only [List.singleton_append] at h1
  obtain ⟨e1, h2⟩ := append_separator_inj '/' _ _ _ _ ht ht2 h1
  obtain ⟨e2, h3⟩ := append_separator_inj '/' _ _ _ _ hd hd2 h2
  exact ⟨String.ext e1, String.ext e2, PathEscape_injective _ _ (String.ext h3)⟩

/-! ### The request target of a path made of valid bytes -/

/-- The bytes of two strings put together. -/
theorem bytesOf_append (s t : String) : bytesOf (s ++ t) = bytesOf s ++ bytesOf t := by
  simp [bytesOf, String.toList, String.data_append, List.flatMap_append]

/-- Unescaping passes over bytes other than `%`, outside query components. -/
theorem unescape_append_plain (m : encoding) (hm : m ≠ .encodeQueryComponent) :
    ∀ (xs ys : List Nat), 37 ∉ xs →
      unescape (xs ++ ys) m = (unescape ys m).map (fun bs => xs ++ bs) := by
  intro xs
  induction xs with
  | nil => intro ys _; simp
  | cons b xs ih =>
    intro ys h
    simp only [List.mem_cons, not_or] at h
    have hb : b ≠ 37 := fun e => h.1 e.symm
    rw [List.cons_append, unescape]
    · rw [ih ys h.2]
      simp only [hm, and_false, if_false]
      cases unescape ys m <;> rfl
    all_goals (intros; omega)

/-- Unescaping as a path undoes the escaping of one byte as a path segment. -/
theorem unescape_escapeByte_path (b : Nat) (hb : b < 256) (rest : List Nat) :
    unescape ((escapeByte .encodePathSegment b).map Char.toNat ++ rest) .encodePath
      = (unescape rest .encodePath).map (fun bs => b :: bs) := by
  unfold escapeByte
  simp only [reduceCtorEq, and_false, if_false]
  by_cases hs : shouldEscape b .encodePathSegment = true
  · rw [if_pos hs]
    have h1 := upperhex_spec (b / 16) (by omega)
    have h2 := upperhex_spec (b % 16) (by omega)
    have h37 : ('%' : Char).toNat = 37 := by decide
    simp only [List.map_cons, List.map_nil, List.cons_append, List.nil_append, h37]
    rw [unescape]
    simp only [h1.2.2.2.2.2.1, h1.2.2.2.2.2.2, h2.2.2.2.2.2.1, h2.2.2.2.2.2.2, Bool.and_self,
      if_true]
    have hval : b / 16 * 16 + b % 16 = b := by omega
    rw [hval]
    cases unescape rest .encodePath <;> rfl
  · rw [if_neg hs]
    have h := kept_byte_spec b hb (by simpa using hs)
    simp only [List.map_cons, List.map_nil, List.cons_append, List.nil_append, h.1]
    have hne : b ≠ 37 := h.2.2.2.2.2
    rw [unescape]
    · simp only [reduceCtorEq, and_false, if_false]
      cases unescape rest .encodePath <;> rfl
    all_goals (intros; omega)

/-- Unescaping as a path undoes the escaping of a list of bytes as a path segment, in
front of any rest. -/
theorem unescape_escapeBytes_path (bs : List Nat) (h : ∀ b ∈ bs, b < 256) (rest : List Nat) :
    unescape (escapeBytes bs .encodePathSegment ++ rest) .encodePath
      = (unescape rest .encodePath).map (fun xs => bs ++ xs) := by
  unfold escapeBytes
  induction bs with
  | nil => simp
  | cons b bs ih =>
    rw [List.flatMap_cons, List.map_append, List.append_assoc,
      unescape_escapeByte_path b (h b (List.mem_cons_self _ _)),
      ih (fun x hx => h x (List.mem_cons_of_mem _ hx))]
    cases unescape rest .encodePath <;> rfl

/-- The escaping of a byte as a path segment is made of bytes valid in an encoded path. -/
theorem escapeByte_valid : ∀ b, b < 256 →
    validEncoded ((escapeByte .encodePathSegment b).map Char.toNat) .encodePath = true := by
  decide

/-- The escaping of a list of bytes as a path segment is valid in an encoded path. -/
theorem escapeBytes_valid (bs : List Nat) (h : ∀ b ∈ bs, b < 256) :
    validEncoded (escapeBytes bs .encodePathSegment) .encodePath = true := by
  unfold escapeBytes validEncoded
  rw [List.all_eq_true]
  intro c hc
  rw [List.mem_map] at hc
  obtain ⟨ch, hch, rfl⟩ := hc
  rw [List.mem_flatMap] at hch
  obtain ⟨b, hb, hin⟩ := hch
  have hv := escapeByte_valid b (h b hb)
  unfold validEncoded at hv
  rw [List.all_eq_true] at hv
  exact hv ch.toNat (List.mem_map_of_mem _ hin)

/-- Validity in an encoded path goes byte by byte. -/
theorem validEncoded_append (xs ys : List Nat) (m : encoding) :
    validEncoded (xs ++ ys) m = (validEncoded xs m && validEncoded ys m) := by
  simp [validEncoded, List.all_append]

/-- A list of bytes valid in an encoded path holds no `?` and no `#`. -/
theorem validEncoded_separators (xs : List Nat) (h : validEncoded xs .encodePath = true) :
    63 ∉ xs ∧ 35 ∉ xs := by
  unfold validEncoded at h
  rw [List.all_eq_true] at h
  constructor
  · intro hm
    have := h 63 hm
    revert this
    decide
  · intro hm
    have := h 35 hm
    revert this
    decide

/-- The bytes of the escaped key are the escaping of the bytes of the key. -/
theorem bytesOf_PathEscape (s : String) :
    bytesOf (PathEscape s) = escapeBytes (bytesOf s) .encodePathSegment :=
  bytesOf_ascii _ (fun ch hch => (PathEscape_chars s ch hch).1)

/-- The loop of `getScheme` passes over scheme bytes once a byte has been seen and stops
at the colon. -/
theorem getSchemeFrom_scheme (rawURL : List Nat) : ∀ (scheme seen rest : List Nat),
    seen ≠ [] →
    (∀ c ∈ scheme, isLetter c = true ∨ (48 ≤ c ∧ c ≤ 57) ∨ c = 43 ∨ c = 45 ∨ c = 46) →
    getSchemeFrom rawURL seen (scheme ++ 58 :: rest) = some (seen ++ scheme, rest) := by
  intro scheme
  induction scheme with
  | nil =>
    intro seen rest hs _
    simp [getSchemeFrom, isLetter, hs]
  | cons c scheme ih =>
    intro seen rest hs h
    have hc := h c (List.mem_cons_self _ _)
    have ih2 := ih (seen ++ [c]) rest (by simp)
      (fun x hx => h x (List.mem_cons_of_mem _ hx))
    rw [List.cons_append, getSchemeFrom]
    by_cases hl : isLetter c = true
    · rw [if_pos hl, ih2]
      simp
    · rw [if_neg hl]
      have hd : ((48 ≤ c && c ≤ 57) || c = 43 || c = 45 || c = 46) = true := by
        rcases hc with hc | hc | hc | hc | hc
        · exact absurd hc hl
        · simp [hc.1, hc.2]
        · simp [hc]
        · simp [hc]
        · simp [hc]
      rw [if_pos hd, if_neg hs, ih2]
      simp

/-- Dropping the bytes in front of the first `/` removes an authority that holds no `/`
and leaves the path that follows it. -/
theorem dropWhile_authority (authority p : List Nat) (h : ∀ c ∈ authority, c ≠ 47) :
    (authority ++ 47 :: p).dropWhile (· != 47) = 47 :: p := by
  induction authority with
  | nil => simp
  | cons a authority ih =>
    have ha := h a (List.mem_cons_self _ _)
    rw [List.cons_append, List.dropWhile_cons_of_pos (by simpa using ha)]
    exact ih (fun x hx => h x (List.mem_cons_of_mem _ hx))

/-- A list without the separator is taken whole up to the separator. -/
theorem takeWhile_absent (sep : Nat) (xs : List Nat) (h : sep ∉ xs) :
    xs.takeWhile (· != sep) = xs ∧ xs.dropWhile (· != sep) = [] := by
  induction xs with
  | nil => simp
  | cons a xs ih =>
    simp only [List.mem_cons, not_or] at h
    have ha : (a != sep) = true := by simpa using fun e => h.1 e.symm
    simp [List.takeWhile_cons, List.dropWhile_cons, ha, ih h.2]

/-- What `url.Parse` makes of a URL with a scheme, an authority and a path without `?`
and `#`: the path goes to `setPath`. -/
theorem Parse_origin_path (base : String) (hbase : originOnly base) (p : List Nat)
    (h63 : 63 ∉ p) (h35 : 35 ∉ p) :
    ∃ scheme, Parse (bytesOf base ++ 47 :: p)
      = URL.setPath ⟨scheme, [], [], [], false, []⟩ (47 :: p) := by
  obtain ⟨first, scheme, authority, hb, hlen, hfirst, hscheme, hauth⟩ := hbase
  obtain ⟨f, rfl⟩ : ∃ f, first = [f] := by
    cases first with
    | nil => simp at hlen
    | cons f t =>
      cases t with
      | nil => exact ⟨f, rfl⟩
      | cons _ _ => simp at hlen
  have hf : isLetter f = true := hfirst f (List.mem_singleton_self _)
  refine ⟨(f :: scheme).map toLowerByte, ?_⟩
  have hschemeNo : ∀ sep, sep = 63 ∨ sep = 35 → sep ∉ f :: scheme := by
    intro sep hsep hm
    rcases List.mem_cons.1 hm with e | hm2
    · subst e
      rcases hsep with rfl | rfl <;> revert hf <;> decide
    · have := hscheme sep hm2
      rcases hsep with rfl | rfl <;> revert this <;> decide
  have hwhole : ∀ sep, sep = 63 ∨ sep = 35 → sep ∉ p →
      sep ∉ [47, 47] ++ authority ++ 47 :: p := by
    intro sep hsep hp hm
    simp only [List.mem_append, List.mem_cons, List.not_mem_nil, or_false] at hm
    rcases hm with ((e | e) | hm) | e | hm
    · rcases hsep with rfl | rfl <;> omega
    · rcases hsep with rfl | rfl <;> omega
    · have := hauth sep hm
      rcases hsep with rfl | rfl
      · exact this.2.1 rfl
      · exact this.2.2 rfl
    · rcases hsep with rfl | rfl <;> omega
    · exact hp hm
  have hraw : bytesOf base ++ 47 :: p
      = f :: scheme ++ 58 :: ([47, 47] ++ authority ++ 47 :: p) := by
    rw [hb]
    simp
  have hno35 : 35 ∉ bytesOf base ++ 47 :: p := by
    rw [hraw]
    intro hm
    rcases List.mem_append.1 hm with hm | hm
    · exact hschemeNo 35 (Or.inr rfl) hm
    · rcases List.mem_cons.1 hm with e | hm
      · omega
      · exact hwhole 35 (Or.inr rfl) h35 hm
  unfold Parse
  rw [(takeWhile_absent 35 _ hno35).1]
  have hscheme2 : getScheme (bytesOf base ++ 47 :: p)
      = some (f :: scheme, [47, 47] ++ authority ++ 47 :: p) := by
    unfold getScheme
    rw [hraw, List.cons_append, getSchemeFrom, if_pos hf]
    exact getSchemeFrom_scheme _ scheme [f] _ (by simp) hscheme
  have hne : bytesOf base ++ 47 :: p ≠ [42] := by
    rw [hraw]
    intro h
    have := congrArg List.length h
    simp at this
  have h63w := hwhole 63 (Or.inl rfl) h63
  unfold parse
  rw [if_neg hne, hscheme2]
  have hcount : ([47, 47] ++ authority ++ 47 :: p).count 63 = 0 :=
    List.count_eq_zero.2 h63w
  simp only [hcount, (takeWhile_absent 63 _ h63w).1, (takeWhile_absent 63 _ h63w).2]
  simp [dropWhile_authority authority p (fun c hc => (hauth c hc).1)]

/-- The request target of a URL whose path starts with `/`, is valid in an encoded path
and unescapes, and which has no query: the path as it was given to the parser. -/
theorem RequestURI_setPath_valid (scheme p : List Nat)
    (hvalid : validEncoded (47 :: p) .encodePath = true)
    (hun : unescape (47 :: p) .encodePath ≠ none) :
    (URL.setPath ⟨scheme, [], [], [], false, []⟩ (47 :: p)).map URL.RequestURI
      = some (47 :: p) := by
  have hhead := unescape_append_plain .encodePath (by decide) [47] p (by decide)
  rw [List.singleton_append] at hhead
  cases hq : unescape p .encodePath with
  | none =>
    rw [hq] at hhead
    exact absurd hhead hun
  | some q =>
    rw [hq] at hhead
    simp only [Option.map_some', List.singleton_append] at hhead
    unfold URL.setPath
    rw [hhead]
    simp only
    by_cases heq : 47 :: p = escapeBytes (47 :: q) .encodePath
    · rw [if_pos heq]
      simp only [Option.map_some', URL.RequestURI, URL.EscapedPath, ← heq]
      simp
    · rw [if_neg heq]
      simp only [Option.map_some', URL.RequestURI, URL.EscapedPath, hvalid, hhead]
      simp

/-- Validity in an encoded path, byte by byte. -/
theorem validEncoded_iff (xs : List Nat) (m : encoding) :
    validEncoded xs m = true ↔ ∀ c ∈ xs, validEncoded [c] m = true := by
  simp [validEncoded, List.all_eq_true]

/-- A string of path-safe bytes holds none of `/`, `?` and `#`. -/
theorem pathSafe_separatorFree (s : String) (h : pathSafe s) : separatorFree s := by
  have key : ∀ ch : Char, ch.toNat < 128 → ch ∈ s.toList → ch.toNat ∈ bytesOf s := by
    intro ch hlt hm
    unfold bytesOf
    rw [List.mem_flatMap]
    exact ⟨ch, hm, by rw [utf8Bytes_ascii ch hlt]; exact List.mem_singleton_self _⟩
  refine ⟨fun hm => ?_, fun hm => ?_, fun hm => ?_⟩
  · exact (h _ (key '/' (by decide) hm)).2.2 (by decide)
  · have := (h _ (key '?' (by decide) hm)).1
    revert this
    decide
  · have := (h _ (key '#' (by decide) hm)).1
    revert this
    decide

/-- The bytes of the path `CheckFileLock` builds. -/
theorem bytesOf_file_path (tenantID datasetID fileKey : String) :
    bytesOf ("/api/v1/piper/locks/files/" ++ tenantID ++ "/" ++ datasetID ++ "/"
        ++ PathEscape fileKey)
      = 47 :: ((bytesOf "api/v1/piper/locks/files/" ++ bytesOf tenantID ++ [47]
        ++ bytesOf datasetID ++ [47]) ++ escapeBytes (bytesOf fileKey) .encodePathSegment) := by
  rw [bytesOf_append, bytesOf_append, bytesOf_append, bytesOf_append, bytesOf_append,
    bytesOf_PathEscape]
  have h1 : bytesOf "/api/v1/piper/locks/files/" = 47 :: bytesOf "api/v1/piper/locks/files/" := by
    decide
  have h2 : bytesOf "/" = [47] := by decide
  rw [h1, h2]
  simp

/-- The request target of the URL `CheckFileLock` builds, for a base URL made of a
scheme and an authority and a tenant and a dataset of path-safe bytes: the path as
built. -/
theorem CheckFileLock_target (base tenantID datasetID fileKey : String)
    (hbase : originOnly base) (ht : pathSafe tenantID) (hd : pathSafe datasetID)
    (req : Request)
    (hurl : req.url = base ++ ("/api/v1/piper/locks/files/" ++ tenantID ++ "/" ++ datasetID
      ++ "/" ++ PathEscape fileKey)) :
    req.RequestURI = some (bytesOf ("/api/v1/piper/locks/files/" ++ tenantID ++ "/"
      ++ datasetID ++ "/" ++ PathEscape fileKey)) := by
  unfold Request.RequestURI
  rw [hurl, bytesOf_append, bytesOf_file_path]
  have hplain : ∀ c ∈ bytesOf "api/v1/piper/locks/files/" ++ bytesOf tenantID ++ [47]
      ++ bytesOf datasetID ++ [47], validEncoded [c] .encodePath = true ∧ c ≠ 37 := by
    intro c hc
    simp only [List.mem_append, List.mem_singleton] at hc
    rcases hc with (((hc | hc) | hc) | hc) | hc
    · revert c
      decide
    · exact ⟨(ht c hc).1, (ht c hc).2.1⟩
    · subst hc
      decide
    · exact ⟨(hd c hc).1, (hd c hc).2.1⟩
    · subst hc
      decide
  have hvalid : validEncoded (47 :: ((bytesOf "api/v1/piper/locks/files/" ++ bytesOf tenantID
      ++ [47] ++ bytesOf datasetID ++ [47])
      ++ escapeBytes (bytesOf fileKey) .encodePathSegment)) .encodePath = true := by
    have h1 : validEncoded [47] .encodePath = true := by decide
    have h2 := (validEncoded_iff _ .encodePath).2 (fun c hc => (hplain c hc).1)
    have h3 := escapeBytes_valid (bytesOf fileKey) (bytesOf_lt fileKey)
    rw [← List.singleton_append, validEncoded_append, validEncoded_append, h1, h2, h3]
    rfl
  have hun : unescape (47 :: ((bytesOf "api/v1/piper/locks/files/" ++ bytesOf tenantID
      ++ [47] ++ bytesOf datasetID ++ [47])
      ++ escapeBytes (bytesOf fileKey) .encodePathSegment)) .encodePath ≠ none := by
    have h37 : 37 ∉ 47 :: (bytesOf "api/v1/piper/locks/files/" ++ bytesOf tenantID
        ++ [47] ++ bytesOf datasetID ++ [47]) := by
      intro hm
      rcases List.mem_cons.1 hm with e | hm
      · omega
      · exact (hplain 37 hm).2 rfl
    have h := unescape_append_plain .encodePath (by decide) _
      (escapeBytes (bytesOf fileKey) .encodePathSegment) h37
    rw [List.cons_append] at h
    rw [h]
    have h2 := unescape_escapeBytes_path (bytesOf fileKey) (bytesOf_lt fileKey) []
    rw [List.append_nil] at h2
    rw [h2]
    simp [unescape]
  have hsep := validEncoded_separators _ hvalid
  obtain ⟨scheme, hparse⟩ := Parse_origin_path base hbase _
    (fun hm => hsep.1 (List.mem_cons_of_mem _ hm))
    (fun hm => hsep.2 (List.mem_cons_of_mem _ hm))
  rw [hparse]
  exact RequestURI_setPath_valid scheme _ hvalid hun

/-- The URL of a request that `CheckFileLock` sends. -/
theorem CheckFileLock_url (pk : Packages) (c : Client) (tenantID datasetID fileKey : String)
    (net : List Request) (req : Request)
    (h : (CheckFileLock pk c tenantID datasetID fileKey net).2 = net ++ [req]) :
    req.url = c.baseURL ++ ("/api/v1/piper/locks/files/" ++ tenantID ++ "/" ++ datasetID
      ++ "/" ++ PathEscape fileKey) := by
  rw [CheckFileLock_log] at h
  rcases doRequest_log pk c "GET" ("/api/v1/piper/locks/files/" ++ tenantID ++ "/"
      ++ datasetID ++ "/" ++ PathEscape fileKey) none net with ⟨e, he⟩ | ⟨req0, h0, -, hu, -⟩
  · rw [he] at h
    have := congrArg List.length h
    simp at this
  · rw [h0] at h
    have h1 := List.append_cancel_left h
    simp only [List.cons.injEq, and_true] at h1
    rw [← h1]
    exact hu

/-- C23 (counterexample): the tenants `a b` and `a%20b` hold none of `/`, `?` and `#`, yet
with the same dataset and file key the two calls put the same request target on the wire,
`/api/v1/piper/locks/files/a%20b/d/k`; and for the tenant `a b` and the file key `x/y` the
request target is `/api/v1/piper/locks/files/a%20b/d/x/y`, with four segments after the
prefix: the parser drops the path as built, which holds a space, and escapes the decoded
path again. -/
theorem CheckFileLock_targets_collide :
    separatorFree "a b" ∧ separatorFree "a%20b" ∧ separatorFree "d" ∧
    (∃ req1 req2,
      (CheckFileLock refPackages (clientOf 200 sampleFileLockJSON) "a b" "d" "k" []).2
        = [req1] ∧
      (CheckFileLock refPackages (clientOf 200 sampleFileLockJSON) "a%20b" "d" "k" []).2
        = [req2] ∧
      req1.RequestURI = some (bytesOf "/api/v1/piper/locks/files/a%20b/d/k") ∧
      req2.RequestURI = some (bytesOf "/api/v1/piper/locks/files/a%20b/d/k")) ∧
    (∃ req3,
      (CheckFileLock refPackages (clientOf 200 sampleFileLockJSON) "a b" "d" "x/y" []).2
        = [req3] ∧
      req3.RequestURI = some (bytesOf "/api/v1/piper/locks/files/a%20b/d/x/y") ∧
      (bytesOf "a%20b/d/x/y").splitOn 47
        = [bytesOf "a%20b", bytesOf "d", bytesOf "x", bytesOf "y"]) :=
  ⟨by unfold separatorFree; decide, by unfold separatorFree; decide,
    by unfold separatorFree; decide,
    ⟨_, _, rfl, rfl, by decide, by decide⟩,
    ⟨_, rfl, by decide, by decide⟩⟩

/-- C23 (amended): for every file key, the last segment of the path `CheckFileLock` builds
is the path-escaped key: it holds none of `/`, `?` and `#`, and path-unescaping it gives the
bytes of the key back, which determine the key. Every request the method sends is made for
the base URL followed by `/api/v1/piper/locks/files/<tenantID>/<datasetID>/<escaped
fileKey>`, and one is sent whenever the URL parser accepts that URL. When the tenant and the
dataset hold none of the three characters, what follows the prefix in that string splits at
`/` into exactly the tenant, the dataset and the escaped key, the string holds no `?` and no
`#`, and two calls whose requests were made for the same URL string were made with the same
triple. When moreover the base URL is a scheme and an authority only and the tenant and the
dataset are made of bytes that are valid in an encoded path and are not `%`, the request
target on the wire is the path as built, and two such calls with the same request target
were made with the same triple. -/
theorem CheckFileLock_path_has_three_segments (pk : Packages) (c : Client)
    (tenantID datasetID fileKey : String) (net : List Request) :
    separatorFree (PathEscape fileKey) ∧
    PathUnescape (PathEscape fileKey) = some (bytesOf fileKey) ∧
    (∀ key2 : String, bytesOf key2 = bytesOf fileKey → key2 = fileKey) ∧
    (∀ req, (CheckFileLock pk c tenantID datasetID fileKey net).2 = net ++ [req] →
      req.url = c.baseURL ++ ("/api/v1/piper/locks/files/" ++ tenantID ++ "/" ++ datasetID
        ++ "/" ++ PathEscape fileKey)) ∧
    (pk.ParseURL (c.baseURL ++ ("/api/v1/piper/locks/files/" ++ tenantID ++ "/" ++ datasetID
        ++ "/" ++ PathEscape fileKey)) = none →
      ∃ req, (CheckFileLock pk c tenantID datasetID fileKey net).2 = net ++ [req]) ∧
    (separatorFree tenantID → separatorFree datasetID →
      (∃ rest, "/api/v1/piper/locks/files/" ++ tenantID ++ "/" ++ datasetID ++ "/"
          ++ PathEscape fileKey = "/api/v1/piper/locks/files/" ++ rest ∧
        rest.toList.splitOn '/'
          = [tenantID.toList, datasetID.toList, (PathEscape fileKey).toList]) ∧
      '?' ∉ ("/api/v1/piper/locks/files/" ++ tenantID ++ "/" ++ datasetID ++ "/"
          ++ PathEscape fileKey).toList ∧
      '#' ∉ ("/api/v1/piper/locks/files/" ++ tenantID ++ "/" ++ datasetID ++ "/"
          ++ PathEscape fileKey).toList ∧
      ∀ (tenantID2 datasetID2 fileKey2 : String) (net2 : List Request) (req req2 : Request),
        separatorFree tenantID2 → separatorFree datasetID2 →
        (CheckFileLock pk c tenantID datasetID fileKey net).2 = net ++ [req] →
        (CheckFileLock pk c tenantID2 datasetID2 fileKey2 net2).2 = net2 ++ [req2] →
        req.url = req2.url →
        tenantID = tenantID2 ∧ datasetID = datasetID2 ∧ fileKey = fileKey2) ∧
    (originOnly c.baseURL → pathSafe tenantID → pathSafe datasetID →
      separatorFree tenantID ∧ separatorFree datasetID ∧
      (∀ req, (CheckFileLock pk c tenantID datasetID fileKey net).2 = net ++ [req] →
        req.RequestURI = some (bytesOf ("/api/v1/piper/locks/files/" ++ tenantID ++ "/"
          ++ datasetID ++ "/" ++ PathEscape fileKey))) ∧
      ∀ (tenantID2 datasetID2 fileKey2 : String) (net2 : List Request) (req req2 : Request),
        pathSafe tenantID2 → pathSafe datasetID2 →
        (CheckFileLock pk c tenantID datasetID fileKey net).2 = net ++ [req] →
        (CheckFileLock pk c tenantID2 datasetID2 fileKey2 net2).2 = net2 ++ [req2] →
        req.RequestURI = req2.RequestURI →
        tenantID = tenantID2 ∧ datasetID = datasetID2 ∧ fileKey = fileKey2) := by
  refine ⟨PathEscape_separators fileKey, PathUnescape_PathEscape fileKey,
    fun key2 h => bytesOf_injective key2 fileKey h,
    fun req h => CheckFileLock_url pk c tenantID datasetID fileKey net req h, ?_, ?_, ?_⟩
  · intro hurl
    obtain ⟨req, h1, -⟩ := doRequest_sent pk c "GET" ("/api/v1/piper/locks/files/"
      ++ tenantID ++ "/" ++ datasetID ++ "/" ++ PathEscape fileKey) none net none
      ⟨fun b hb => (by cases hb), fun _ => rfl⟩ hurl
    exact ⟨req, (CheckFileLock_log pk c tenantID datasetID fileKey net).trans h1⟩
  · intro ht hd
    have hk := PathEscape_separators fileKey
    refine ⟨⟨tenantID ++ "/" ++ datasetID ++ "/" ++ PathEscape fileKey, ?_,
      file_path_segments tenantID datasetID fileKey ht.1 hd.1⟩, ?_, ?_, ?_⟩
    · simp only [String.append_assoc]
    · intro hmem
      simp only [String.toList, String.data_append, List.mem_append, or_assoc] at hmem
      rcases hmem with hmem | hmem | hmem | hmem | hmem | hmem
      · revert hmem; decide
      · exact ht.2.1 hmem
      · revert hmem; decide
      · exact hd.2.1 hmem
      · revert hmem; decide
      · exact hk.2.1 hmem
    · intro hmem
      simp only [String.toList, String.data_append, List.mem_append, or_assoc] at hmem
      rcases hmem with hmem | hmem | hmem | hmem | hmem | hmem
      · revert hmem; decide
      · exact ht.2.2 hmem
      · revert hmem; decide
      · exact hd.2.2 hmem
      · revert hmem; decide
      · exact hk.2.2 hmem
    · intro tenantID2 datasetID2 fileKey2 net2 req req2 ht2 hd2 h1 h2 hurl
      rw [CheckFileLock_url pk c tenantID datasetID fileKey net req h1,
        CheckFileLock_url pk c tenantID2 datasetID2 fileKey2 net2 req2 h2] at hurl
      have hdata := congrArg String.data hurl
      rw [String.data_append, String.data_append] at hdata
      exact file_path_inj tenantID datasetID fileKey tenantID2 datasetID2 fileKey2
        ht.1 hd.1 ht2.1 hd2.1 (String.ext (List.append_cancel_left hdata))
  · intro hbase ht hd
    have target : ∀ (t d k : String) (n : List Request) (req : Request),
        pathSafe t → pathSafe d → (CheckFileLock pk c t d k n).2 = n ++ [req] →
        req.RequestURI = some (bytesOf ("/api/v1/piper/locks/files/" ++ t ++ "/" ++ d ++ "/"
          ++ PathEscape k)) := fun t d k n req h1 h2 h3 =>
      CheckFileLock_target c.baseURL t d k hbase h1 h2 req (CheckFileLock_url pk c t d k n req h3)
    refine ⟨pathSafe_separatorFree tenantID ht, pathSafe_separatorFree datasetID hd,
      fun req h => target tenantID datasetID fileKey net req ht hd h, ?_⟩
    intro tenantID2 datasetID2 fileKey2 net2 req req2 ht2 hd2 h1 h2 huri
    rw [target tenantID datasetID fileKey net req ht hd h1,
      target tenantID2 datasetID2 fileKey2 net2 req2 ht2 hd2 h2] at huri
    exact file_path_inj tenantID datasetID fileKey tenantID2 datasetID2 fileKey2
      (pathSafe_separatorFree tenantID ht).1 (pathSafe_separatorFree datasetID hd).1
      (pathSafe_separatorFree tenantID2 ht2).1 (pathSafe_separatorFree datasetID2 hd2).1
      (bytesOf_injective _ _ (Option.some.inj huri))

/-- C23 (witness): the file key `a/b c?é#+%` is escaped to `a%2Fb%20c%3F%C3%A9%23+%25`,
which unescapes to the bytes of the key; for the base URL `http://control:8080`, the tenant
`tenant1` and the dataset `ds1` the request is sent, what follows the prefix splits into
three segments, and the request target on the wire is
`/api/v1/piper/locks/files/tenant1/ds1/a%2Fb%20c%3F%C3%A9%23+%25`. -/
theorem CheckFileLock_path_has_three_segments_witness :
    PathEscape "a/b c?\u00e9#+%" = "a%2Fb%20c%3F%C3%A9%23+%25" ∧
    separatorFree "tenant1" ∧ separatorFree "ds1" ∧
    PathUnescape (PathEscape "a/b c?\u00e9#+%") = some (bytesOf "a/b c?\u00e9#+%") ∧
    (∃ req, (CheckFileLock refPackages (clientOf 200 sampleFileLockJSON) "tenant1" "ds1"
      "a/b c?\u00e9#+%" []).2 = [] ++ [req]) ∧
    (∃ rest, "/api/v1/piper/locks/files/" ++ "tenant1" ++ "/" ++ "ds1" ++ "/"
        ++ PathEscape "a/b c?\u00e9#+%" = "/api/v1/piper/locks/files/" ++ rest ∧
      rest.toList.splitOn '/'
        = ["tenant1".toList, "ds1".toList, (PathEscape "a/b c?\u00e9#+%").toList]) ∧
    originOnly (clientOf 200 sampleFileLockJSON).baseURL ∧
    pathSafe "tenant1" ∧ pathSafe "ds1" ∧
    (∀ req, (CheckFileLock refPackages (clientOf 200 sampleFileLockJSON) "tenant1" "ds1"
        "a/b c?\u00e9#+%" []).2 = [] ++ [req] →
      req.RequestURI = some (bytesOf ("/api/v1/piper/locks/files/" ++ "tenant1" ++ "/"
        ++ "ds1" ++ "/" ++ PathEscape "a/b c?\u00e9#+%"))) :=
  ⟨by decide, by unfold separatorFree; decide, by unfold separatorFree; decide,
    (CheckFileLock_path_has_three_segments refPackages (clientOf 200 sampleFileLockJSON)
      "tenant1" "ds1" "a/b c?\u00e9#+%" []).2.1,
    (CheckFileLock_path_has_three_segments refPackages (clientOf 200 sampleFileLockJSON)
      "tenant1" "ds1" "a/b c?\u00e9#+%" []).2.2.2.2.1 (by decide),
    ((CheckFileLock_path_has_three_segments refPackages (clientOf 200 sampleFileLockJSON)
      "tenant1" "ds1" "a/b c?\u00e9#+%" []).2.2.2.2.2.1
        (by unfold separatorFree; decide) (by unfold separatorFree; decide)).1,
    ⟨[104], [116, 116, 112], bytesOf "control:8080", by decide, rfl, by decide, by decide,
      by decide⟩,
    by unfold pathSafe; decide, by unfold pathSafe; decide,
    ((CheckFileLock_path_has_three_segments refPackages (clientOf 200 sampleFileLockJSON)
      "tenant1" "ds1" "a/b c?\u00e9#+%" []).2.2.2.2.2.2
        ⟨[104], [116, 116, 112], bytesOf "control:8080", by decide, rfl, by decide,
          by decide, by decide⟩
        (by unfold pathSafe; decide) (by unfold pathSafe; decide)).2.2.1⟩

end controlclient

namespace log

/-! ## C21: `SetMinLogLevel` drops the attached attributes -/

/-- The built-in members of a record have no member keyed `customerId`. -/
theorem builtinMembers_no_customer (env : Env) (level : slog.Level) (msg : String) :
    ∀ a ∈ builtinMembers env level msg, a.Key ≠ CustomerKey := by
  intro a ha
  unfold builtinMembers at ha
  by_cases hnow : env.Now = 0
  · simp only [hnow, ne_eq, not_true_eq_false, if_false, List.nil_append, List.mem_cons,
      List.mem_singleton, List.not_mem_nil, or_false] at ha
    rcases ha with rfl | rfl | rfl <;>
      simp [slog.TimeKey, slog.LevelKey, slog.SourceKey, slog.MessageKey, CustomerKey]
  · simp only [hnow, ne_eq, not_false_eq_true, if_true, List.cons_append, List.nil_append,
      List.mem_cons, List.mem_singleton, List.not_mem_nil, or_false] at ha
    rcases ha with rfl | rfl | rfl | rfl <;>
      simp [slog.TimeKey, slog.LevelKey, slog.SourceKey, slog.MessageKey, CustomerKey]

/-- The function `SetMinLogLevel` of the package does to the default logger what the
method does to its receiver. -/
theorem default_SetMinLogLevel (lev : Option slog.Leveler) :
    SetMinLogLevel defaultLogger lev = defaultLogger.SetMinLogLevel lev := rfl

/-- C21: `SetMinLogLevel` rebuilds the logger from the writer alone. For a logger built
from `New w` by `With`, `WithTrace`, `WithCustomer` and `SetMinLogLevel`, the logger after
`SetMinLogLevel(lev)` is the one the call leaves on `New w`, whatever `lev` is (nil
included), and no attribute is attached to it. A logging call through it writes nothing at
a disabled level and otherwise one record on `w` made of the built-in members only, which
has no `traceId` and no `customerId` member. -/
theorem SetMinLogLevel_drops_attached_attributes (w : slog.Writer) (l : Logger)
    (hb : Built w l) (lev : Option slog.Leveler) (env : Env) (level : slog.Level)
    (msg : String) (out : slog.Output) :
    l.SetMinLogLevel lev = (New w).SetMinLogLevel lev ∧
    (l.SetMinLogLevel lev).logger.handler.preformattedAttrs = [] ∧
    ((l.SetMinLogLevel lev).log env level msg [] out =
      if ((New w).SetMinLogLevel lev).logger.Enabled level then
        .ok (out.write w (.record (builtinMembers env level msg)))
      else .ok out) ∧
    member TraceKey (builtinMembers env level msg) = none ∧
    member CustomerKey (builtinMembers env level msg) = none := by
  obtain ⟨h1, -, -, -⟩ := Built_inv w l hb
  have heq : l.SetMinLogLevel lev = (New w).SetMinLogLevel lev := by
    unfold Logger.SetMinLogLevel
    rw [h1]
    rfl
  refine ⟨heq, rfl, ?_, member_none _ _ (builtinMembers_keys env level msg),
    member_none _ _ (builtinMembers_no_customer env level msg)⟩
  rw [heq, log_record _ env level msg out rfl rfl]
  simp only [Logger.SetMinLogLevel, New, slog.New, slog.NewJSONHandler, List.append_nil]

/-- C21 (witness): as in the test, an error through `New(w).WithTrace("1234")` has the
`traceId` member `1234`; after `SetMinLogLevel(MinLevelDebug)` on that logger the same
error is written without it. -/
theorem SetMinLogLevel_drops_attached_attributes_witness :
    ∃ child, (New 0).WithTrace "1234" = .ok child ∧ Built 0 child ∧
      child.Error refEnv "oh no" emptyOutput = .ok (emptyOutput.write 0
        (.record (builtinMembers refEnv slog.LevelError "oh no" ++ [⟨TraceKey, .str "1234"⟩]))) ∧
      (child.SetMinLogLevel (some MinLevelDebug.toLeveler)).Error refEnv "oh no" emptyOutput
        = .ok (emptyOutput.write 0 (.record (builtinMembers refEnv slog.LevelError "oh no"))) ∧
      member TraceKey (builtinMembers refEnv slog.LevelError "oh no") = none :=
  ⟨{ w := 0
     logger := ⟨{ (New 0).logger.handler with preformattedAttrs := [⟨TraceKey, .str "1234"⟩] }⟩ },
    rfl,
    Built.withArgs (New 0) _ [.any (.string TraceKey), .any (.string "1234")] Built.new rfl,
    rfl,
    ((SetMinLogLevel_drops_attached_attributes 0 _
      (Built.withArgs (New 0) _ [.any (.string TraceKey), .any (.string "1234")] Built.new rfl)
      (some MinLevelDebug.toLeveler) refEnv slog.LevelError "oh no" emptyOutput).2.2.1).trans
      (if_pos (by decide)),
    (SetMinLogLevel_drops_attached_attributes 0 (New 0) Built.new none refEnv slog.LevelError
      "oh no" emptyOutput).2.2.2.1⟩

end log
